import Mathlib

/-!
# gorush: dispatch engine

A shallow embedding of `src/gorush/notification.go` and `src/gorush/const.go`
(validator, APNs client pool, intake, workers, and the iOS, Android and FCM
dispatchers) together with theorems about it.

Conventions of the embedding

* A Go `map[string]V` is a `GoMap V`: a list of key/value entries.  `GoMap.get`
  is the lookup `m[k]`, `GoMap.set` the assignment `m[k] = v`; a `range` loop
  visits the entries in list order, and a map received from a caller is
  well formed when its keys are pairwise distinct (`GoMap.WF`).
* A Go `error` is an `Option String` (`none` is `nil`), carrying `err.Error()`.
* External collaborators (the counter sink, the loggers, the APNs and GCM
  transports, the certificate loaders) are not part of the sources.  Calls to
  the counter sink are recorded as a list of `StatCall`; the transports are
  oracles threaded through an explicit state, and every call made to them is
  recorded with its reply; calls to the loggers are left out, except the
  error log of the intake.
* The loops entered through the label `Retry` take fuel; the dispatchers start
  them with `maxRetry.toNat + 1` units, and the theorems show that this is
  enough.
* A run-time panic of the Go program is the result `Outcome.panic`.
* The package `payload` of the APNs library is not part of the sources.  Its
  payload is its content map: `NewPayload` stores the dictionary `aps` under the
  key "aps", `Custom(k, v)` is the write `content[k] = v`, and every setter of
  the dictionary reads it back by the type assertion `content["aps"].(*aps)`,
  which panics once a custom value has been written under "aps".
* The deferred `req.Done()` of a dispatcher is modelled where a worker calls
  the dispatcher (`deferredDone`); the blocking of the channel and of the
  completion group is outside the state modelled here.
-/

namespace Gorush

/-! ## Constants (`const.go`) -/

/-- The platform constant for iOS (`iota + 1`). -/
def PlatFormIos : Int := 1

/-- The platform constant for Android. -/
def PlatFormAndroid : Int := 2

/-- The name of the default app of the configuration. -/
def AppNameDefault : String := "normal"

/-! ## Go maps -/

/-- A Go map with string keys, as the list of its entries. -/
abbrev GoMap (V : Type) := List (String × V)

/-- The lookup `m[k]` with its presence flag: `none` when `k` is no key. -/
def GoMap.get {V : Type} : GoMap V → String → Option V
  | [], _ => none
  | (k', v) :: rest, k => if k' = k then some v else GoMap.get rest k

/-- The assignment `m[k] = v`: replaces the entry of `k`, or adds one. -/
def GoMap.set {V : Type} : GoMap V → String → V → GoMap V
  | [], k, v => [(k, v)]
  | (k', v') :: rest, k, v =>
    if k' = k then (k, v) :: rest else (k', v') :: GoMap.set rest k v

/-- The keys of a map, in iteration order. -/
def GoMap.keys {V : Type} (m : GoMap V) : List String := m.map Prod.fst

/-- A well-formed Go map has pairwise distinct keys. -/
def GoMap.WF {V : Type} (m : GoMap V) : Prop := m.keys.Nodup

instance GoMap.decidableWF {V : Type} (m : GoMap V) : Decidable (GoMap.WF m) :=
  inferInstanceAs (Decidable ((m.map Prod.fst).Nodup))

/-! ## Data model (`notification.go`) -/

/-- A value of a `D` map (`interface{}`); the code only copies such values. -/
inductive Value where
  | null : Value
  | bool : Bool → Value
  | num : Int → Value
  | str : String → Value
  deriving DecidableEq, Repr

/-- The type `D`: `map[string]interface{}`. -/
abbrev D := GoMap Value

/-- The per-token push response. -/
structure PushResponse where
  Status : String
  CanonicalId : String
  Error : String
  deriving DecidableEq, Repr

/-- The APNs alert dictionary of a request. -/
structure Alert where
  Action : String := ""
  ActionLocKey : String := ""
  Body : String := ""
  LaunchImage : String := ""
  LocArgs : List String := []
  LocKey : String := ""
  Title : String := ""
  Subtitle : String := ""
  TitleLocArgs : List String := []
  TitleLocKey : String := ""
  deriving DecidableEq, Repr

/-- The notification block of a GCM message (`gcm.Notification`), restricted to
the fields the dispatcher writes. -/
structure GcmNotification where
  Title : String := ""
  Body : String := ""
  Sound : String := ""
  deriving DecidableEq, Repr

/-- A single notification request.  `wg` is the handle of the completion group
(`none` is the nil pointer); `TimeToLive` and `Badge` are nullable. -/
structure PushNotification where
  Tokens : List String
  Platform : Int
  Message : String := ""
  Title : String := ""
  Priority : String := ""
  ContentAvailable : Bool := false
  Sound : String := ""
  Data : D := []
  AppID : String := ""
  Retry : Int := 0
  wg : Option Nat := none
  APIKey : String := ""
  To : String := ""
  CollapseKey : String := ""
  DelayWhileIdle : Bool := false
  TimeToLive : Option Nat := none
  RestrictedPackageName : String := ""
  DryRun : Bool := false
  Notification : GcmNotification := {}
  AndroidData : D := []
  Expiration : Int := 0
  ApnsID : String := ""
  Topic : String := ""
  Badge : Option Int := none
  Category : String := ""
  URLArgs : List String := []
  Alert : Alert := {}
  MutableContent : Bool := false
  IosData : D := []
  deriving DecidableEq, Repr

/-- A request of several notifications. -/
structure RequestPush where
  Notifications : List PushNotification
  deriving Repr

/-! ## Configuration (the fields of `PushConf` the sources read) -/

/-- The `Ios` section of an app. -/
structure SectionIos where
  Enabled : Bool := false
  KeyPath : String := ""
  Password : String := ""
  Production : Bool := false
  MaxRetry : Int := 0
  deriving DecidableEq, Repr

/-- The `Android` section of an app (also the shape of `AndroidFcm`). -/
structure SectionAndroid where
  Enabled : Bool := false
  APIKey : String := ""
  MaxRetry : Int := 0
  deriving DecidableEq, Repr

/-- The configuration of one app; the default value is Go's zero value, which
is what `PushConf.Apps[id]` yields for an absent key. -/
structure SectionApp where
  Ios : SectionIos := {}
  Android : SectionAndroid := {}
  AndroidFcm : SectionAndroid := {}
  deriving DecidableEq, Repr

/-- The `Core` section. -/
structure SectionCore where
  Sync : Bool := false
  CertDir : String := ""
  deriving DecidableEq, Repr

/-- The configuration `PushConf`. -/
structure ConfYaml where
  Core : SectionCore := {}
  Apps : GoMap SectionApp := []
  deriving Repr

/-- The index expression `PushConf.Apps[id]`: the zero value for an absent key. -/
def ConfYaml.app (conf : ConfYaml) (id : String) : SectionApp :=
  (GoMap.get conf.Apps id).getD {}

/-! ## Counter sink -/

/-- A call made to the counter sink `StatStorage`, with its argument. -/
inductive StatCall where
  | AddTotalCount : Int → StatCall
  | AddIosSuccess : Int → StatCall
  | AddIosError : Int → StatCall
  | AddAndroidSuccess : Int → StatCall
  | AddAndroidError : Int → StatCall
  deriving DecidableEq, Repr

/-- The sum of the arguments of the `AddIosSuccess` calls of a call list. -/
def iosSuccessSum : List StatCall → Int
  | [] => 0
  | StatCall.AddIosSuccess n :: rest => n + iosSuccessSum rest
  | _ :: rest => iosSuccessSum rest

/-- The sum of the arguments of the `AddIosError` calls of a call list. -/
def iosErrorSum : List StatCall → Int
  | [] => 0
  | StatCall.AddIosError n :: rest => n + iosErrorSum rest
  | _ :: rest => iosErrorSum rest

/-! ## Validator -/

/-- The function `CheckMessage`: `none` is the nil error.  `TimeToLive` is a
`*uint`, so the comparison with `uint(0)` is kept as the source writes it. -/
def CheckMessage (req : PushNotification) : Option String :=
  if req.Tokens.length = 0 then
    some "the message must specify at least one registration ID"
  else if (req.Tokens.length : Int) = PlatFormIos
      ∧ req.Tokens.head?.map String.length = some 0 then
    some "the token must not be empty"
  else if req.Platform = PlatFormAndroid ∧ req.Tokens.length > 1000 then
    some "the message may specify at most 1000 registration IDs"
  else if req.Platform = PlatFormAndroid
      ∧ (match req.TimeToLive with
         | none => false
         | some ttl => decide (ttl < 0) || decide (2419200 < ttl)) = true then
    some ("the message's TimeToLive field must be an integer "
      ++ "between 0 and 2419200 (4 weeks)")
  else none

/-! ## Intake -/

/-- What a run of `queueNotification` produces: the notifications sent to the
channel `QueueNotification` in order, the number of `wg.Add(1)` calls, the
error log, the calls to the counter sink, and the returned count. -/
structure QueueResult where
  queued : List PushNotification := []
  wgAdded : Nat := 0
  errorLog : List String := []
  stats : List StatCall := []
  count : Int := 0
  deriving Repr

/-- The normalisation at the head of the loop body: an empty `AppID` becomes
`AppNameDefault`. -/
def normalizeAppID (notification : PushNotification) : PushNotification :=
  if notification.AppID = "" then { notification with AppID := AppNameDefault }
  else notification

/-- One iteration of the loop of `queueNotification` over `req.Notifications`.
`wgId` is the handle of the completion group of this call. -/
def queueNotificationStep (conf : ConfYaml) (wgId : Nat) (acc : QueueResult)
    (notification : PushNotification) : QueueResult :=
  let notification := normalizeAppID notification
  if (GoMap.get conf.Apps notification.AppID).isNone then
    { acc with errorLog := acc.errorLog ++ ["Unknown app: " ++ notification.AppID] }
  else if notification.Platform = PlatFormIos
      ∧ (conf.app notification.AppID).Ios.Enabled = false then acc
  else if notification.Platform = PlatFormAndroid
      ∧ (conf.app notification.AppID).Android.Enabled = false then acc
  else
    { acc with
      wgAdded := acc.wgAdded + 1
      queued := acc.queued ++ [{ notification with wg := some wgId }]
      count := acc.count + notification.Tokens.length }

/-- The function `queueNotification`, for a run that returns (the channel send
and `wg.Wait()` may block; they change no value of the run). -/
def queueNotification (conf : ConfYaml) (wgId : Nat) (req : RequestPush) : QueueResult :=
  let r := req.Notifications.foldl (queueNotificationStep conf wgId) {}
  { r with stats := r.stats ++ [StatCall.AddTotalCount r.count] }

/-- The skip rule of the intake as the specification words it: the AppID, after
an empty one is replaced by "normal", is no key of `Apps`, or the platform is
iOS and the app's `Ios.Enabled` is false, or the platform is Android and the
app's `Android.Enabled` is false. -/
def skippedBySpec (conf : ConfYaml) (n : PushNotification) : Bool :=
  let id := if n.AppID = "" then "normal" else n.AppID
  match GoMap.get conf.Apps id with
  | none => true
  | some app =>
    (n.Platform == 1 && !app.Ios.Enabled) || (n.Platform == 2 && !app.Android.Enabled)

/-- The accepted count of the specification: the sum of `len(Tokens)` over the
notifications that are not skipped. -/
def acceptedBySpec (conf : ConfYaml) (req : RequestPush) : Int :=
  ((req.Notifications.filter (fun n => !skippedBySpec conf n)).map
    (fun n => (n.Tokens.length : Int))).sum

/-! ## Outcomes of a run -/

/-- How a run of a dispatcher ends: it returns (`ok`), it panics at run time
(`panic`, with the state reached), or the embedding ran out of fuel (`fuel`,
which the theorems show never happens). -/
inductive Outcome (α : Type) where
  | ok : α → Outcome α
  | panic : α → Outcome α
  | fuel : Outcome α
  deriving Repr

/-- The retry cap the three dispatchers compute: the app's `MaxRetry`, replaced
by the request's `Retry` when `req.Retry > 0 && req.Retry < maxRetry`. -/
def retryCap (maxRetry : Int) (retry : Int) : Int :=
  if retry > 0 ∧ retry < maxRetry then retry else maxRetry

/-! ## APNs client pool -/

/-- A loaded certificate (`tls.Certificate`), identified by the file it was
loaded from and the password used. -/
structure Certificate where
  path : String
  password : String
  deriving DecidableEq, Repr

/-- An APNs client: its certificate and whether it talks to the production
host (`Production()`) or the development host (`Development()`). -/
structure ApnsClient where
  Certificate : Certificate
  Production : Bool
  deriving DecidableEq, Repr

/-- The certificate loaders of package `certificate`: each gives a certificate
and an error (`none` is nil), as the Go functions do. -/
structure CertLoader where
  FromP12File : String → String → Certificate × Option String
  FromPemFile : String → String → Certificate × Option String

/-- Scan of `filepath.Ext` over the reversed path: the characters read so far
are in `acc`; the scan stops at a path separator. -/
def filepathExtAux : List Char → List Char → List Char
  | [], _ => []
  | c :: rest, acc =>
    if c = '/' then [] else if c = '.' then c :: acc else filepathExtAux rest (c :: acc)

/-- The library function `filepath.Ext`: the suffix beginning at the final dot
in the final element of the path, empty if there is no dot. -/
def filepathExt (path : String) : String := ⟨filepathExtAux path.data.reverse []⟩

/-- The library predicate `unicode.IsSpace`. -/
def isSpace (c : Char) : Bool :=
  let n := c.toNat
  (9 ≤ n && n ≤ 13) || n = 32 || n = 133 || n = 160 || n = 5760
    || (8192 ≤ n && n ≤ 8202) || n = 8232 || n = 8233 || n = 8239 || n = 8287 || n = 12288

/-- The test `len(strings.TrimSpace(s)) != 0`: some character is no space. -/
def trimSpaceNonEmpty (s : String) : Bool := s.data.any (fun c => !isSpace c)

/-- The function `initAPNSClient`: the client (`none` is nil) and the error. -/
def initAPNSClient (conf : ConfYaml) (loader : CertLoader) (AppID : String) :
    Option ApnsClient × Option String :=
  if (conf.app AppID).Ios.Enabled then
    let ext := filepathExt (conf.app AppID).Ios.KeyPath
    let IosKeyPath := (conf.app AppID).Ios.KeyPath
    let CertCommonDir := conf.Core.CertDir
    let IosKeyPath := if trimSpaceNonEmpty CertCommonDir then CertCommonDir ++ IosKeyPath
      else IosKeyPath
    let loaded : Certificate × Option String :=
      if ext = ".p12" then loader.FromP12File IosKeyPath (conf.app AppID).Ios.Password
      else if ext = ".pem" then loader.FromPemFile IosKeyPath (conf.app AppID).Ios.Password
      else (⟨"", ""⟩, some "wrong certificate key extension")
    match loaded.2 with
    | some err => (none, some err)
    | none =>
      if (conf.app AppID).Ios.Production then
        (some { Certificate := loaded.1, Production := true }, none)
      else
        (some { Certificate := loaded.1, Production := false }, none)
  else (none, none)

/-- What a call of `GetAPNSClient` gives: the client, the error, the pool
`apnsClients.clients` after the call, and how many times the call ran
`initAPNSClient`. -/
structure GetAPNSResult where
  client : Option ApnsClient
  err : Option String
  clients : GoMap (Option ApnsClient)
  initCalls : Nat

/-- The function `GetAPNSClient`, run on its own (no other goroutine between
the two lookups).  The pool maps an AppID to a client pointer, which may be
nil. -/
def GetAPNSClient (conf : ConfYaml) (loader : CertLoader)
    (clients : GoMap (Option ApnsClient)) (AppID : String) : GetAPNSResult :=
  let clients := if clients.length = 0 then [] else clients
  match GoMap.get clients AppID with
  | some client => { client := client, err := none, clients := clients, initCalls := 0 }
  | none =>
    match GoMap.get clients AppID with
    | some client => { client := client, err := none, clients := clients, initCalls := 0 }
    | none =>
      let r := initAPNSClient conf loader AppID
      { client := r.1, err := r.2, clients := GoMap.set clients AppID r.1, initCalls := 1 }

/-! ## iOS dispatcher -/

/-- The alert of an APNs payload: unset, a plain string, or a dictionary. -/
inductive AlertValue where
  | unset : AlertValue
  | text : String → AlertValue
  | dict : Alert → AlertValue
  deriving DecidableEq, Repr

/-- The dictionary `aps` of an APNs payload (the struct `aps` of package
`payload`). -/
structure Aps where
  Alert : AlertValue := AlertValue.unset
  Badge : Option Int := none
  MutableContent : Bool := false
  Sound : String := ""
  ContentAvailable : Bool := false
  URLArgs : List String := []
  Category : String := ""
  deriving DecidableEq, Repr

/-- The APNs payload built through package `payload`: its content map.  `aps`
is the dictionary held under the key "aps" (`none` once a custom value has
taken its place), `Custom` holds the entries written by `payload.Custom`, the
key "aps" included. -/
structure Payload where
  aps : Option Aps := some {}
  Custom : D := []
  deriving DecidableEq, Repr

/-- The method `alert` of the dictionary: its alert as a dictionary, created
empty when the alert is not yet one. -/
def Aps.alertDict (a : Aps) : Gorush.Alert :=
  match a.Alert with
  | AlertValue.dict d => d
  | _ => {}

/-- The method `payload.Custom`: the write `content[key] = val`, which replaces
the dictionary when the key is "aps". -/
def Payload.setCustom (p : Payload) (key : String) (val : Value) : Payload :=
  { aps := if key = "aps" then none else p.aps
    Custom := GoMap.set p.Custom key val }

/-- A setter of the dictionary (`payload.Alert`, `payload.AlertTitle`,
`payload.Category`, ...): it reads the dictionary by the type assertion
`p.content["aps"].(*aps)`, which panics (`none`) when a custom value has
replaced the dictionary, and writes it. -/
def Payload.setAps (p : Payload) (f : Aps → Aps) : Option Payload :=
  match p.aps with
  | some a => some { p with aps := some (f a) }
  | none => none

/-- The statement `if c { payload.Setter(...) }` on a payload under
construction; `none` is a panic raised earlier or by this setter. -/
def guardedSet (c : Prop) [Decidable c] (f : Aps → Aps) : Option Payload → Option Payload
  | none => none
  | some p => if c then p.setAps f else some p

/-- The function `iosAlertDictionary`; `none` is a panic. -/
def iosAlertDictionary (payload : Payload) (req : PushNotification) : Option Payload :=
  some payload
  |> guardedSet (req.Title.length > 0)
      (fun a => { a with Alert := AlertValue.dict { a.alertDict with Title := req.Title } })
  |> guardedSet (req.Alert.Title.length > 0)
      (fun a => { a with Alert := AlertValue.dict { a.alertDict with Title := req.Alert.Title } })
  |> guardedSet (req.Alert.Subtitle.length > 0)
      (fun a => { a with
        Alert := AlertValue.dict { a.alertDict with Subtitle := req.Alert.Subtitle } })
  |> guardedSet (req.Alert.TitleLocKey.length > 0)
      (fun a => { a with
        Alert := AlertValue.dict { a.alertDict with TitleLocKey := req.Alert.TitleLocKey } })
  |> guardedSet (req.Alert.LocArgs.length > 0)
      (fun a => { a with
        Alert := AlertValue.dict { a.alertDict with LocArgs := req.Alert.LocArgs } })
  |> guardedSet (req.Alert.TitleLocArgs.length > 0)
      (fun a => { a with
        Alert := AlertValue.dict { a.alertDict with TitleLocArgs := req.Alert.TitleLocArgs } })
  |> guardedSet (req.Alert.Body.length > 0)
      (fun a => { a with Alert := AlertValue.dict { a.alertDict with Body := req.Alert.Body } })
  |> guardedSet (req.Alert.LaunchImage.length > 0)
      (fun a => { a with
        Alert := AlertValue.dict { a.alertDict with LaunchImage := req.Alert.LaunchImage } })
  |> guardedSet (req.Alert.LocKey.length > 0)
      (fun a => { a with
        Alert := AlertValue.dict { a.alertDict with LocKey := req.Alert.LocKey } })
  |> guardedSet (req.Alert.Action.length > 0)
      (fun a => { a with
        Alert := AlertValue.dict { a.alertDict with Action := req.Alert.Action } })
  |> guardedSet (req.Alert.ActionLocKey.length > 0)
      (fun a => { a with
        Alert := AlertValue.dict { a.alertDict with ActionLocKey := req.Alert.ActionLocKey } })
  |> guardedSet (req.Category.length > 0) (fun a => { a with Category := req.Category })

/-- The loop `for k, v := range m { payload.Custom(k, v) }`, which is also the
loop `for k, v := range m { data[k] = v }` of the Android builders. -/
def rangeSet (target : D) (m : D) : D :=
  m.foldl (fun acc kv => GoMap.set acc kv.1 kv.2) target

/-- An APNs notification (`apns.Notification`).  `Expiration` is in unix
seconds (`none` is the zero time), `Priority` is 0 when unset. -/
structure ApnsNotification where
  ApnsID : String
  Topic : String
  DeviceToken : String := ""
  Expiration : Option Int := none
  Priority : Int := 0
  Payload : Payload := {}
  deriving DecidableEq, Repr

/-- The constant `apns.PriorityLow`. -/
def ApnsPriorityLow : Int := 5

/-- The loop `for k, v := range m { payload.Custom(k, v) }`. -/
def rangeCustom (payload : Payload) (m : D) : Payload :=
  m.foldl (fun p kv => p.setCustom kv.1 kv.2) payload

/-- The function `GetIOSNotification`; `none` is a panic. -/
def GetIOSNotification (req : PushNotification) : Option ApnsNotification :=
  let notification : ApnsNotification := { ApnsID := req.ApnsID, Topic := req.Topic }
  let notification := if req.Expiration > 0 then
    { notification with Expiration := some req.Expiration } else notification
  let notification := if req.Priority.length > 0 ∧ req.Priority = "normal" then
    { notification with Priority := ApnsPriorityLow } else notification
  let payload : Option Payload := some {}
  let payload := guardedSet (req.Message.length > 0)
    (fun a => { a with Alert := AlertValue.text req.Message }) payload
  let payload := guardedSet (∃ b ∈ req.Badge, b ≥ 0) (fun a => { a with Badge := req.Badge })
    payload
  let payload := guardedSet (req.MutableContent = true)
    (fun a => { a with MutableContent := true }) payload
  let payload := guardedSet (req.Sound.length > 0) (fun a => { a with Sound := req.Sound })
    payload
  let payload := guardedSet (req.ContentAvailable = true)
    (fun a => { a with ContentAvailable := true }) payload
  let payload := guardedSet (req.URLArgs.length > 0) (fun a => { a with URLArgs := req.URLArgs })
    payload
  let payload := payload.map (fun p => rangeCustom p req.Data)
  let payload := payload.map (fun p => rangeCustom p req.IosData)
  let payload := payload.bind (fun p => iosAlertDictionary p req)
  payload.map (fun p => { notification with Payload := p })

/-- The response of APNs to one push (`apns.Response`). -/
structure ApnsResponse where
  StatusCode : Int
  Reason : String := ""
  ApnsID : String := ""
  deriving DecidableEq, Repr

/-- The method `Sent` of an APNs response: the status code is 200. -/
def ApnsResponse.Sent (res : ApnsResponse) : Bool := res.StatusCode = 200

/-- What `apnsClient.Push` returns: a transport error with its text, or a
response. -/
inductive PushReply where
  | error : String → PushReply
  | response : ApnsResponse → PushReply
  deriving DecidableEq, Repr

/-- The APNs transport: `Push` of a client on a notification, as a function
of the state `σ` of the world upstream, which it may change. -/
structure ApnsUpstream (σ : Type) where
  Push : σ → ApnsClient → ApnsNotification → PushReply × σ

/-- The state of a run of `PushToIOS`: the response map, the calls made to the
counter sink, the pushes made (device token and reply, in order), the client
pool, the world upstream, and the loop variables `newTokens` and `isError`. -/
structure IosState (σ : Type) where
  pushResponse : GoMap PushResponse := []
  stats : List StatCall := []
  attempts : List (String × PushReply) := []
  clients : GoMap (Option ApnsClient) := []
  upstream : σ
  newTokens : List String := []
  isError : Bool := false

/-- The body of the loop `for _, token := range req.Tokens` of `PushToIOS`,
from the reply of `apnsClient.Push` on: the push is recorded, the entry of the
token is allocated as a success and then rewritten according to the reply. -/
def pushTokenIOS {σ : Type} (token : String) (reply : PushReply) (st : IosState σ) :
    IosState σ :=
  let entry : PushResponse := { Status := "success", CanonicalId := "", Error := "" }
  let st := { st with
    attempts := st.attempts ++ [(token, reply)]
    pushResponse := GoMap.set st.pushResponse token entry }
  match reply with
  | PushReply.error msg =>
    { st with
      pushResponse :=
        GoMap.set st.pushResponse token { entry with Status := "apn_error", Error := msg }
      stats := st.stats ++ [StatCall.AddIosError 1]
      newTokens := st.newTokens ++ [token]
      isError := true }
  | PushReply.response res =>
    if res.StatusCode ≠ 200 then
      { st with
        pushResponse :=
          GoMap.set st.pushResponse token { entry with Status := "failed", Error := res.Reason }
        stats := st.stats ++ [StatCall.AddIosError 1]
        newTokens := st.newTokens ++ [token]
        isError := true }
    else if res.Sent then
      { st with stats := st.stats ++ [StatCall.AddIosSuccess 1] }
    else st

/-- The loop `for _, token := range req.Tokens` of `PushToIOS`.  A push through
a nil client is a nil pointer dereference. -/
def pushTokensIOS {σ : Type} (up : ApnsUpstream σ) (apnsClient : Option ApnsClient)
    (notification : ApnsNotification) : List String → IosState σ → Outcome (IosState σ)
  | [], st => Outcome.ok st
  | token :: rest, st =>
    match apnsClient with
    | none => Outcome.panic st
    | some client =>
      let notification := { notification with DeviceToken := token }
      let r := up.Push st.upstream client notification
      pushTokensIOS up apnsClient notification rest
        (pushTokenIOS token r.1 { st with upstream := r.2 })

/-- The body of `PushToIOS` from the label `Retry` on; one unit of fuel is
spent per pass through the label.  A panic of `GetIOSNotification` ends the
run before the client is fetched. -/
def PushToIOSLoop {σ : Type} (conf : ConfYaml) (loader : CertLoader) (up : ApnsUpstream σ)
    (maxRetry : Int) : Nat → PushNotification → Int → IosState σ → Outcome (IosState σ)
  | 0, _, _, _ => Outcome.fuel
  | fuel + 1, req, retryCount, st =>
    match GetIOSNotification req with
    | none => Outcome.panic { st with isError := false, newTokens := [] }
    | some notification =>
      let g := GetAPNSClient conf loader st.clients req.AppID
      let st := { st with clients := g.clients, isError := false, newTokens := [] }
      match g.err with
      | some _ => Outcome.ok { st with isError := true }
      | none =>
        match pushTokensIOS up g.client notification req.Tokens st with
        | Outcome.ok st =>
          if st.isError = true ∧ retryCount < maxRetry then
            PushToIOSLoop conf loader up maxRetry fuel { req with Tokens := st.newTokens }
              (retryCount + 1) st
          else Outcome.ok st
        | Outcome.panic st => Outcome.panic st
        | Outcome.fuel => Outcome.fuel

/-- The function `PushToIOS`, started on the pool `clients` and the upstream
state `s`; the returned map is the field `pushResponse` of the final state. -/
def PushToIOS {σ : Type} (conf : ConfYaml) (loader : CertLoader) (up : ApnsUpstream σ)
    (clients : GoMap (Option ApnsClient)) (s : σ) (req : PushNotification) :
    Outcome (IosState σ) :=
  let maxRetry := retryCap (conf.app req.AppID).Ios.MaxRetry req.Retry
  PushToIOSLoop conf loader up maxRetry (maxRetry.toNat + 1) req 0
    { clients := clients, upstream := s }

/-! ## Android dispatcher -/

/-- The GCM message (`gcm.HttpMessage`); a nil `Data` map is the empty map. -/
structure HttpMessage where
  To : String
  RegistrationIds : List String := []
  CollapseKey : String
  Priority : String := ""
  ContentAvailable : Bool
  DelayWhileIdle : Bool
  TimeToLive : Option Nat
  RestrictedPackageName : String
  DryRun : Bool
  Data : D := []
  Notification : GcmNotification := {}
  deriving DecidableEq, Repr

/-- The function `GetAndroidNotification`. -/
def GetAndroidNotification (req : PushNotification) : HttpMessage :=
  let notification : HttpMessage :=
    { To := req.To
      CollapseKey := req.CollapseKey
      ContentAvailable := req.ContentAvailable
      DelayWhileIdle := req.DelayWhileIdle
      TimeToLive := req.TimeToLive
      RestrictedPackageName := req.RestrictedPackageName
      DryRun := req.DryRun }
  let notification := { notification with RegistrationIds := req.Tokens }
  let notification := if req.Priority.length > 0 ∧ req.Priority = "high" then
    { notification with Priority := "high" } else notification
  let notification := if req.Data.length > 0 ∨ req.AndroidData.length > 0 then
    let data : D := []
    let data := rangeSet data req.Data
    let data := rangeSet data req.AndroidData
    { notification with Data := data }
    else notification
  let notification := { notification with Notification := req.Notification }
  let notification := if req.Message.length > 0 then
    { notification with Notification := { notification.Notification with Body := req.Message } }
    else notification
  let notification := if req.Title.length > 0 then
    { notification with Notification := { notification.Notification with Title := req.Title } }
    else notification
  let notification := if req.Sound.length > 0 then
    { notification with Notification := { notification.Notification with Sound := req.Sound } }
    else notification
  notification

/-- One per-token result of a GCM response (`gcm.Result`). -/
structure GcmResult where
  MessageId : String := ""
  RegistrationId : String := ""
  Error : String := ""
  deriving DecidableEq, Repr

/-- The GCM response (`gcm.HttpResponse`). -/
structure HttpResponse where
  Success : Int := 0
  Failure : Int := 0
  Results : List GcmResult := []
  deriving DecidableEq, Repr

/-- What `gcm.SendHttp` returns: a transport error with its text, or a
response. -/
inductive GcmReply where
  | error : String → GcmReply
  | response : HttpResponse → GcmReply
  deriving DecidableEq, Repr

/-- The GCM transport: `SendHttp` of an API key and a message, as a function of
the state `σ` of the world upstream, which it may change. -/
structure GcmUpstream (σ : Type) where
  SendHttp : σ → String → HttpMessage → GcmReply × σ

/-- The state of a run of `PushToAndroid`: the response map, the calls made to
the counter sink, the submissions made (message and reply, in order), the
world upstream, and the loop variables `newTokens` and `isError`. -/
structure AndroidState (σ : Type) where
  pushResponse : GoMap PushResponse := []
  stats : List StatCall := []
  batches : List (HttpMessage × GcmReply) := []
  upstream : σ
  newTokens : List String := []
  isError : Bool := false

/-- The body of the loop `for k, result := range res.Results` of
`PushToAndroid`, for the token `req.Tokens[k]`. -/
def readResultAndroid {σ : Type} (token : String) (result : GcmResult)
    (st : AndroidState σ) : AndroidState σ :=
  let entry : PushResponse := { Status := "success", CanonicalId := "", Error := "" }
  let entry := if result.RegistrationId ≠ "" then
    { entry with CanonicalId := result.RegistrationId } else entry
  let st := { st with pushResponse := GoMap.set st.pushResponse token entry }
  if result.Error ≠ "" then
    { st with
      isError := true
      newTokens := st.newTokens ++ [token]
      pushResponse :=
        GoMap.set st.pushResponse token { entry with Status := "failed", Error := result.Error } }
  else st

/-- The loop `for k, result := range res.Results` of `PushToAndroid`, from
index `k` on.  The index expression `req.Tokens[k]` panics when `k` is out of
range. -/
def readResultsAndroid {σ : Type} (Tokens : List String) :
    Nat → List GcmResult → AndroidState σ → Outcome (AndroidState σ)
  | _, [], st => Outcome.ok st
  | k, result :: rest, st =>
    match Tokens[k]? with
    | none => Outcome.panic st
    | some token => readResultsAndroid Tokens (k + 1) rest (readResultAndroid token result st)

/-- The body of `PushToAndroid` from the label `Retry` on; one unit of fuel is
spent per pass through the label. -/
def PushToAndroidLoop {σ : Type} (up : GcmUpstream σ) (apiKey : String) (maxRetry : Int) :
    Nat → PushNotification → Int → AndroidState σ → Outcome (AndroidState σ)
  | 0, _, _, _ => Outcome.fuel
  | fuel + 1, req, retryCount, st =>
    let st := { st with isError := false }
    let notification := GetAndroidNotification req
    let r := up.SendHttp st.upstream apiKey notification
    let st := { st with upstream := r.2, batches := st.batches ++ [(notification, r.1)] }
    match r.1 with
    | GcmReply.error _ => Outcome.ok st
    | GcmReply.response res =>
      let st := { st with
        stats := st.stats
          ++ [StatCall.AddAndroidSuccess res.Success, StatCall.AddAndroidError res.Failure]
        newTokens := [] }
      match readResultsAndroid req.Tokens 0 res.Results st with
      | Outcome.ok st =>
        if st.isError = true ∧ retryCount < maxRetry then
          PushToAndroidLoop up apiKey maxRetry fuel { req with Tokens := st.newTokens }
            (retryCount + 1) st
        else Outcome.ok st
      | Outcome.panic st => Outcome.panic st
      | Outcome.fuel => Outcome.fuel

/-- The function `PushToAndroid`, started on the upstream state `s`; the
returned map is the field `pushResponse` of the final state. -/
def PushToAndroid {σ : Type} (conf : ConfYaml) (up : GcmUpstream σ) (s : σ)
    (req : PushNotification) : Outcome (AndroidState σ) :=
  let maxRetry := retryCap (conf.app req.AppID).Android.MaxRetry req.Retry
  let apiKey := if req.APIKey = "" then (conf.app req.AppID).Android.APIKey else req.APIKey
  match CheckMessage req with
  | some _ => Outcome.ok { upstream := s }
  | none =>
    PushToAndroidLoop up apiKey maxRetry (maxRetry.toNat + 1) req 0 { upstream := s }

/-! ## FCM dispatcher -/

/-- An FCM client (`fcm.FcmClient`): the API key it was created with. -/
structure FcmClient where
  ApiKey : String
  deriving DecidableEq, Repr

/-- The function `initFCMClient`: the client (`none` is nil) and the error. -/
def initFCMClient (conf : ConfYaml) (AppID : String) : Option FcmClient × Option String :=
  if (conf.app AppID).AndroidFcm.Enabled then
    let apiKey := (conf.app AppID).AndroidFcm.APIKey
    (some { ApiKey := apiKey }, none)
  else (none, some "FCM not enabled")

/-- The function `GetFcmClient`. -/
def GetFcmClient (conf : ConfYaml) (AppID : String) : Option FcmClient × Option String :=
  initFCMClient conf AppID

/-- The notification payload of an FCM message (`fcm.NotificationPayload`),
restricted to the fields the dispatcher writes. -/
structure NotificationPayload where
  Title : String := ""
  Body : String := ""
  Sound : String := ""
  deriving DecidableEq, Repr

/-- The function `GetFcmNotification`: the notification payload and the data
map.  The strings written into the data map are `Value.str` values. -/
def GetFcmNotification (req : PushNotification) : NotificationPayload × D :=
  let notification : NotificationPayload := {}
  let data : D := []
  let data := if req.Data.length > 0 ∨ req.AndroidData.length > 0 then
    let data := rangeSet data req.Data
    let data := rangeSet data req.AndroidData
    data
    else data
  let r : NotificationPayload × D := if req.Message.length > 0 then
    ({ notification with Body := req.Message }, GoMap.set data "Body" (Value.str req.Message))
    else (notification, data)
  let r : NotificationPayload × D := if req.Title.length > 0 then
    ({ r.1 with Title := req.Title }, GoMap.set r.2 "Title" (Value.str req.Title))
    else r
  let r : NotificationPayload × D := if req.Sound.length > 0 then
    ({ r.1 with Sound := req.Sound }, GoMap.set r.2 "Sound" (Value.str req.Sound))
    else r
  r

/-- The FCM message a client sends: its API key, the recipient and data set by
`NewFcmMsgTo`, and the payload set by `SetNotificationPayload`. -/
structure FcmMsg where
  ApiKey : String
  To : String
  Data : D
  Notification : NotificationPayload
  deriving DecidableEq, Repr

/-- What `fcmClient.Send` returns: an error with its text, or a response
status with its field `Ok`. -/
inductive FcmReply where
  | error : String → FcmReply
  | response : Bool → FcmReply
  deriving DecidableEq, Repr

/-- The FCM transport: `Send` of a message, as a function of the state `σ` of
the world upstream, which it may change. -/
structure FcmUpstream (σ : Type) where
  Send : σ → FcmMsg → FcmReply × σ

/-- The state of a run of `PushToAndroidFcm`: the response map, the messages
sent (with their replies, in order), the world upstream, and the loop variables
`newTokens` and `isError`. -/
structure FcmState (σ : Type) where
  pushResponse : GoMap PushResponse := []
  sends : List (FcmMsg × FcmReply) := []
  upstream : σ
  newTokens : List String := []
  isError : Bool := false

/-- The body of the loop `for _, token := range req.Tokens` of
`PushToAndroidFcm`, from the reply of `fcmClient.Send` on. -/
def pushTokenFcm {σ : Type} (token : String) (msg : FcmMsg) (reply : FcmReply)
    (st : FcmState σ) : FcmState σ :=
  let entry : PushResponse := { Status := "success", CanonicalId := "", Error := "" }
  let st := { st with
    sends := st.sends ++ [(msg, reply)]
    pushResponse := GoMap.set st.pushResponse token entry }
  match reply with
  | FcmReply.error text =>
    { st with
      pushResponse :=
        GoMap.set st.pushResponse token { entry with Status := "failed", Error := text }
      newTokens := st.newTokens ++ [token]
      isError := true }
  | FcmReply.response _ => st

/-- The loop `for _, token := range req.Tokens` of `PushToAndroidFcm`.  A
message built through a nil client is a nil pointer dereference. -/
def pushTokensFcm {σ : Type} (up : FcmUpstream σ) (fcmClient : Option FcmClient)
    (notification : NotificationPayload) (data : D) :
    List String → FcmState σ → Outcome (FcmState σ)
  | [], st => Outcome.ok st
  | token :: rest, st =>
    match fcmClient with
    | none => Outcome.panic st
    | some client =>
      let msg : FcmMsg :=
        { ApiKey := client.ApiKey, To := token, Data := data, Notification := notification }
      let r := up.Send st.upstream msg
      pushTokensFcm up fcmClient notification data rest
        (pushTokenFcm token msg r.1 { st with upstream := r.2 })

/-- The body of `PushToAndroidFcm` from the label `Retry` on; one unit of fuel
is spent per pass through the label. -/
def PushToAndroidFcmLoop {σ : Type} (conf : ConfYaml) (up : FcmUpstream σ) (maxRetry : Int) :
    Nat → PushNotification → Int → FcmState σ → Outcome (FcmState σ)
  | 0, _, _, _ => Outcome.fuel
  | fuel + 1, req, retryCount, st =>
    let st := { st with isError := false, newTokens := [] }
    let nd := GetFcmNotification req
    let g := GetFcmClient conf req.AppID
    match g.2 with
    | some _ => Outcome.ok { st with isError := true }
    | none =>
      match pushTokensFcm up g.1 nd.1 nd.2 req.Tokens st with
      | Outcome.ok st =>
        if st.isError = true ∧ retryCount < maxRetry then
          PushToAndroidFcmLoop conf up maxRetry fuel { req with Tokens := st.newTokens }
            (retryCount + 1) st
        else Outcome.ok st
      | Outcome.panic st => Outcome.panic st
      | Outcome.fuel => Outcome.fuel

/-- The function `PushToAndroidFcm`, started on the upstream state `s`; the
returned map is the field `pushResponse` of the final state. -/
def PushToAndroidFcm {σ : Type} (conf : ConfYaml) (up : FcmUpstream σ) (s : σ)
    (req : PushNotification) : Outcome (FcmState σ) :=
  let maxRetry := retryCap (conf.app req.AppID).AndroidFcm.MaxRetry req.Retry
  PushToAndroidFcmLoop conf up maxRetry (maxRetry.toNat + 1) req 0 { upstream := s }

/-! ## Workers and the completion group -/

/-- The method `Done` of a notification: the completion group it signals, none
when `wg` is nil. -/
def PushNotification.Done (p : PushNotification) : List Nat :=
  match p.wg with
  | some g => [g]
  | none => []

/-- The statement `defer req.Done()` at the head of a dispatcher: the signals
sent when the dispatcher is left, which it is by a return and by a panic
alike. -/
def deferredDone {α : Type} (req : PushNotification) : Outcome α → List Nat
  | Outcome.ok _ => req.Done
  | Outcome.panic _ => req.Done
  | Outcome.fuel => []

/-- What a worker did with one notification: the dispatcher it called with the
outcome of the call, or nothing. -/
inductive Handled (σ τ : Type) where
  | ios : Outcome (IosState σ) → Handled σ τ
  | android : Outcome (AndroidState τ) → Handled σ τ
  | nothing : Handled σ τ

/-- One iteration of the loop of `startWorker` on the notification taken from
the queue: the `switch` on the platform, and the `Done` signals sent during the
iteration. -/
def startWorkerStep {σ τ : Type} (conf : ConfYaml) (loader : CertLoader)
    (apns : ApnsUpstream σ) (gcm : GcmUpstream τ) (clients : GoMap (Option ApnsClient))
    (sa : σ) (sg : τ) (notification : PushNotification) : Handled σ τ × List Nat :=
  if notification.Platform = PlatFormIos then
    let o := PushToIOS conf loader apns clients sa notification
    (Handled.ios o, deferredDone notification o)
  else if notification.Platform = PlatFormAndroid then
    let o := PushToAndroid conf gcm sg notification
    (Handled.android o, deferredDone notification o)
  else (Handled.nothing, [])

/-! ## Observations on runs -/

/-- A property of the end state of a run: `P` when it returns, `Q` when it
panics; a run out of fuel has no end state. -/
def Outcome.Ends {α : Type} (P Q : α → Prop) : Outcome α → Prop
  | Outcome.ok a => P a
  | Outcome.panic a => Q a
  | Outcome.fuel => False

/-- A property of the state a run ends in, whether it returns or panics; a
run out of fuel has no end state. -/
def Outcome.Holds {α : Type} (P : α → Prop) : Outcome α → Prop
  | Outcome.ok a => P a
  | Outcome.panic a => P a
  | Outcome.fuel => False

/-- A property of the state a run returns; it fails for a run that panics. -/
def Outcome.Returns {α : Type} (P : α → Prop) : Outcome α → Prop
  | Outcome.ok a => P a
  | Outcome.panic _ => False
  | Outcome.fuel => False

/-- Whether the run ends in a panic. -/
def Outcome.isPanic {α : Type} : Outcome α → Bool
  | Outcome.panic _ => true
  | _ => false

/-- The state a run returns, if it returns. -/
def Outcome.returned? {α : Type} : Outcome α → Option α
  | Outcome.ok a => some a
  | _ => none

/-- The pool after a sequence of `GetAPNSClient` calls, one per AppID of the
list, in order. -/
def poolAfterCalls (conf : ConfYaml) (loader : CertLoader) :
    GoMap (Option ApnsClient) → List String → GoMap (Option ApnsClient)
  | clients, [] => clients
  | clients, AppID :: rest =>
    poolAfterCalls conf loader (GetAPNSClient conf loader clients AppID).clients rest

/-- The effective `MaxRetry` in the words of the specification:
`min(request.Retry, app.MaxRetry)` when `0 < request.Retry < app.MaxRetry`, else
`app.MaxRetry`. -/
def effectiveMaxRetryBySpec (appMaxRetry requestRetry : Int) : Int :=
  if 0 < requestRetry ∧ requestRetry < appMaxRetry then min requestRetry appMaxRetry
  else appMaxRetry

/-! ## Observations on runs of the iOS dispatcher -/

/-- The number of pushes made for the device token `t`. -/
def attemptsFor (t : String) (attempts : List (String × PushReply)) : Nat :=
  (attempts.map Prod.fst).count t

/-- Whether a push failed: a transport error, or a status code other than
200. -/
def PushReply.isFailure : PushReply → Bool
  | PushReply.error _ => true
  | PushReply.response res => decide (res.StatusCode ≠ 200)

/-- The entry the specification gives a token for the reply to a push: status
"apn_error" with the error text for a transport error, status "failed" with the
upstream reason for an HTTP status other than 200, status "success" with an
empty error otherwise. -/
def responseBySpec : PushReply → PushResponse
  | PushReply.error msg => { Status := "apn_error", CanonicalId := "", Error := msg }
  | PushReply.response res =>
    if res.StatusCode = 200 then { Status := "success", CanonicalId := "", Error := "" }
    else { Status := "failed", CanonicalId := "", Error := res.Reason }

/-- The reply to the last push made for the device token `t`. -/
def lastReply (t : String) (attempts : List (String × PushReply)) : Option PushReply :=
  ((attempts.filter (fun a => a.1 = t)).getLast?).map Prod.snd

/-- The number of pushes that failed. -/
def failedAttempts (attempts : List (String × PushReply)) : Nat :=
  (attempts.filter (fun a => a.2.isFailure)).length

/-- The number of pushes that did not fail. -/
def acceptedAttempts (attempts : List (String × PushReply)) : Nat :=
  (attempts.filter (fun a => !a.2.isFailure)).length

/-- The agreement of the sink with the pushes made: the arguments of the
`AddIosError` calls sum to the number of failed pushes and those of the
`AddIosSuccess` calls to the number of pushes that did not fail. -/
def countsAgree {σ : Type} (st : IosState σ) : Prop :=
  iosErrorSum st.stats = failedAttempts st.attempts
    ∧ iosSuccessSum st.stats = acceptedAttempts st.attempts

/-- The number of entries of a response map with status "success". -/
def successEntries (m : GoMap PushResponse) : Nat :=
  (m.filter (fun e => e.2.Status = "success")).length

/-- Whether the response map has an entry with status "success" for a token. -/
def isSuccessAt (m : GoMap PushResponse) (t : String) : Bool :=
  match GoMap.get m t with
  | some e => decide (e.Status = "success")
  | none => false

/-- The invariant of the response map: every entry is the specification's
entry for the reply to the last push made for its token. -/
def mapRecordsLast {σ : Type} (st : IosState σ) : Prop :=
  ∀ t, GoMap.get st.pushResponse t = (lastReply t st.attempts).map responseBySpec

/-- The availability of the APNs client of an app in a pool: `GetAPNSClient`
gives this client and no error. -/
def clientObtained (conf : ConfYaml) (loader : CertLoader)
    (clients : GoMap (Option ApnsClient)) (AppID : String) (c : ApnsClient) : Prop :=
  (GetAPNSClient conf loader clients AppID).client = some c
    ∧ (GetAPNSClient conf loader clients AppID).err = none

/-- Whether `iosAlertDictionary` calls a setter of the dictionary `aps` on a
request: one of the eleven alert fields it reads, or the category, is not
empty. -/
def writesDictionary (req : PushNotification) : Prop :=
  req.Title.length > 0 ∨ req.Alert.Title.length > 0 ∨ req.Alert.Subtitle.length > 0
    ∨ req.Alert.TitleLocKey.length > 0 ∨ req.Alert.LocArgs.length > 0
    ∨ req.Alert.TitleLocArgs.length > 0 ∨ req.Alert.Body.length > 0
    ∨ req.Alert.LaunchImage.length > 0 ∨ req.Alert.LocKey.length > 0
    ∨ req.Alert.Action.length > 0 ∨ req.Alert.ActionLocKey.length > 0
    ∨ req.Category.length > 0

instance writesDictionary.decidable (req : PushNotification) :
    Decidable (writesDictionary req) := by
  unfold writesDictionary
  infer_instance

/-- The invariant of the counters inside the token loop: the tokens still to
push and the tokens kept for a retry are pairwise distinct and have no success
entry, and the sink has been told every success entry and every failed push. -/
def countersAgree {σ : Type} (rem : List String) (st : IosState σ) : Prop :=
  (rem ++ st.newTokens).Nodup
    ∧ (∀ t ∈ rem ++ st.newTokens, isSuccessAt st.pushResponse t = false)
    ∧ (successEntries st.pushResponse : Int) = iosSuccessSum st.stats
    ∧ iosErrorSum st.stats = failedAttempts st.attempts

/-! ## Observations on runs of the Android dispatcher -/

/-- The token/result pairs of a submission: the tokens of the message matched
by index with the results of the response; none for a transport error. -/
def batchPairs (b : HttpMessage × GcmReply) : List (String × GcmResult) :=
  match b.2 with
  | GcmReply.response res => b.1.RegistrationIds.zip res.Results
  | GcmReply.error _ => []

/-- The token/result pairs of all submissions of a run, in order. -/
def resultPairs (batches : List (HttpMessage × GcmReply)) : List (String × GcmResult) :=
  (batches.map batchPairs).flatten

/-- The last value paired with the token `t` in a list of pairs. -/
def lastPair {β : Type} (t : String) (pairs : List (String × β)) : Option β :=
  ((pairs.filter (fun p => p.1 = t)).getLast?).map Prod.snd

/-- The result of the token `t` in the last batch in which it was submitted. -/
def lastResult (t : String) (batches : List (HttpMessage × GcmReply)) : Option GcmResult :=
  lastPair t (resultPairs batches)

/-- The entry the specification gives a token for a GCM result: status "failed"
with the error of the result when that is not empty, status "success"
otherwise, and the registration id of the result as canonical id (empty when
the result carries none). -/
def androidResponseBySpec (r : GcmResult) : PushResponse :=
  { Status := if r.Error ≠ "" then "failed" else "success"
    CanonicalId := r.RegistrationId
    Error := r.Error }

/-- The tokens of a submission whose result carries an error, in order. -/
def failedTokens (b : HttpMessage × GcmReply) : List String :=
  ((batchPairs b).filter (fun p => p.2.Error ≠ "")).map Prod.fst

/-- The retry discipline of a list of submissions started on `tokens`: the
first batch submits `tokens`, and each later batch submits the tokens that
failed in the batch before it, in the same order. -/
def retryChain : List String → List (HttpMessage × GcmReply) → Prop
  | _, [] => True
  | tokens, b :: rest => b.1.RegistrationIds = tokens ∧ retryChain (failedTokens b) rest

/-- The tokens a retry after the submissions `batches` has to submit, for a run
started on `tokens`. -/
def nextTokens : List String → List (HttpMessage × GcmReply) → List String
  | tokens, [] => tokens
  | _, b :: rest => nextTokens (failedTokens b) rest

/-- Whether a submission was answered as the Android dispatcher expects: no
transport error, and exactly one result per submitted token. -/
def answered (b : HttpMessage × GcmReply) : Bool :=
  match b.2 with
  | GcmReply.response res => res.Results.length == b.1.RegistrationIds.length
  | GcmReply.error _ => false

/-- Whether every submission of a run was answered as expected. -/
def wellAnswered (batches : List (HttpMessage × GcmReply)) : Bool := batches.all answered

/-- The response map recorded from a list of submissions: one write per
token/result pair, in order, of the entry the specification gives the result. -/
def mapOfBatches (batches : List (HttpMessage × GcmReply)) : GoMap PushResponse :=
  (resultPairs batches).foldl (fun m p => GoMap.set m p.1 (androidResponseBySpec p.2)) []

/-- Whether a submission was answered with a transport error. -/
def isTransportError (b : HttpMessage × GcmReply) : Bool :=
  match b.2 with
  | GcmReply.error _ => true
  | GcmReply.response _ => false

/-! ## Example inputs -/

/-- A configuration with the single app "normal", iOS and Android enabled, the
iOS key a PEM file, and the given `MaxRetry` for both platforms. -/
def exampleConf (maxRetry : Int) : ConfYaml :=
  { Apps := [("normal",
      { Ios := { Enabled := true, KeyPath := "key.pem", MaxRetry := maxRetry }
        Android := { Enabled := true, APIKey := "key", MaxRetry := maxRetry } })] }

/-- A configuration whose app "normal" has iOS enabled with a key file that is
neither a `.p12` nor a `.pem` file. -/
def exampleConfBadKey : ConfYaml :=
  { Apps := [("normal", { Ios := { Enabled := true, KeyPath := "key.txt" } })] }

/-- A configuration whose app "normal" is the zero value: iOS is disabled. -/
def exampleConfIosDisabled : ConfYaml := { Apps := [("normal", {})] }

/-- Certificate loaders that load every file. -/
def exampleLoader : CertLoader :=
  { FromP12File := fun path password => (⟨path, password⟩, none)
    FromPemFile := fun path password => (⟨path, password⟩, none) }

/-- A request whose key "k" is in `Data`, `IosData` and `AndroidData`, with
three different values, and whose key "d" is in `Data` only. -/
def exampleMergeRequest : PushNotification :=
  { Tokens := ["t"], Platform := 1, Title := "title"
    Data := [("k", Value.num 1), ("d", Value.num 2)]
    IosData := [("k", Value.num 3)]
    AndroidData := [("k", Value.num 4)] }

/-- A request for iOS whose key "aps" is in `Data` and in `IosData`, with a
message and a title. -/
def exampleApsRequest : PushNotification :=
  { Tokens := ["tI"], Platform := 1, AppID := "normal", Message := "hello", Title := "T"
    Data := [("aps", Value.num 1)]
    IosData := [("aps", Value.num 2)] }

/-- An APNs upstream that accepts every push with status 200. -/
def alwaysSent : ApnsUpstream Unit :=
  { Push := fun s _ _ => (PushReply.response { StatusCode := 200 }, s) }

/-- An APNs upstream whose first push fails at transport level and whose later
pushes are accepted; its state counts the pushes made. -/
def failsOnce : ApnsUpstream Nat :=
  { Push := fun s _ _ =>
      (if s = 0 then PushReply.error "timeout" else PushReply.response { StatusCode := 200 },
       s + 1) }

/-- A GCM upstream that answers every submission with two results. -/
def twoResults : GcmUpstream Unit :=
  { SendHttp := fun s _ _ =>
      (GcmReply.response { Success := 2, Failure := 0, Results := [{}, {}] }, s) }

/-- A GCM upstream that rejects every token of the first submission with the
error "Unavailable" and fails at transport level from the second submission
on; its state counts the submissions made. -/
def rejectsThenDown : GcmUpstream Nat :=
  { SendHttp := fun s _ m =>
      (if s = 0 then
        GcmReply.response
          { Success := 0, Failure := m.RegistrationIds.length
            Results := m.RegistrationIds.map (fun _ => { Error := "Unavailable" }) }
       else GcmReply.error "connection reset",
       s + 1) }

/-- A GCM upstream that answers every submission with one result per token;
on the first submission the token "tB" is rejected with "NotRegistered".  Its
state counts the submissions made. -/
def rejectsOnce : GcmUpstream Nat :=
  { SendHttp := fun s _ m =>
      (GcmReply.response
        { Success := 1, Failure := if s = 0 then 1 else 0
          Results := m.RegistrationIds.map
            (fun t => if s = 0 ∧ t = "tB" then { Error := "NotRegistered" } else {}) },
       s + 1) }

/-- An Android request of 1001 tokens for the app "normal". -/
@[irreducible]
def exampleOversizedRequest : PushNotification :=
  { Tokens := List.replicate 1001 "t", Platform := 2, AppID := "normal" }

/-- A configuration whose app "normal" has FCM enabled, with the given
`MaxRetry`. -/
def exampleConfFcm (maxRetry : Int) : ConfYaml :=
  { Apps := [("normal",
      { AndroidFcm := { Enabled := true, APIKey := "key", MaxRetry := maxRetry } })] }

/-- An FCM upstream whose first send fails and whose later sends succeed; its
state counts the sends made. -/
def fcmFailsOnce : FcmUpstream Nat :=
  { Send := fun s _ =>
      (if s = 0 then FcmReply.error "unavailable" else FcmReply.response true, s + 1) }

/-- A request of one notification for the default app whose platform is
neither iOS nor Android. -/
def exampleOtherPlatformRequest : RequestPush :=
  { Notifications := [{ Tokens := ["t"], Platform := 3 }] }

/-- An APNs upstream that rejects every push with status 410. -/
def alwaysGone : ApnsUpstream Unit :=
  { Push := fun s _ _ => (PushReply.response { StatusCode := 410, Reason := "Unregistered" }, s) }

/-- A GCM upstream whose every submission fails at transport level. -/
def alwaysDown : GcmUpstream Unit :=
  { SendHttp := fun s _ _ => (GcmReply.error "connection reset", s) }

/-- A GCM upstream that rejects every token of every submission. -/
def alwaysUnavailable : GcmUpstream Unit :=
  { SendHttp := fun s _ m =>
      (GcmReply.response
        { Success := 0, Failure := m.RegistrationIds.length
          Results := m.RegistrationIds.map (fun _ => { Error := "Unavailable" }) },
       s) }

/-- An FCM upstream whose every send fails. -/
def fcmAlwaysDown : FcmUpstream Unit :=
  { Send := fun s _ => (FcmReply.error "unavailable", s) }

/-- A configuration whose app "normal" has the three platforms enabled with
`MaxRetry = 5`. -/
def exampleConfAll : ConfYaml :=
  { Apps := [("normal",
      { Ios := { Enabled := true, KeyPath := "key.pem", MaxRetry := 5 }
        Android := { Enabled := true, APIKey := "key", MaxRetry := 5 }
        AndroidFcm := { Enabled := true, APIKey := "key", MaxRetry := 5 } })] }

/-- A request for iOS with a title and custom data. -/
def exampleTitledRequest : PushNotification :=
  { Tokens := ["tI"], Platform := 1, AppID := "normal", Title := "T",
    Data := [("k", Value.num 1)] }

/-- A request with `Retry = 2` for the app "normal". -/
def exampleRetryRequest : PushNotification :=
  { Tokens := ["t"], Platform := 2, AppID := "normal", Retry := 2 }

/-! ## Theorems: validator -/

theorem string_length_eq_zero_iff (s : String) : s.length = 0 ↔ s = "" := by
  constructor
  · intro h
    cases s with
    | mk l =>
      have hl : l = [] := List.length_eq_zero.mp h
      subst hl
      rfl
  · intro h
    subst h
    rfl

theorem tokens_single_empty_iff (ts : List String) :
    ((ts.length : Int) = PlatFormIos ∧ ts.head?.map String.length = some 0) ↔ ts = [""] := by
  constructor
  · rintro ⟨hlen, hhead⟩
    match ts, hlen, hhead with
    | [t], _, hhead =>
      simp only [List.head?_cons, Option.map_some', Option.some.injEq] at hhead
      rw [(string_length_eq_zero_iff t).mp hhead]
    | [], hlen, _ => simp [PlatFormIos] at hlen
    | _ :: _ :: _, hlen, _ =>
      simp only [List.length_cons, PlatFormIos] at hlen
      omega
  · intro h
    subst h
    exact ⟨rfl, rfl⟩

/-- C2: `CheckMessage` decides in this order: no token gives the
registration-ID error; else exactly one token that is the empty string gives
the empty-token error, whatever the platform; else an Android request with more
than 1000 tokens gives the size error; else an Android request whose
`TimeToLive` is present and greater than 2419200 gives the TimeToLive error;
every other request gives no error. -/
theorem C2_CheckMessage_decision (req : PushNotification) :
    CheckMessage req =
      if req.Tokens = [] then
        some "the message must specify at least one registration ID"
      else if req.Tokens = [""] then
        some "the token must not be empty"
      else if req.Platform = PlatFormAndroid ∧ 1000 < req.Tokens.length then
        some "the message may specify at most 1000 registration IDs"
      else if req.Platform = PlatFormAndroid ∧ ∃ ttl ∈ req.TimeToLive, 2419200 < ttl then
        some "the message's TimeToLive field must be an integer between 0 and 2419200 (4 weeks)"
      else none := by
  have hdec : "the message's TimeToLive field must be an integer "
      ++ "between 0 and 2419200 (4 weeks)"
      = "the message's TimeToLive field must be an integer between 0 and 2419200 (4 weeks)" := by
    decide
  have httl : ((match req.TimeToLive with
      | none => false
      | some ttl => decide (ttl < 0) || decide (2419200 < ttl)) = true)
      ↔ ∃ ttl ∈ req.TimeToLive, 2419200 < ttl := by
    cases req.TimeToLive with
    | none => simp
    | some t => simp
  unfold CheckMessage
  simp only [List.length_eq_zero, tokens_single_empty_iff, httl, hdec, gt_iff_lt]

/-! ## Theorems: intake -/

theorem normalizeAppID_AppID (n : PushNotification) :
    (normalizeAppID n).AppID = if n.AppID = "" then "normal" else n.AppID := by
  unfold normalizeAppID
  split <;> rfl

theorem normalizeAppID_Platform (n : PushNotification) :
    (normalizeAppID n).Platform = n.Platform := by
  unfold normalizeAppID
  split <;> rfl

theorem normalizeAppID_Tokens (n : PushNotification) :
    (normalizeAppID n).Tokens = n.Tokens := by
  unfold normalizeAppID
  split <;> rfl

theorem skippedBySpec_eq (conf : ConfYaml) (n : PushNotification) :
    skippedBySpec conf n =
      ((GoMap.get conf.Apps (normalizeAppID n).AppID).isNone
        || (decide (n.Platform = PlatFormIos)
              && !(conf.app (normalizeAppID n).AppID).Ios.Enabled)
        || (decide (n.Platform = PlatFormAndroid)
              && !(conf.app (normalizeAppID n).AppID).Android.Enabled)) := by
  have aux : ∀ (o : Option SectionApp) (p : Int),
      (match o with
        | none => true
        | some app => (p == 1 && !app.Ios.Enabled) || (p == 2 && !app.Android.Enabled))
      = (o.isNone || (decide (p = 1) && !(o.getD {}).Ios.Enabled)
          || (decide (p = 2) && !(o.getD {}).Android.Enabled)) := by
    intro o p
    cases o with
    | none => simp
    | some app =>
      have e1 : (p == 1) = decide (p = 1) := rfl
      have e2 : (p == 2) = decide (p = 2) := rfl
      simp [e1, e2]
  unfold skippedBySpec ConfYaml.app PlatFormIos PlatFormAndroid
  rw [normalizeAppID_AppID]
  exact aux _ _

theorem queueNotificationStep_count (conf : ConfYaml) (wgId : Nat) (acc : QueueResult)
    (n : PushNotification) :
    (queueNotificationStep conf wgId acc n).count =
      acc.count + (if skippedBySpec conf n then 0 else (n.Tokens.length : Int)) := by
  rw [skippedBySpec_eq]
  unfold queueNotificationStep
  simp only [normalizeAppID_Platform, normalizeAppID_Tokens]
  by_cases h1 : (GoMap.get conf.Apps (normalizeAppID n).AppID).isNone = true
  · simp [h1]
  · by_cases h2 : n.Platform = PlatFormIos
        ∧ (conf.app (normalizeAppID n).AppID).Ios.Enabled = false
    · simp [h1, h2]
    · by_cases h3 : n.Platform = PlatFormAndroid
          ∧ (conf.app (normalizeAppID n).AppID).Android.Enabled = false
      · simp [h1, h2, h3]
      · rw [if_neg h1, if_neg h2, if_neg h3]
        have h1' : (GoMap.get conf.Apps (normalizeAppID n).AppID).isNone = false :=
          Bool.eq_false_iff.mpr h1
        have h2' : (decide (n.Platform = PlatFormIos)
              && !(conf.app (normalizeAppID n).AppID).Ios.Enabled) = false := by
          by_cases hp : n.Platform = PlatFormIos
          · have := fun h => h2 ⟨hp, h⟩
            simp [hp]
            simpa using this
          · simp [hp]
        have h3' : (decide (n.Platform = PlatFormAndroid)
              && !(conf.app (normalizeAppID n).AppID).Android.Enabled) = false := by
          by_cases hp : n.Platform = PlatFormAndroid
          · have := fun h => h3 ⟨hp, h⟩
            simp [hp]
            simpa using this
          · simp [hp]
        rw [h1', h2', h3']
        simp

theorem queueNotificationStep_stats (conf : ConfYaml) (wgId : Nat) (acc : QueueResult)
    (n : PushNotification) :
    (queueNotificationStep conf wgId acc n).stats = acc.stats := by
  unfold queueNotificationStep
  simp only
  split
  · rfl
  · split
    · rfl
    · split <;> rfl

theorem queueNotification_foldl (conf : ConfYaml) (wgId : Nat) (ns : List PushNotification) :
    ∀ acc : QueueResult,
      (ns.foldl (queueNotificationStep conf wgId) acc).count =
          acc.count + ((ns.filter (fun n => !skippedBySpec conf n)).map
            (fun n => (n.Tokens.length : Int))).sum
        ∧ (ns.foldl (queueNotificationStep conf wgId) acc).stats = acc.stats := by
  induction ns with
  | nil => intro acc; simp
  | cons n rest ih =>
    intro acc
    obtain ⟨hc, hs⟩ := ih (queueNotificationStep conf wgId acc n)
    rw [List.foldl_cons, hc, hs, queueNotificationStep_count, queueNotificationStep_stats]
    refine ⟨?_, rfl⟩
    cases hsk : skippedBySpec conf n with
    | true => simp [List.filter_cons, hsk]
    | false => simp [List.filter_cons, hsk, add_assoc]

/-- C1: for every request and every `Apps` configuration, `queueNotification`
returns the sum of `len(Tokens)` over exactly the notifications that are not
skipped, and its one call to the counter sink is `AddTotalCount` with that
sum. -/
theorem C1_queueNotification_count (conf : ConfYaml) (wgId : Nat) (req : RequestPush) :
    (queueNotification conf wgId req).count = acceptedBySpec conf req
      ∧ (queueNotification conf wgId req).stats
          = [StatCall.AddTotalCount (acceptedBySpec conf req)] := by
  obtain ⟨hc, hs⟩ := queueNotification_foldl conf wgId req.Notifications {}
  unfold queueNotification acceptedBySpec
  simp only [hc, hs]
  simp

/-! ## Theorems: Go maps -/

theorem GoMap.get_set {V : Type} (m : GoMap V) (k : String) (v : V) (k' : String) :
    GoMap.get (GoMap.set m k v) k' = if k = k' then some v else GoMap.get m k' := by
  induction m with
  | nil => simp [GoMap.set, GoMap.get]
  | cons e rest ih =>
    obtain ⟨k0, v0⟩ := e
    by_cases h : k0 = k
    · subst h
      by_cases h2 : k0 = k' <;> simp [GoMap.set, GoMap.get, h2]
    · by_cases h2 : k0 = k'
      · subst h2
        simp [GoMap.set, GoMap.get, h, Ne.symm h]
      · simp [GoMap.set, GoMap.get, h, h2, ih]

theorem GoMap.mem_keys_set {V : Type} (m : GoMap V) (k : String) (v : V) (k' : String) :
    k' ∈ GoMap.keys (GoMap.set m k v) ↔ k' = k ∨ k' ∈ GoMap.keys m := by
  induction m with
  | nil => simp [GoMap.set, GoMap.keys]
  | cons e rest ih =>
    obtain ⟨k0, v0⟩ := e
    by_cases h : k0 = k
    · subst h
      simp [GoMap.set, GoMap.keys]
    · simp only [GoMap.keys] at ih
      simp [GoMap.set, GoMap.keys, h, ih]
      tauto

theorem GoMap.nodup_keys_set {V : Type} (m : GoMap V) (k : String) (v : V)
    (h : (GoMap.keys m).Nodup) : (GoMap.keys (GoMap.set m k v)).Nodup := by
  induction m with
  | nil => simp [GoMap.set, GoMap.keys]
  | cons e rest ih =>
    obtain ⟨k0, v0⟩ := e
    by_cases hk : k0 = k
    · subst hk
      simpa [GoMap.set, GoMap.keys] using h
    · have hn : k0 ∉ GoMap.keys rest ∧ (GoMap.keys rest).Nodup := by
        simpa [GoMap.keys] using h
      have hmem := GoMap.mem_keys_set rest k v k0
      have h2 : k0 ∉ GoMap.keys (GoMap.set rest k v) := by
        rw [hmem]
        rintro (h3 | h3)
        · exact hk h3
        · exact hn.1 h3
      have h3 := ih hn.2
      simp only [GoMap.keys] at h2 h3
      simp only [GoMap.set, hk, if_false, GoMap.keys, List.map_cons, List.nodup_cons]
      exact ⟨h2, h3⟩

theorem GoMap.get_isSome_iff {V : Type} (m : GoMap V) (k : String) :
    (GoMap.get m k).isSome = true ↔ k ∈ GoMap.keys m := by
  induction m with
  | nil => simp [GoMap.get, GoMap.keys]
  | cons e rest ih =>
    obtain ⟨k0, v0⟩ := e
    simp only [GoMap.keys] at ih
    by_cases h : k0 = k
    · simp [GoMap.get, GoMap.keys, h]
    · simp [GoMap.get, GoMap.keys, h, ih, Ne.symm h]

/-! ## Theorems: client pool -/

theorem GetAPNSClient_again (conf : ConfYaml) (loader : CertLoader)
    (clients : GoMap (Option ApnsClient)) (AppID : String) :
    (GetAPNSClient conf loader (GetAPNSClient conf loader clients AppID).clients AppID).client
        = (GetAPNSClient conf loader clients AppID).client
      ∧ (GetAPNSClient conf loader (GetAPNSClient conf loader clients AppID).clients AppID).err
        = none
      ∧ (GetAPNSClient conf loader (GetAPNSClient conf loader clients AppID).clients AppID).clients
        = (GetAPNSClient conf loader clients AppID).clients
      ∧ (GetAPNSClient conf loader (GetAPNSClient conf loader clients AppID).clients
          AppID).initCalls = 0 := by
  have hnorm : ∀ m : GoMap (Option ApnsClient), (if m.length = 0 then [] else m) = m := by
    intro m
    cases m <;> simp
  have hpresent : ∀ (m : GoMap (Option ApnsClient)) (c : Option ApnsClient),
      GoMap.get m AppID = some c →
      GetAPNSClient conf loader m AppID
        = { client := c, err := none, clients := m, initCalls := 0 } := by
    intro m c hc
    simp only [GetAPNSClient, hnorm, hc]
  cases hget : GoMap.get clients AppID with
  | some c =>
    rw [hpresent clients c hget]
    simp only [hpresent clients c hget]
    exact ⟨trivial, trivial, trivial, trivial⟩
  | none =>
    have h1 : GetAPNSClient conf loader clients AppID
        = { client := (initAPNSClient conf loader AppID).1,
            err := (initAPNSClient conf loader AppID).2,
            clients := GoMap.set clients AppID (initAPNSClient conf loader AppID).1,
            initCalls := 1 } := by
      simp only [GetAPNSClient, hnorm, hget]
    rw [h1]
    have h2 := hpresent (GoMap.set clients AppID (initAPNSClient conf loader AppID).1)
      (initAPNSClient conf loader AppID).1 (by simp [GoMap.get_set])
    simp only [h2]
    exact ⟨trivial, trivial, trivial, trivial⟩

/-! ## Theorems: outcomes -/

theorem Outcome.Ends_mono {α : Type} {P Q P2 Q2 : α → Prop} (hp : ∀ a, P a → P2 a)
    (hq : ∀ a, Q a → Q2 a) : ∀ o : Outcome α, o.Ends P Q → o.Ends P2 Q2
  | Outcome.ok a, h => hp a h
  | Outcome.panic a, h => hq a h
  | Outcome.fuel, h => h

theorem Outcome.Holds_of_Ends {α : Type} {P : α → Prop} :
    ∀ o : Outcome α, o.Ends P P → o.Holds P
  | Outcome.ok _, h => h
  | Outcome.panic _, h => h
  | Outcome.fuel, h => h

/-! ## Theorems: the loops of the iOS dispatcher -/

theorem GoMap.set_set {V : Type} (m : GoMap V) (k : String) (v w : V) :
    GoMap.set (GoMap.set m k v) k w = GoMap.set m k w := by
  induction m with
  | nil => simp [GoMap.set]
  | cons e rest ih =>
    obtain ⟨k0, v0⟩ := e
    by_cases h : k0 = k
    · simp [GoMap.set, h]
    · simp [GoMap.set, h, ih]

theorem pushTokenIOS_eq {σ : Type} (token : String) (reply : PushReply) (st : IosState σ) :
    pushTokenIOS token reply st =
      { st with
        attempts := st.attempts ++ [(token, reply)]
        pushResponse := GoMap.set st.pushResponse token (responseBySpec reply)
        stats := st.stats
          ++ [if reply.isFailure then StatCall.AddIosError 1 else StatCall.AddIosSuccess 1]
        newTokens := if reply.isFailure then st.newTokens ++ [token] else st.newTokens
        isError := st.isError || reply.isFailure } := by
  cases reply with
  | error msg =>
    simp [pushTokenIOS, responseBySpec, PushReply.isFailure, GoMap.set_set]
  | response res =>
    by_cases h : res.StatusCode = 200
    · simp [pushTokenIOS, responseBySpec, PushReply.isFailure, h, ApnsResponse.Sent]
    · simp [pushTokenIOS, responseBySpec, PushReply.isFailure, h, GoMap.set_set]

theorem pushTokensIOS_rule {σ : Type} (up : ApnsUpstream σ) (apnsClient : Option ApnsClient)
    (Inv : List String → IosState σ → Prop)
    (hstep : ∀ tok rest st r s, Inv (tok :: rest) st →
      Inv rest (pushTokenIOS tok r { st with upstream := s })) :
    ∀ (tokens : List String) (n : ApnsNotification) (st : IosState σ), Inv tokens st →
      (pushTokensIOS up apnsClient n tokens st).Ends (Inv []) (fun st' => ∃ rem, Inv rem st') := by
  intro tokens
  induction tokens with
  | nil => intro n st h; exact h
  | cons tok rest ih =>
    intro n st h
    cases apnsClient with
    | none => exact ⟨tok :: rest, h⟩
    | some client =>
      simp only [pushTokensIOS]
      exact ih _ _ (hstep tok rest st _ _ h)

theorem pushTokensIOS_some {σ : Type} (up : ApnsUpstream σ) (client : ApnsClient) :
    ∀ (tokens : List String) (n : ApnsNotification) (st : IosState σ),
      ∃ st', pushTokensIOS up (some client) n tokens st = Outcome.ok st' := by
  intro tokens
  induction tokens with
  | nil => intro n st; exact ⟨st, rfl⟩
  | cons tok rest ih =>
    intro n st
    simp only [pushTokensIOS]
    exact ih _ _

theorem PushToIOSLoop_rule_exact {σ : Type} (conf : ConfYaml) (loader : CertLoader)
    (up : ApnsUpstream σ) (maxRetry : Int)
    (Inv : Int → PushNotification → IosState σ → Prop) (Post PostPanic : IosState σ → Prop)
    (hbuild : ∀ rc req st, Inv rc req st → GetIOSNotification req = none →
      PostPanic { st with isError := false, newTokens := [] })
    (herr : ∀ rc req st e, Inv rc req st →
      (GetAPNSClient conf loader st.clients req.AppID).err = some e →
      Post { st with
        clients := (GetAPNSClient conf loader st.clients req.AppID).clients,
        isError := true, newTokens := [] })
    (hpass : ∀ rc req st n, Inv rc req st → GetIOSNotification req = some n →
      (GetAPNSClient conf loader st.clients req.AppID).err = none →
      (pushTokensIOS up (GetAPNSClient conf loader st.clients req.AppID).client
        n req.Tokens
        { st with
          clients := (GetAPNSClient conf loader st.clients req.AppID).clients,
          isError := false, newTokens := [] }).Ends
        (fun st' => (¬ (st'.isError = true ∧ rc < maxRetry) → Post st') ∧
          (st'.isError = true ∧ rc < maxRetry →
            Inv (rc + 1) { req with Tokens := st'.newTokens } st'))
        PostPanic) :
    ∀ (fuel : Nat) (req : PushNotification) (rc : Int) (st : IosState σ),
      (maxRetry - rc).toNat < fuel → Inv rc req st →
      (PushToIOSLoop conf loader up maxRetry fuel req rc st).Ends Post PostPanic := by
  intro fuel
  induction fuel with
  | zero => intro req rc st h; omega
  | succ fuel ih =>
    intro req rc st hfuel hinv
    simp only [PushToIOSLoop]
    cases hn : GetIOSNotification req with
    | none => exact hbuild rc req st hinv hn
    | some n =>
      simp only
      cases hg : (GetAPNSClient conf loader st.clients req.AppID).err with
      | some e => exact herr rc req st e hinv hg
      | none =>
        have hp := hpass rc req st n hinv hn hg
        simp only
        cases hin : pushTokensIOS up (GetAPNSClient conf loader st.clients req.AppID).client
          n req.Tokens
          { st with
            clients := (GetAPNSClient conf loader st.clients req.AppID).clients,
            isError := false, newTokens := [] } with
        | ok st1 =>
          rw [hin] at hp
          simp only
          split
          · rename_i hcond
            exact ih _ _ _ (by have := hcond.2; omega) (hp.2 hcond)
          · rename_i hcond
            exact hp.1 hcond
        | panic st1 =>
          rw [hin] at hp
          exact hp
        | fuel =>
          rw [hin] at hp
          exact hp.elim

theorem PushToIOSLoop_rule {σ : Type} (conf : ConfYaml) (loader : CertLoader)
    (up : ApnsUpstream σ) (maxRetry : Int)
    (Inv : Int → PushNotification → IosState σ → Prop) (Post PostPanic : IosState σ → Prop)
    (hbuild : ∀ rc req st, Inv rc req st → GetIOSNotification req = none →
      PostPanic { st with isError := false, newTokens := [] })
    (herr : ∀ rc req st e, Inv rc req st →
      (GetAPNSClient conf loader st.clients req.AppID).err = some e →
      Post { st with
        clients := (GetAPNSClient conf loader st.clients req.AppID).clients,
        isError := true, newTokens := [] })
    (hpass : ∀ rc req st n, Inv rc req st → GetIOSNotification req = some n →
      (GetAPNSClient conf loader st.clients req.AppID).err = none →
      (pushTokensIOS up (GetAPNSClient conf loader st.clients req.AppID).client
        n req.Tokens
        { st with
          clients := (GetAPNSClient conf loader st.clients req.AppID).clients,
          isError := false, newTokens := [] }).Ends
        (fun st' => Post st' ∧
          (rc < maxRetry → Inv (rc + 1) { req with Tokens := st'.newTokens } st'))
        PostPanic) :
    ∀ (fuel : Nat) (req : PushNotification) (rc : Int) (st : IosState σ),
      (maxRetry - rc).toNat < fuel → Inv rc req st →
      (PushToIOSLoop conf loader up maxRetry fuel req rc st).Ends Post PostPanic := by
  refine PushToIOSLoop_rule_exact conf loader up maxRetry Inv Post PostPanic hbuild herr ?_
  intro rc req st n hinv hn hg
  refine Outcome.Ends_mono ?_ (fun _ h => h) _ (hpass rc req st n hinv hn hg)
  rintro st1 ⟨h1, h2⟩
  exact ⟨fun _ => h1, fun hc => h2 hc.2⟩

/-! ## Theorems: retry bound of the iOS dispatcher -/

theorem Outcome.Holds_mono {α : Type} {P Q : α → Prop} (h : ∀ a, P a → Q a) :
    ∀ o : Outcome α, o.Holds P → o.Holds Q
  | Outcome.ok a, hp => h a hp
  | Outcome.panic a, hp => h a hp
  | Outcome.fuel, hp => hp

theorem attemptsFor_append (t : String) (a b : List (String × PushReply)) :
    attemptsFor t (a ++ b) = attemptsFor t a + attemptsFor t b := by
  simp [attemptsFor, List.count_append]

theorem attemptsFor_single (t u : String) (r : PushReply) :
    attemptsFor t [(u, r)] = if u = t then 1 else 0 := by
  simp [attemptsFor, List.count_singleton]

theorem count_cons_ite (t tok : String) (rest : List String) :
    (tok :: rest).count t = (if tok = t then 1 else 0) + rest.count t := by
  rw [List.count_cons]
  by_cases h : tok = t <;> simp [h, add_comm]

theorem pushTokensIOS_attempts {σ : Type} (up : ApnsUpstream σ) (c : Option ApnsClient)
    (t : String) (tokens : List String) (n : ApnsNotification) (st : IosState σ)
    (hnew : st.newTokens = []) :
    (pushTokensIOS up c n tokens st).Holds (fun st' =>
      attemptsFor t st'.attempts ≤ attemptsFor t st.attempts + tokens.count t
      ∧ st'.newTokens.count t ≤ tokens.count t) := by
  have h := pushTokensIOS_rule up c
    (fun rem st' =>
      attemptsFor t st'.attempts + rem.count t ≤ attemptsFor t st.attempts + tokens.count t
      ∧ st'.newTokens.count t + rem.count t ≤ tokens.count t)
    (by
      intro tok rest st1 r s hinv
      rw [pushTokenIOS_eq]
      simp only [attemptsFor_append, attemptsFor_single, count_cons_ite] at hinv ⊢
      cases r.isFailure
      · simp only [Bool.false_eq_true, if_false]
        split_ifs at hinv ⊢ <;> omega
      · simp only [if_true, List.count_append, List.count_singleton, beq_iff_eq]
        split_ifs at hinv ⊢ <;> omega)
    tokens n st (by simp [hnew])
  apply Outcome.Holds_of_Ends
  refine Outcome.Ends_mono ?_ ?_ _ h
  · intro st' h1
    simp only [List.count_nil, add_zero] at h1
    exact h1
  · rintro st' ⟨rem, h1, h2⟩
    exact ⟨by omega, by omega⟩

theorem PushToIOSLoop_attempts {σ : Type} (conf : ConfYaml) (loader : CertLoader)
    (up : ApnsUpstream σ) (maxRetry : Int) (t : String) (bound : Nat) (fuel : Nat)
    (req : PushNotification) (rc : Int) (st : IosState σ)
    (hfuel : (maxRetry - rc).toNat < fuel)
    (hinv : attemptsFor t st.attempts + req.Tokens.count t * ((maxRetry - rc).toNat + 1)
      ≤ bound) :
    (PushToIOSLoop conf loader up maxRetry fuel req rc st).Holds
      (fun st' => attemptsFor t st'.attempts ≤ bound) := by
  apply Outcome.Holds_of_Ends
  refine PushToIOSLoop_rule conf loader up maxRetry
    (fun rc req st => attemptsFor t st.attempts
      + req.Tokens.count t * ((maxRetry - rc).toNat + 1) ≤ bound)
    _ _ ?_ ?_ ?_ fuel req rc st hfuel hinv
  · intro rc req st h _
    simp only
    omega
  · intro rc req st e h _
    simp only
    omega
  · intro rc req st n h _ _
    have hin := pushTokensIOS_attempts up
      (GetAPNSClient conf loader st.clients req.AppID).client t req.Tokens n
      { st with
        clients := (GetAPNSClient conf loader st.clients req.AppID).clients,
        isError := false, newTokens := [] } rfl
    have hle : req.Tokens.count t ≤ req.Tokens.count t * ((maxRetry - rc).toNat + 1) :=
      Nat.le_mul_of_pos_right _ (by omega)
    cases hout : pushTokensIOS up (GetAPNSClient conf loader st.clients req.AppID).client
      n req.Tokens
      { st with
        clients := (GetAPNSClient conf loader st.clients req.AppID).clients,
        isError := false, newTokens := [] } with
    | ok st1 =>
      rw [hout] at hin
      simp only [Outcome.Holds] at hin
      refine ⟨by omega, ?_⟩
      intro hlt
      have e : (maxRetry - rc).toNat = (maxRetry - (rc + 1)).toNat + 1 := by omega
      have hmul : st1.newTokens.count t * ((maxRetry - (rc + 1)).toNat + 1)
          ≤ req.Tokens.count t * ((maxRetry - (rc + 1)).toNat + 1) :=
        Nat.mul_le_mul_right _ hin.2
      have hexp : req.Tokens.count t * ((maxRetry - (rc + 1)).toNat + 1 + 1)
          = req.Tokens.count t * ((maxRetry - (rc + 1)).toNat + 1) + req.Tokens.count t := by
        ring
      rw [e, hexp] at h
      simp only
      omega
    | panic st1 =>
      rw [hout] at hin
      simp only [Outcome.Holds] at hin
      show attemptsFor t st1.attempts ≤ bound
      omega
    | fuel =>
      rw [hout] at hin
      exact hin.elim

/-- C3 (as the code has it): in every run of `PushToIOS`, returning or
panicking, the number of pushes made for a device token is at most the number
of times the token is listed in the request times `max(cap, 0) + 1`, where
`cap` is the retry cap computed from the app's `Ios.MaxRetry` and the
request's `Retry`.  For a token listed once and a cap that is not negative this
is the bound `cap + 1`. -/
theorem C3_send_attempts_bound {σ : Type} (conf : ConfYaml) (loader : CertLoader)
    (up : ApnsUpstream σ) (clients : GoMap (Option ApnsClient)) (s : σ)
    (req : PushNotification) (t : String) :
    (PushToIOS conf loader up clients s req).Holds (fun st =>
      (attemptsFor t st.attempts : Int)
        ≤ req.Tokens.count t * (max (retryCap (conf.app req.AppID).Ios.MaxRetry req.Retry) 0 + 1))
    := by
  have h := PushToIOSLoop_attempts conf loader up
    (retryCap (conf.app req.AppID).Ios.MaxRetry req.Retry) t
    (req.Tokens.count t * ((retryCap (conf.app req.AppID).Ios.MaxRetry req.Retry).toNat + 1))
    ((retryCap (conf.app req.AppID).Ios.MaxRetry req.Retry).toNat + 1) req 0
    { clients := clients, upstream := s } (by simp) (by simp [attemptsFor])
  unfold PushToIOS
  refine Outcome.Holds_mono ?_ _ h
  intro st hst
  have hcast : ((retryCap (conf.app req.AppID).Ios.MaxRetry req.Retry).toNat : Int)
      = max (retryCap (conf.app req.AppID).Ios.MaxRetry req.Retry) 0 := Int.toNat_eq_max _
  rw [← hcast]
  exact_mod_cast hst

/-- C3 (as stated) fails: with `MaxRetry = 0` and the token "a" listed twice,
two pushes are made for "a" although the cap plus one is 1; with
`MaxRetry = -1` one push is made although the cap plus one is 0. -/
theorem C3_counterexample :
    ((PushToIOS (exampleConf 0) exampleLoader alwaysSent [] ()
        { Tokens := ["a", "a"], Platform := 1, AppID := "normal" }).returned?.map
        (fun st => attemptsFor "a" st.attempts) = some 2
      ∧ retryCap ((exampleConf 0).app "normal").Ios.MaxRetry 0 + 1 = 1)
    ∧ ((PushToIOS (exampleConf (-1)) exampleLoader alwaysSent [] ()
        { Tokens := ["a"], Platform := 1, AppID := "normal" }).returned?.map
        (fun st => attemptsFor "a" st.attempts) = some 1
      ∧ retryCap ((exampleConf (-1)).app "normal").Ios.MaxRetry 0 + 1 = 0) := by
  decide

/-! ## Theorems: the response map of the iOS dispatcher -/

theorem lastReply_append_single (t u : String) (r : PushReply)
    (a : List (String × PushReply)) :
    lastReply t (a ++ [(u, r)]) = if u = t then some r else lastReply t a := by
  by_cases h : u = t
  · simp [lastReply, List.filter_append, h]
  · simp [lastReply, List.filter_append, h]

theorem pushTokenIOS_mapRecordsLast {σ : Type} (tok : String) (r : PushReply)
    (st : IosState σ) (h : mapRecordsLast st) : mapRecordsLast (pushTokenIOS tok r st) := by
  intro t
  rw [pushTokenIOS_eq]
  simp only [GoMap.get_set, lastReply_append_single]
  by_cases e : tok = t
  · simp [e]
  · simp only [e, if_false]
    exact h t

theorem pushTokensIOS_map {σ : Type} (up : ApnsUpstream σ) (client : ApnsClient)
    (tokens : List String) (n : ApnsNotification) (st : IosState σ)
    (hrec : mapRecordsLast st) (hnd : (GoMap.keys st.pushResponse).Nodup)
    (hnew : st.newTokens = []) :
    ∃ st', pushTokensIOS up (some client) n tokens st = Outcome.ok st'
      ∧ mapRecordsLast st' ∧ (GoMap.keys st'.pushResponse).Nodup
      ∧ (∀ t, t ∈ GoMap.keys st'.pushResponse ↔ (t ∈ GoMap.keys st.pushResponse ∨ t ∈ tokens))
      ∧ (∀ t ∈ st'.newTokens, t ∈ GoMap.keys st'.pushResponse)
      ∧ st'.clients = st.clients := by
  obtain ⟨st', hok⟩ := pushTokensIOS_some up client tokens n st
  have h := pushTokensIOS_rule up (some client)
    (fun rem st' => mapRecordsLast st' ∧ (GoMap.keys st'.pushResponse).Nodup
      ∧ (∀ t, (t ∈ GoMap.keys st'.pushResponse ∨ t ∈ rem)
          ↔ (t ∈ GoMap.keys st.pushResponse ∨ t ∈ tokens))
      ∧ (∀ t ∈ st'.newTokens, t ∈ GoMap.keys st'.pushResponse)
      ∧ st'.clients = st.clients)
    (by
      rintro tok rest st1 r s ⟨h1, h2, h3, h4, h5⟩
      refine ⟨pushTokenIOS_mapRecordsLast tok r _ h1, ?_, ?_, ?_, ?_⟩
      · rw [pushTokenIOS_eq]
        exact GoMap.nodup_keys_set _ _ _ h2
      · intro t
        rw [pushTokenIOS_eq]
        simp only [GoMap.mem_keys_set]
        rw [← h3 t]
        simp only [List.mem_cons]
        tauto
      · intro t ht
        rw [pushTokenIOS_eq] at ht ⊢
        simp only [GoMap.mem_keys_set] at ht ⊢
        by_cases e : t = tok
        · exact Or.inl e
        · right
          apply h4
          cases hf : r.isFailure with
          | false => simpa [hf] using ht
          | true =>
            simp only [hf, if_true, List.mem_append, List.mem_singleton] at ht
            exact ht.resolve_right e
      · rw [pushTokenIOS_eq]
        exact h5)
    tokens n st ⟨hrec, hnd, fun t => Iff.rfl, by simp [hnew], rfl⟩
  rw [hok] at h
  obtain ⟨h1, h2, h3, h4, h5⟩ := h
  refine ⟨st', hok, h1, h2, ?_, h4, h5⟩
  intro t
  rw [← h3 t]
  simp

theorem clientObtained_again (conf : ConfYaml) (loader : CertLoader)
    (clients : GoMap (Option ApnsClient)) (AppID : String) (c : ApnsClient)
    (h : clientObtained conf loader clients AppID c) :
    clientObtained conf loader (GetAPNSClient conf loader clients AppID).clients AppID c := by
  obtain ⟨h1, h2, _, _⟩ := GetAPNSClient_again conf loader clients AppID
  exact ⟨h1.trans h.1, h2⟩

theorem PushToIOSLoop_map {σ : Type} (conf : ConfYaml) (loader : CertLoader)
    (up : ApnsUpstream σ) (maxRetry : Int) (c : ApnsClient) (original : List String)
    (fuel : Nat) (req : PushNotification) (rc : Int) (st : IosState σ)
    (hfuel : (maxRetry - rc).toNat < fuel)
    (hc : clientObtained conf loader st.clients req.AppID c)
    (hrec : mapRecordsLast st) (hnd : (GoMap.keys st.pushResponse).Nodup)
    (hkeys : ∀ t, (t ∈ GoMap.keys st.pushResponse ∨ t ∈ req.Tokens) ↔ t ∈ original) :
    (PushToIOSLoop conf loader up maxRetry fuel req rc st).Ends
      (fun st' => mapRecordsLast st' ∧ (GoMap.keys st'.pushResponse).Nodup
        ∧ ∀ t, t ∈ GoMap.keys st'.pushResponse ↔ t ∈ original)
      (fun st' => GetIOSNotification req = none ∧ st'.attempts = st.attempts
        ∧ st'.pushResponse = st.pushResponse ∧ st'.stats = st.stats
        ∧ st'.clients = st.clients) := by
  refine PushToIOSLoop_rule conf loader up maxRetry
    (fun _ req1 st1 => (GetIOSNotification req1 = GetIOSNotification req
        ∧ (GetIOSNotification req = none → st1.attempts = st.attempts
          ∧ st1.pushResponse = st.pushResponse ∧ st1.stats = st.stats
          ∧ st1.clients = st.clients))
      ∧ clientObtained conf loader st1.clients req1.AppID c
      ∧ mapRecordsLast st1 ∧ (GoMap.keys st1.pushResponse).Nodup
      ∧ ∀ t, (t ∈ GoMap.keys st1.pushResponse ∨ t ∈ req1.Tokens) ↔ t ∈ original)
    _ _ ?_ ?_ ?_ fuel req rc st hfuel
    ⟨⟨rfl, fun _ => ⟨rfl, rfl, rfl, rfl⟩⟩, hc, hrec, hnd, hkeys⟩
  · rintro rc req1 st1 ⟨⟨e1, e2⟩, _⟩ hn
    rw [e1] at hn
    exact ⟨hn, e2 hn⟩
  · rintro rc req1 st1 e ⟨_, h1, _⟩ he
    rw [h1.2] at he
    cases he
  · rintro rc req1 st1 n ⟨⟨e1, _⟩, h1, h2, h3, h4⟩ hn _
    rw [h1.1]
    obtain ⟨st', hok, k1, k2, k3, k4, k5⟩ := pushTokensIOS_map up c req1.Tokens n
      { st1 with
        clients := (GetAPNSClient conf loader st1.clients req1.AppID).clients,
        isError := false, newTokens := [] } h2 h3 rfl
    rw [hok]
    have hk : ∀ t, t ∈ GoMap.keys st'.pushResponse ↔ t ∈ original := by
      intro t
      rw [k3 t]
      exact h4 t
    have hsome : GetIOSNotification req ≠ none := by
      rw [← e1, hn]
      simp
    refine ⟨⟨k1, k2, hk⟩, fun _ => ⟨⟨e1, fun h => absurd h hsome⟩, ?_, k1, k2, ?_⟩⟩
    · rw [k5]
      exact clientObtained_again conf loader st1.clients req1.AppID c h1
    · intro t
      rw [← hk t]
      constructor
      · rintro (h | h)
        · exact h
        · exact k4 t h
      · exact Or.inl

/-- C5: in every run of `PushToIOS` in which the APNs client is obtained and
the tokens of the request are pairwise distinct, fuel never runs out, and
either the run returns, the response map has exactly one entry per token of the
request, and the entry of a token records the reply to the last push made for
it (status "apn_error" with the error text for a transport error, status
"failed" with the upstream reason for a status code other than 200, status
"success" with an empty error otherwise), or the run panics, which happens
only when `GetIOSNotification` panics on the request: that is before the
client is fetched and before any push, so that run obtains no client and
returns no map. -/
theorem C5_response_map_records_last_attempt {σ : Type} (conf : ConfYaml)
    (loader : CertLoader) (up : ApnsUpstream σ) (clients : GoMap (Option ApnsClient)) (s : σ)
    (req : PushNotification) (c : ApnsClient)
    (hclient : (GetAPNSClient conf loader clients req.AppID).client = some c)
    (herr : (GetAPNSClient conf loader clients req.AppID).err = none)
    (hnodup : req.Tokens.Nodup) :
    (PushToIOS conf loader up clients s req).Ends
      (fun st =>
        (GoMap.keys st.pushResponse).Perm req.Tokens
          ∧ ∀ t ∈ req.Tokens, ∃ r, lastReply t st.attempts = some r
              ∧ GoMap.get st.pushResponse t = some (responseBySpec r))
      (fun st => GetIOSNotification req = none ∧ st.attempts = []) := by
  have h := PushToIOSLoop_map conf loader up
    (retryCap (conf.app req.AppID).Ios.MaxRetry req.Retry) c req.Tokens
    ((retryCap (conf.app req.AppID).Ios.MaxRetry req.Retry).toNat + 1) req 0
    { clients := clients, upstream := s } (by simp) ⟨hclient, herr⟩
    (by intro t; simp [GoMap.get, lastReply])
    (by simp [GoMap.keys]) (by intro t; simp [GoMap.keys])
  unfold PushToIOS
  refine Outcome.Ends_mono ?_ ?_ _ h
  · rintro st ⟨h1, h2, h3⟩
    refine ⟨(List.perm_ext_iff_of_nodup h2 hnodup).mpr h3, ?_⟩
    intro t ht
    have hsome : (GoMap.get st.pushResponse t).isSome = true :=
      (GoMap.get_isSome_iff _ _).mpr ((h3 t).mpr ht)
    have hrec := h1 t
    cases hl : lastReply t st.attempts with
    | none =>
      rw [hrec, hl] at hsome
      simp at hsome
    | some r =>
      rw [hl] at hrec
      exact ⟨r, rfl, hrec⟩
  · rintro st ⟨h1, h2, _⟩
    exact ⟨h1, h2⟩

/-- C5 at an example: with `MaxRetry = 2` the token "tI" fails at transport
level, succeeds on the retry, and ends as "success"; the request carries a
title and custom data, and the run returns. -/
theorem C5_witness :
    (PushToIOS (exampleConf 2) exampleLoader failsOnce [] 0 exampleTitledRequest).Ends
        (fun st =>
          (GoMap.keys st.pushResponse).Perm exampleTitledRequest.Tokens
            ∧ ∀ t ∈ exampleTitledRequest.Tokens, ∃ r, lastReply t st.attempts = some r
                ∧ GoMap.get st.pushResponse t = some (responseBySpec r))
        (fun st => GetIOSNotification exampleTitledRequest = none ∧ st.attempts = [])
      ∧ (PushToIOS (exampleConf 2) exampleLoader failsOnce [] 0
          exampleTitledRequest).returned?.map
          (fun st => (st.pushResponse, st.attempts.map Prod.snd))
        = some ([("tI", { Status := "success", CanonicalId := "", Error := "" })],
            [PushReply.error "timeout", PushReply.response { StatusCode := 200 }]) :=
  ⟨C5_response_map_records_last_attempt (exampleConf 2) exampleLoader failsOnce [] 0
    exampleTitledRequest
    { Certificate := ⟨"key.pem", ""⟩, Production := false } (by decide) (by decide) (by decide),
   by decide⟩

/-! ## Theorems: the counters of the iOS dispatcher -/

theorem successEntries_set (m : GoMap PushResponse) (k : String) (e : PushResponse) :
    successEntries (GoMap.set m k e) + (if isSuccessAt m k then 1 else 0)
      = successEntries m + (if e.Status = "success" then 1 else 0) := by
  induction m with
  | nil =>
    by_cases h2 : e.Status = "success" <;>
      simp [GoMap.set, successEntries, isSuccessAt, GoMap.get, List.filter_cons, h2]
  | cons x rest ih =>
    obtain ⟨k0, v0⟩ := x
    by_cases h : k0 = k
    · subst h
      simp only [GoMap.set, if_true, successEntries, isSuccessAt, GoMap.get, List.filter_cons]
      by_cases h1 : v0.Status = "success" <;> by_cases h2 : e.Status = "success" <;>
        simp [h1, h2]
    · simp only [successEntries, isSuccessAt] at ih
      simp only [GoMap.set, h, if_false, successEntries, isSuccessAt, GoMap.get,
        List.filter_cons]
      by_cases h1 : v0.Status = "success"
      · simp only [h1, decide_True, if_true, List.length_cons]
        omega
      · simp only [h1, decide_False, Bool.false_eq_true, if_false]
        exact ih

theorem isSuccessAt_set (m : GoMap PushResponse) (k : String) (e : PushResponse)
    (t : String) :
    isSuccessAt (GoMap.set m k e) t
      = if k = t then decide (e.Status = "success") else isSuccessAt m t := by
  unfold isSuccessAt
  rw [GoMap.get_set]
  by_cases h : k = t <;> simp [h]

theorem responseBySpec_status (r : PushReply) :
    ((responseBySpec r).Status = "success") ↔ r.isFailure = false := by
  cases r with
  | error msg => simp [responseBySpec, PushReply.isFailure]
  | response res =>
    by_cases h : res.StatusCode = 200
    · simp [responseBySpec, PushReply.isFailure, h]
    · simp [responseBySpec, PushReply.isFailure, h]

theorem iosSuccessSum_append_single (l : List StatCall) (c : StatCall) :
    iosSuccessSum (l ++ [c]) = iosSuccessSum l + iosSuccessSum [c] := by
  induction l with
  | nil => simp [iosSuccessSum]
  | cons x rest ih =>
    cases x <;> simp [iosSuccessSum, ih, add_assoc]

theorem iosErrorSum_append_single (l : List StatCall) (c : StatCall) :
    iosErrorSum (l ++ [c]) = iosErrorSum l + iosErrorSum [c] := by
  induction l with
  | nil => simp [iosErrorSum]
  | cons x rest ih =>
    cases x <;> simp [iosErrorSum, ih, add_assoc]

theorem failedAttempts_append_single (a : List (String × PushReply)) (t : String)
    (r : PushReply) :
    failedAttempts (a ++ [(t, r)]) = failedAttempts a + (if r.isFailure then 1 else 0) := by
  cases h : r.isFailure <;> simp [failedAttempts, List.filter_append, h]

theorem pushTokenIOS_countersAgree {σ : Type} (tok : String) (rest : List String)
    (r : PushReply) (st : IosState σ) (h : countersAgree (tok :: rest) st) :
    countersAgree rest (pushTokenIOS tok r st) := by
  obtain ⟨h1, h2, h3, h4⟩ := h
  have hnd : tok ∉ rest ++ st.newTokens ∧ (rest ++ st.newTokens).Nodup := by
    simpa using h1
  have htok : isSuccessAt st.pushResponse tok = false := h2 tok (by simp)
  have hset := successEntries_set st.pushResponse tok (responseBySpec r)
  rw [htok] at hset
  simp only [Bool.false_eq_true, if_false, add_zero] at hset
  rw [pushTokenIOS_eq]
  cases hf : r.isFailure with
  | true =>
    have hns : ¬ (responseBySpec r).Status = "success" := by
      rw [responseBySpec_status, hf]
      simp
    simp only [hns, if_false, add_zero] at hset
    refine ⟨?_, ?_, ?_, ?_⟩
    · simp only [if_true]
      rw [← List.append_assoc]
      exact List.nodup_append_comm.mp
        (by simpa using hnd)
    · intro t ht
      simp only [if_true] at ht
      rw [isSuccessAt_set]
      by_cases e : tok = t
      · simp [e, hns]
      · simp only [e, if_false]
        apply h2
        simp only [List.mem_append, List.mem_cons, List.mem_singleton] at ht ⊢
        rcases ht with ht | ht | ht
        · exact Or.inl (Or.inr ht)
        · exact Or.inr ht
        · rcases ht with ht | ht
          · exact absurd ht.symm e
          · exact absurd ht (List.not_mem_nil _)
    · simp only [if_true, hset, iosSuccessSum_append_single, iosSuccessSum, add_zero]
      exact h3
    · simp only [if_true, iosErrorSum_append_single, iosErrorSum,
        failedAttempts_append_single, hf, add_zero]
      rw [h4]
      push_cast
      rfl
  | false =>
    have hs : (responseBySpec r).Status = "success" := by
      rw [responseBySpec_status, hf]
    simp only [hs, if_true] at hset
    refine ⟨?_, ?_, ?_, ?_⟩
    · simpa using hnd.2
    · intro t ht
      simp only [Bool.false_eq_true, if_false] at ht
      rw [isSuccessAt_set]
      have e : tok ≠ t := fun e => hnd.1 (e ▸ ht)
      simp only [e, if_false]
      apply h2
      simp only [List.mem_append, List.mem_cons] at ht ⊢
      tauto
    · simp only [Bool.false_eq_true, if_false, hset, iosSuccessSum_append_single,
        iosSuccessSum, add_zero]
      push_cast
      rw [h3]
    · simp only [Bool.false_eq_true, if_false, iosErrorSum_append_single, iosErrorSum,
        failedAttempts_append_single, hf, add_zero]
      exact h4

theorem PushToIOSLoop_counters {σ : Type} (conf : ConfYaml) (loader : CertLoader)
    (up : ApnsUpstream σ) (maxRetry : Int) (fuel : Nat) (req : PushNotification) (rc : Int)
    (st : IosState σ) (hfuel : (maxRetry - rc).toNat < fuel)
    (hinv : countersAgree req.Tokens { st with newTokens := [] }) :
    (PushToIOSLoop conf loader up maxRetry fuel req rc st).Ends
      (fun st' => (successEntries st'.pushResponse : Int) = iosSuccessSum st'.stats)
      (fun st' => (successEntries st'.pushResponse : Int) = iosSuccessSum st'.stats) := by
  refine PushToIOSLoop_rule conf loader up maxRetry
    (fun _ req st => countersAgree req.Tokens { st with newTokens := [] })
    _ _ ?_ ?_ ?_ fuel req rc st hfuel hinv
  · rintro rc req st ⟨_, _, h3, _⟩ _
    exact h3
  · rintro rc req st e ⟨_, _, h3, _⟩ _
    exact h3
  · rintro rc req st n h _ _
    have hin := pushTokensIOS_rule up (GetAPNSClient conf loader st.clients req.AppID).client
      countersAgree
      (fun tok rest st1 r s h1 => pushTokenIOS_countersAgree tok rest r _ h1)
      req.Tokens n
      { st with
        clients := (GetAPNSClient conf loader st.clients req.AppID).clients,
        isError := false, newTokens := [] } h
    refine Outcome.Ends_mono ?_ ?_ _ hin
    · rintro st1 ⟨h1, h2, h3, h4⟩
      refine ⟨h3, fun _ => ⟨?_, ?_, h3, h4⟩⟩
      · simpa using h1
      · intro t ht
        apply h2
        simpa using ht
    · rintro st1 ⟨rem, _, _, h3, _⟩
      exact h3

theorem acceptedAttempts_append_single (a : List (String × PushReply)) (t : String)
    (r : PushReply) :
    acceptedAttempts (a ++ [(t, r)]) = acceptedAttempts a + (if r.isFailure then 0 else 1) := by
  cases h : r.isFailure <;> simp [acceptedAttempts, List.filter_append, h]

theorem pushTokenIOS_countsAgree {σ : Type} (tok : String) (r : PushReply)
    (st : IosState σ) (h : countsAgree st) : countsAgree (pushTokenIOS tok r st) := by
  obtain ⟨h1, h2⟩ := h
  rw [pushTokenIOS_eq]
  cases hf : r.isFailure with
  | true =>
    constructor
    · simp only [if_true, iosErrorSum_append_single, iosErrorSum,
        failedAttempts_append_single, hf, add_zero]
      rw [h1]
      push_cast
      rfl
    · simp only [if_true, iosSuccessSum_append_single, iosSuccessSum,
        acceptedAttempts_append_single, hf, add_zero]
      exact h2
  | false =>
    constructor
    · simp only [Bool.false_eq_true, if_false, iosErrorSum_append_single, iosErrorSum,
        failedAttempts_append_single, hf, add_zero]
      exact h1
    · simp only [Bool.false_eq_true, if_false, iosSuccessSum_append_single, iosSuccessSum,
        acceptedAttempts_append_single, hf, add_zero]
      rw [h2]
      push_cast
      rfl

theorem PushToIOSLoop_counts {σ : Type} (conf : ConfYaml) (loader : CertLoader)
    (up : ApnsUpstream σ) (maxRetry : Int) (fuel : Nat) (req : PushNotification) (rc : Int)
    (st : IosState σ) (hfuel : (maxRetry - rc).toNat < fuel) (hinv : countsAgree st) :
    (PushToIOSLoop conf loader up maxRetry fuel req rc st).Ends countsAgree countsAgree := by
  refine PushToIOSLoop_rule conf loader up maxRetry (fun _ _ st => countsAgree st)
    _ _ ?_ ?_ ?_ fuel req rc st hfuel hinv
  · rintro rc req st h _
    exact h
  · rintro rc req st e h _
    exact h
  · rintro rc req st n h _ _
    have hin := pushTokensIOS_rule up (GetAPNSClient conf loader st.clients req.AppID).client
      (fun _ st => countsAgree st)
      (fun tok rest st1 r s h1 => pushTokenIOS_countsAgree tok r _ h1)
      req.Tokens n
      { st with
        clients := (GetAPNSClient conf loader st.clients req.AppID).clients,
        isError := false, newTokens := [] } h
    refine Outcome.Ends_mono ?_ ?_ _ hin
    · intro st1 h1
      exact ⟨h1, fun _ => h1⟩
    · rintro st1 ⟨_, h1⟩
      exact h1

theorem Outcome.Ends_and {α : Type} {P Q P2 Q2 : α → Prop} :
    ∀ o : Outcome α, o.Ends P Q → o.Ends P2 Q2 →
      o.Ends (fun a => P a ∧ P2 a) (fun a => Q a ∧ Q2 a)
  | Outcome.ok _, h1, h2 => ⟨h1, h2⟩
  | Outcome.panic _, h1, h2 => ⟨h1, h2⟩
  | Outcome.fuel, h1, _ => h1

/-- C4 (as the code has it): in every run of `PushToIOS`, fuel never runs out,
and when the run ends, by a return or by a panic, the arguments of the
`AddIosError` calls sum to the number of pushes that failed, each failed push
counted once, retries included, and the arguments of the `AddIosSuccess` calls
sum to the number of pushes that did not fail; when the tokens of the request
are pairwise distinct, the latter sum is also the number of entries of the
response map with status "success". -/
theorem C4_ios_counters_match {σ : Type} (conf : ConfYaml) (loader : CertLoader)
    (up : ApnsUpstream σ) (clients : GoMap (Option ApnsClient)) (s : σ)
    (req : PushNotification) :
    (PushToIOS conf loader up clients s req).Ends
      (fun st => iosErrorSum st.stats = (failedAttempts st.attempts : Int)
        ∧ iosSuccessSum st.stats = (acceptedAttempts st.attempts : Int)
        ∧ (req.Tokens.Nodup →
            iosSuccessSum st.stats = (successEntries st.pushResponse : Int)))
      (fun st => iosErrorSum st.stats = (failedAttempts st.attempts : Int)
        ∧ iosSuccessSum st.stats = (acceptedAttempts st.attempts : Int)
        ∧ (req.Tokens.Nodup →
            iosSuccessSum st.stats = (successEntries st.pushResponse : Int))) := by
  have h1 := PushToIOSLoop_counts conf loader up
    (retryCap (conf.app req.AppID).Ios.MaxRetry req.Retry)
    ((retryCap (conf.app req.AppID).Ios.MaxRetry req.Retry).toNat + 1) req 0
    { clients := clients, upstream := s } (by simp) ⟨rfl, rfl⟩
  unfold PushToIOS
  by_cases hnodup : req.Tokens.Nodup
  · have h2 := PushToIOSLoop_counters conf loader up
      (retryCap (conf.app req.AppID).Ios.MaxRetry req.Retry)
      ((retryCap (conf.app req.AppID).Ios.MaxRetry req.Retry).toNat + 1) req 0
      { clients := clients, upstream := s } (by simp)
      ⟨by simpa using hnodup, by intro t _; rfl, rfl, rfl⟩
    refine Outcome.Ends_mono ?_ ?_ _ (Outcome.Ends_and _ h1 h2)
    · rintro st ⟨⟨k1, k2⟩, k3⟩
      exact ⟨k1, k2, fun _ => k3.symm⟩
    · rintro st ⟨⟨k1, k2⟩, k3⟩
      exact ⟨k1, k2, fun _ => k3.symm⟩
  · refine Outcome.Ends_mono ?_ ?_ _ h1
    · rintro st ⟨k1, k2⟩
      exact ⟨k1, k2, fun h => absurd h hnodup⟩
    · rintro st ⟨k1, k2⟩
      exact ⟨k1, k2, fun h => absurd h hnodup⟩

/-- C4 at an example: with `MaxRetry = 2` the token "tI" fails once and then
succeeds; one error and one success are counted, and the map has one success
entry. -/
theorem C4_witness :
    (PushToIOS (exampleConf 2) exampleLoader failsOnce [] 0 exampleTitledRequest).Ends
        (fun st => iosErrorSum st.stats = (failedAttempts st.attempts : Int)
          ∧ iosSuccessSum st.stats = (acceptedAttempts st.attempts : Int)
          ∧ (exampleTitledRequest.Tokens.Nodup →
              iosSuccessSum st.stats = (successEntries st.pushResponse : Int)))
        (fun st => iosErrorSum st.stats = (failedAttempts st.attempts : Int)
          ∧ iosSuccessSum st.stats = (acceptedAttempts st.attempts : Int)
          ∧ (exampleTitledRequest.Tokens.Nodup →
              iosSuccessSum st.stats = (successEntries st.pushResponse : Int)))
      ∧ exampleTitledRequest.Tokens.Nodup
      ∧ (PushToIOS (exampleConf 2) exampleLoader failsOnce [] 0
          exampleTitledRequest).returned?.map
          (fun st => (iosSuccessSum st.stats, iosErrorSum st.stats,
            successEntries st.pushResponse, failedAttempts st.attempts))
          = some (1, 1, 1, 1) :=
  ⟨C4_ios_counters_match (exampleConf 2) exampleLoader failsOnce [] 0 exampleTitledRequest,
    by decide, by decide⟩

/-- C4 (as stated) fails: when the token "a" is listed twice and both pushes
are accepted, the response map reports one success while `AddIosSuccess` is
called with arguments summing to 2. -/
theorem C4_counterexample :
    (PushToIOS (exampleConf 0) exampleLoader alwaysSent [] ()
      { Tokens := ["a", "a"], Platform := 1, AppID := "normal" }).returned?.map
      (fun st => (successEntries st.pushResponse, iosSuccessSum st.stats)) = some (1, 2) := by
  decide

/-! ## Theorems: merge order of the payload builders -/

theorem GoMap.get_eq_none_of_not_mem {V : Type} (m : GoMap V) (k : String)
    (h : k ∉ GoMap.keys m) : GoMap.get m k = none := by
  have h1 := GoMap.get_isSome_iff m k
  cases hg : GoMap.get m k with
  | none => rfl
  | some v =>
    rw [hg] at h1
    exact absurd (h1.mp rfl) h

theorem rangeSet_get (m : D) (hm : GoMap.WF m) (k : String) :
    ∀ target : D, GoMap.get (rangeSet target m) k = (GoMap.get m k).or (GoMap.get target k) := by
  induction m with
  | nil => intro target; simp [rangeSet, GoMap.get]
  | cons e rest ih =>
    obtain ⟨k0, v0⟩ := e
    intro target
    have hn : k0 ∉ GoMap.keys rest ∧ (GoMap.keys rest).Nodup := by
      simpa [GoMap.WF, GoMap.keys] using hm
    have hstep : rangeSet target ((k0, v0) :: rest) = rangeSet (GoMap.set target k0 v0) rest :=
      rfl
    rw [hstep, ih hn.2, GoMap.get_set]
    by_cases h : k0 = k
    · subst h
      simp [GoMap.get, GoMap.get_eq_none_of_not_mem rest k0 hn.1]
    · simp [GoMap.get, h]

theorem guardedSet_dead (fired c : Prop) [Decidable c] (f : Aps → Aps) (custom : D)
    (q : Option Payload)
    (h : (fired ∧ q = none) ∨ (¬ fired ∧ q = some { aps := none, Custom := custom })) :
    ((fired ∨ c) ∧ guardedSet c f q = none)
      ∨ (¬ (fired ∨ c) ∧ guardedSet c f q = some { aps := none, Custom := custom }) := by
  rcases h with ⟨hf, hq⟩ | ⟨hf, hq⟩
  · subst hq
    exact Or.inl ⟨Or.inl hf, rfl⟩
  · subst hq
    by_cases hc : c
    · exact Or.inl ⟨Or.inr hc, by simp [guardedSet, hc, Payload.setAps]⟩
    · exact Or.inr ⟨by tauto, by simp [guardedSet, hc]⟩

theorem guardedSet_live (c : Prop) [Decidable c] (f : Aps → Aps) (custom : D)
    (q : Option Payload) (h : ∃ a, q = some { aps := some a, Custom := custom }) :
    ∃ a, guardedSet c f q = some { aps := some a, Custom := custom } := by
  obtain ⟨a, hq⟩ := h
  subst hq
  by_cases hc : c
  · exact ⟨f a, by simp [guardedSet, hc, Payload.setAps]⟩
  · exact ⟨a, by simp [guardedSet, hc]⟩

theorem iosAlertDictionary_dead (custom : D) (req : PushNotification) :
    iosAlertDictionary { aps := none, Custom := custom } req
      = if writesDictionary req then none else some { aps := none, Custom := custom } := by
  have k : ∃ fired : Prop,
      ((fired ∧ iosAlertDictionary { aps := none, Custom := custom } req = none)
        ∨ (¬ fired ∧ iosAlertDictionary { aps := none, Custom := custom } req
          = some { aps := none, Custom := custom }))
      ∧ (fired ↔ writesDictionary req) := by
    apply Exists.intro
    constructor
    · unfold iosAlertDictionary
      repeat apply guardedSet_dead
      exact Or.inr ⟨not_false, rfl⟩
    · unfold writesDictionary
      simp only [false_or, or_assoc]
  obtain ⟨fired, k, e⟩ := k
  rcases k with ⟨k1, k2⟩ | ⟨k1, k2⟩
  · rw [k2, if_pos (e.mp k1)]
  · rw [k2, if_neg (fun h => k1 (e.mpr h))]

theorem iosAlertDictionary_live (a : Aps) (custom : D) (req : PushNotification) :
    ∃ b, iosAlertDictionary { aps := some a, Custom := custom } req
      = some { aps := some b, Custom := custom } := by
  unfold iosAlertDictionary
  repeat apply guardedSet_live
  exact ⟨a, rfl⟩

theorem rangeCustom_eq (m : D) : ∀ payload : Payload,
    rangeCustom payload m
      = { aps := if "aps" ∈ GoMap.keys m then none else payload.aps
          Custom := rangeSet payload.Custom m } := by
  induction m with
  | nil => intro payload; rfl
  | cons e rest ih =>
    obtain ⟨k0, v0⟩ := e
    intro payload
    have hstep : rangeCustom payload ((k0, v0) :: rest)
        = rangeCustom (payload.setCustom k0 v0) rest := rfl
    have hset : rangeSet payload.Custom ((k0, v0) :: rest)
        = rangeSet (GoMap.set payload.Custom k0 v0) rest := rfl
    rw [hstep, ih, hset]
    by_cases h : k0 = "aps"
    · simp [Payload.setCustom, GoMap.keys, h]
    · have h2 : ¬ "aps" = k0 := fun e => h e.symm
      by_cases hin : "aps" ∈ List.map Prod.fst rest
      · simp [Payload.setCustom, GoMap.keys, h, h2, hin]
      · simp [Payload.setCustom, GoMap.keys, h, h2, hin]

theorem GetIOSNotification_payload (req : PushNotification) :
    ∃ a, (GetIOSNotification req).map ApnsNotification.Payload
      = iosAlertDictionary
          (rangeCustom (rangeCustom { aps := some a, Custom := [] } req.Data) req.IosData)
          req := by
  have h : ∃ a, guardedSet (req.URLArgs.length > 0) (fun a => { a with URLArgs := req.URLArgs })
      (guardedSet (req.ContentAvailable = true) (fun a => { a with ContentAvailable := true })
      (guardedSet (req.Sound.length > 0) (fun a => { a with Sound := req.Sound })
      (guardedSet (req.MutableContent = true) (fun a => { a with MutableContent := true })
      (guardedSet (∃ b ∈ req.Badge, b ≥ 0) (fun a => { a with Badge := req.Badge })
      (guardedSet (req.Message.length > 0)
        (fun a => { a with Alert := AlertValue.text req.Message }) (some {}))))))
      = some { aps := some a, Custom := [] } := by
    repeat apply guardedSet_live
    exact ⟨{}, rfl⟩
  obtain ⟨a, ha⟩ := h
  refine ⟨a, ?_⟩
  unfold GetIOSNotification
  simp only [ha, Option.map_some', Option.some_bind, Option.map_map]
  cases iosAlertDictionary
    (rangeCustom (rangeCustom { aps := some a, Custom := [] } req.Data) req.IosData) req <;> rfl

theorem GetIOSNotification_none_iff (req : PushNotification) :
    GetIOSNotification req = none
      ↔ ("aps" ∈ GoMap.keys req.Data ∨ "aps" ∈ GoMap.keys req.IosData)
        ∧ writesDictionary req := by
  obtain ⟨a, ha⟩ := GetIOSNotification_payload req
  have e : GetIOSNotification req = none
      ↔ (GetIOSNotification req).map ApnsNotification.Payload = none := by
    cases GetIOSNotification req <;> simp
  rw [e, ha, rangeCustom_eq, rangeCustom_eq]
  by_cases h1 : "aps" ∈ GoMap.keys req.IosData
  · simp only [h1, if_true, iosAlertDictionary_dead, or_true, true_and]
    by_cases hw : writesDictionary req <;> simp [hw]
  · by_cases h2 : "aps" ∈ GoMap.keys req.Data
    · simp only [h1, h2, if_true, if_false, iosAlertDictionary_dead, true_or, true_and]
      by_cases hw : writesDictionary req <;> simp [hw]
    · simp only [h1, h2, if_false, or_self, false_and, iff_false]
      obtain ⟨b, hb⟩ := iosAlertDictionary_live a
        (rangeSet (rangeSet [] req.Data) req.IosData) req
      rw [hb]
      simp

theorem GetIOSNotification_Custom (req : PushNotification) (n : ApnsNotification)
    (h : GetIOSNotification req = some n) :
    n.Payload.Custom = rangeSet (rangeSet [] req.Data) req.IosData
      ∧ (n.Payload.aps = none
        ↔ ("aps" ∈ GoMap.keys req.Data ∨ "aps" ∈ GoMap.keys req.IosData)) := by
  obtain ⟨a, ha⟩ := GetIOSNotification_payload req
  rw [h, rangeCustom_eq, rangeCustom_eq] at ha
  simp only [Option.map_some'] at ha
  by_cases h1 : "aps" ∈ GoMap.keys req.Data ∨ "aps" ∈ GoMap.keys req.IosData
  · have hd : (if "aps" ∈ GoMap.keys req.IosData then none
        else if "aps" ∈ GoMap.keys req.Data then none else some a) = none := by
      rcases h1 with h1 | h1
      · by_cases h2 : "aps" ∈ GoMap.keys req.IosData <;> simp [h1, h2]
      · simp [h1]
    rw [hd, iosAlertDictionary_dead] at ha
    by_cases hw : writesDictionary req
    · simp [hw] at ha
    · simp only [hw, if_false, Option.some.injEq] at ha
      rw [ha]
      simp [h1]
  · have hd : (if "aps" ∈ GoMap.keys req.IosData then none
        else if "aps" ∈ GoMap.keys req.Data then none else some a) = some a := by
      have h2 : "aps" ∉ GoMap.keys req.IosData := fun h => h1 (Or.inr h)
      have h3 : "aps" ∉ GoMap.keys req.Data := fun h => h1 (Or.inl h)
      simp [h2, h3]
    rw [hd] at ha
    obtain ⟨b, hb⟩ := iosAlertDictionary_live a
      (rangeSet (rangeSet [] req.Data) req.IosData) req
    rw [hb] at ha
    simp only [Option.some.injEq] at ha
    rw [ha]
    simp [h1]

theorem GetAndroidNotification_Data (req : PushNotification) :
    (GetAndroidNotification req).Data = rangeSet (rangeSet [] req.Data) req.AndroidData := by
  by_cases hlen : req.Data.length > 0 ∨ req.AndroidData.length > 0
  · simp only [GetAndroidNotification, hlen, if_true, apply_ite HttpMessage.Data, ite_self]
  · have hd : (GetAndroidNotification req).Data = [] := by
      simp only [GetAndroidNotification, hlen, if_false, apply_ite HttpMessage.Data, ite_self]
    have h1 : req.Data = [] := by
      cases hD : req.Data with
      | nil => rfl
      | cons x xs => exact absurd (Or.inl (by simp [hD])) hlen
    have h2 : req.AndroidData = [] := by
      cases hA : req.AndroidData with
      | nil => rfl
      | cons x xs => exact absurd (Or.inr (by simp [hA])) hlen
    rw [hd, h1, h2]
    rfl

theorem payload_merge_order (req : PushNotification) (hData : GoMap.WF req.Data)
    (hIos : GoMap.WF req.IosData) (hAndroid : GoMap.WF req.AndroidData) (k : String) :
    (∀ n, GetIOSNotification req = some n →
        GoMap.get n.Payload.Custom k = (GoMap.get req.IosData k).or (GoMap.get req.Data k))
      ∧ GoMap.get (GetAndroidNotification req).Data k
        = (GoMap.get req.AndroidData k).or (GoMap.get req.Data k) := by
  constructor
  · intro n hn
    rw [(GetIOSNotification_Custom req n hn).1, rangeSet_get _ hIos, rangeSet_get _ hData]
    simp [GoMap.get]
  · rw [GetAndroidNotification_Data, rangeSet_get _ hAndroid, rangeSet_get _ hData]
    simp [GoMap.get]

/-- C7 fails on the code.  The request has the key "aps" in `Data` and in
`IosData`, a message and a title.  `payload.Custom("aps", v)` replaces the
dictionary `aps` of the payload, so the setter `payload.AlertTitle` called by
`iosAlertDictionary` panics on the type assertion `p.content["aps"].(*aps)`:
`GetIOSNotification` builds no payload and `PushToIOS` panics before any push.
Without the title the payload is built, its key "aps" holds the value of
`IosData`, and the dictionary with the alert set from the message is gone. -/
theorem C7_aps_key_breaks_payload :
    (GoMap.get exampleApsRequest.Data "aps" = some (Value.num 1)
        ∧ GoMap.get exampleApsRequest.IosData "aps" = some (Value.num 2))
      ∧ GetIOSNotification exampleApsRequest = none
      ∧ (PushToIOS (exampleConf 0) exampleLoader alwaysSent [] ()
          exampleApsRequest).isPanic = true
      ∧ (PushToIOS (exampleConf 0) exampleLoader alwaysSent [] ()
          { exampleApsRequest with Data := [], IosData := [] }).isPanic = false
      ∧ (GetIOSNotification { exampleApsRequest with Title := "" }).map
          (fun n => (n.Payload.aps, GoMap.get n.Payload.Custom "aps"))
        = some (none, some (Value.num 2)) := by
  decide

/-! ## Theorems: failures of the dispatchers and of the pool -/

/-- C8 fails on the code.  `PushToAndroid` panics when the upstream response
carries two results for a request of one token (the index `req.Tokens[k]` is
out of range).  `PushToIOS` panics on the nil client that `GetAPNSClient` gives
with a nil error for a disabled app, and on the nil client the pool holds after
a failed initialization: the first run on the app with the bad key returns, the
second run on the pool the first one left panics. -/
theorem C8_dispatchers_panic :
    (PushToAndroid (exampleConf 0) twoResults ()
        { Tokens := ["tA"], Platform := 2, AppID := "normal" }).isPanic = true
      ∧ ((GetAPNSClient exampleConfIosDisabled exampleLoader [] "normal").client = none
        ∧ (GetAPNSClient exampleConfIosDisabled exampleLoader [] "normal").err = none
        ∧ (PushToIOS exampleConfIosDisabled exampleLoader alwaysSent [] ()
            { Tokens := ["tI"], Platform := 1, AppID := "normal" }).isPanic = true)
      ∧ ((PushToIOS exampleConfBadKey exampleLoader alwaysSent [] ()
            { Tokens := ["tI"], Platform := 1, AppID := "normal" }).returned?.map
            (fun st => st.clients) = some [("normal", none)]
        ∧ (PushToIOS exampleConfBadKey exampleLoader alwaysSent [("normal", none)] ()
            { Tokens := ["tI"], Platform := 1, AppID := "normal" }).isPanic = true) := by
  decide

/-- C10 fails on the code.  For the app whose key file has a wrong extension,
`GetAPNSClient` on the empty pool runs the initialization, returns its error,
and stores a nil entry for the AppID; the next `GetAPNSClient` for the AppID
finds that entry, runs no initialization, and returns the nil client with a
nil error. -/
theorem C10_failed_init_is_cached :
    ((GetAPNSClient exampleConfBadKey exampleLoader [] "normal").err
          = some "wrong certificate key extension"
        ∧ (GetAPNSClient exampleConfBadKey exampleLoader [] "normal").initCalls = 1
        ∧ (GetAPNSClient exampleConfBadKey exampleLoader [] "normal").clients
          = [("normal", none)])
      ∧ ((GetAPNSClient exampleConfBadKey exampleLoader [("normal", none)] "normal").client
          = none
        ∧ (GetAPNSClient exampleConfBadKey exampleLoader [("normal", none)] "normal").err
          = none
        ∧ (GetAPNSClient exampleConfBadKey exampleLoader [("normal", none)] "normal").initCalls
          = 0) := by
  decide

/-! ## Theorems: the response map of the Android dispatcher -/

theorem lastPair_append {β : Type} (t : String) (a b : List (String × β)) :
    lastPair t (a ++ b) = (lastPair t b).or (lastPair t a) := by
  simp only [lastPair, List.filter_append, List.getLast?_append]
  cases (List.filter (fun p => decide (p.1 = t)) b).getLast? <;> simp

theorem lastPair_single {β : Type} (t u : String) (v : β) :
    lastPair t [(u, v)] = if u = t then some v else none := by
  by_cases h : u = t <;> simp [lastPair, h]

theorem readResultAndroid_eq {σ : Type} (token : String) (result : GcmResult)
    (st : AndroidState σ) :
    readResultAndroid token result st =
      { st with
        pushResponse := GoMap.set st.pushResponse token (androidResponseBySpec result)
        newTokens := if result.Error ≠ "" then st.newTokens ++ [token] else st.newTokens
        isError := st.isError || decide (result.Error ≠ "") } := by
  by_cases h1 : result.RegistrationId = "" <;> by_cases h2 : result.Error = "" <;>
    simp [readResultAndroid, androidResponseBySpec, h1, h2, GoMap.set_set]

theorem readResultsAndroid_eq_fold {σ : Type} (Tokens : List String) :
    ∀ (results : List GcmResult) (k : Nat) (st : AndroidState σ),
      k + results.length ≤ Tokens.length →
      readResultsAndroid Tokens k results st
        = Outcome.ok (((Tokens.drop k).zip results).foldl
            (fun st p => readResultAndroid p.1 p.2 st) st) := by
  intro results
  induction results with
  | nil => intro k st _; simp [readResultsAndroid]
  | cons r rest ih =>
    intro k st h
    have hk : k < Tokens.length := by
      simp only [List.length_cons] at h
      omega
    simp only [readResultsAndroid, List.getElem?_eq_getElem hk]
    rw [ih (k + 1) _ (by simp only [List.length_cons] at h; omega),
      List.drop_eq_getElem_cons hk]
    simp only [List.zip_cons_cons, List.foldl_cons]

theorem readResults_fold_props {σ : Type} (pairs : List (String × GcmResult)) :
    ∀ st : AndroidState σ,
      (∀ t, GoMap.get (pairs.foldl (fun st p => readResultAndroid p.1 p.2 st) st).pushResponse t
          = ((lastPair t pairs).map androidResponseBySpec).or (GoMap.get st.pushResponse t))
      ∧ ((GoMap.keys st.pushResponse).Nodup →
          (GoMap.keys (pairs.foldl (fun st p => readResultAndroid p.1 p.2 st) st).pushResponse).Nodup)
      ∧ (∀ t, t ∈ GoMap.keys (pairs.foldl (fun st p => readResultAndroid p.1 p.2 st) st).pushResponse
          ↔ (t ∈ GoMap.keys st.pushResponse ∨ t ∈ pairs.map Prod.fst))
      ∧ (pairs.foldl (fun st p => readResultAndroid p.1 p.2 st) st).newTokens
          = st.newTokens ++ (pairs.filter (fun p => p.2.Error ≠ "")).map Prod.fst
      ∧ (pairs.foldl (fun st p => readResultAndroid p.1 p.2 st) st).batches = st.batches := by
  induction pairs using List.reverseRecOn with
  | nil => intro st; simp [lastPair]
  | append_singleton ps p ih =>
    intro st
    obtain ⟨h1, h2, h3, h4, h5⟩ := ih st
    obtain ⟨tok, res⟩ := p
    simp only [List.foldl_append, List.foldl_cons, List.foldl_nil]
    generalize List.foldl (fun st p => readResultAndroid p.1 p.2 st) st ps = S at h1 h2 h3 h4 h5 ⊢
    rw [readResultAndroid_eq]
    refine ⟨?_, ?_, ?_, ?_, ?_⟩
    · intro t
      rw [GoMap.get_set, lastPair_append, lastPair_single, h1 t]
      by_cases e : tok = t
      · simp [e]
      · simp [e]
    · intro hnd
      exact GoMap.nodup_keys_set _ _ _ (h2 hnd)
    · intro t
      rw [GoMap.mem_keys_set, h3 t]
      simp only [List.map_append, List.map_cons, List.map_nil, List.mem_append,
        List.mem_singleton]
      tauto
    · rw [h4]
      by_cases e : res.Error = ""
      · simp [e, List.filter_append]
      · simp [e, List.filter_append]
    · exact h5

theorem GetAndroidNotification_RegistrationIds (req : PushNotification) :
    (GetAndroidNotification req).RegistrationIds = req.Tokens := by
  simp only [GetAndroidNotification, apply_ite HttpMessage.RegistrationIds, ite_self]

theorem retryChain_append (b : HttpMessage × GcmReply) :
    ∀ (bs : List (HttpMessage × GcmReply)) (tokens : List String),
      retryChain tokens (bs ++ [b])
        ↔ (retryChain tokens bs ∧ b.1.RegistrationIds = nextTokens tokens bs) := by
  intro bs
  induction bs with
  | nil => intro tokens; simp [retryChain, nextTokens]
  | cons x rest ih =>
    intro tokens
    show (x.1.RegistrationIds = tokens ∧ retryChain (failedTokens x) (rest ++ [b]))
      ↔ ((x.1.RegistrationIds = tokens ∧ retryChain (failedTokens x) rest)
        ∧ b.1.RegistrationIds = nextTokens (failedTokens x) rest)
    rw [ih, and_assoc]

theorem nextTokens_append (b : HttpMessage × GcmReply) :
    ∀ (bs : List (HttpMessage × GcmReply)) (tokens : List String),
      nextTokens tokens (bs ++ [b]) = failedTokens b := by
  intro bs
  induction bs with
  | nil => intro tokens; simp [nextTokens]
  | cons x rest ih =>
    intro tokens
    show nextTokens (failedTokens x) (rest ++ [b]) = failedTokens b
    exact ih _

theorem resultPairs_append (bs : List (HttpMessage × GcmReply)) (b : HttpMessage × GcmReply) :
    resultPairs (bs ++ [b]) = resultPairs bs ++ batchPairs b := by
  simp [resultPairs]

theorem option_map_or {α β : Type} (f : α → β) (a b : Option α) :
    (a.or b).map f = (a.map f).or (b.map f) := by
  cases a <;> simp

theorem readResultsAndroid_batches {σ : Type} (Tokens : List String) :
    ∀ (results : List GcmResult) (k : Nat) (st : AndroidState σ),
      (readResultsAndroid Tokens k results st).Holds (fun st' => st'.batches = st.batches) := by
  intro results
  induction results with
  | nil => intro k st; rfl
  | cons r rest ih =>
    intro k st
    simp only [readResultsAndroid]
    cases Tokens[k]? with
    | none => rfl
    | some token =>
      have h := ih (k + 1) (readResultAndroid token r st)
      have e : (readResultAndroid token r st).batches = st.batches := by
        rw [readResultAndroid_eq]
      rw [e] at h
      exact h

theorem PushToAndroidLoop_batches {σ : Type} (up : GcmUpstream σ) (apiKey : String)
    (maxRetry : Int) (fuel : Nat) :
    ∀ (req : PushNotification) (rc : Int) (st : AndroidState σ),
      (maxRetry - rc).toNat < fuel →
      (PushToAndroidLoop up apiKey maxRetry fuel req rc st).Holds (fun st' =>
        ∃ more, st'.batches = st.batches
          ++ (GetAndroidNotification req,
              (up.SendHttp st.upstream apiKey (GetAndroidNotification req)).1) :: more) := by
  induction fuel with
  | zero => intro req rc st h; omega
  | succ fuel ih =>
    intro req rc st hfuel
    simp only [PushToAndroidLoop]
    cases hr : (up.SendHttp st.upstream apiKey (GetAndroidNotification req)).1 with
    | error e => exact ⟨[], rfl⟩
    | response res =>
      simp only
      have hb := readResultsAndroid_batches req.Tokens res.Results 0
        { st with
          isError := false
          upstream := (up.SendHttp st.upstream apiKey (GetAndroidNotification req)).2
          batches := st.batches ++ [(GetAndroidNotification req, GcmReply.response res)]
          stats := st.stats
            ++ [StatCall.AddAndroidSuccess res.Success, StatCall.AddAndroidError res.Failure]
          newTokens := [] }
      revert hb
      cases readResultsAndroid req.Tokens 0 res.Results
        { st with
          isError := false
          upstream := (up.SendHttp st.upstream apiKey (GetAndroidNotification req)).2
          batches := st.batches ++ [(GetAndroidNotification req, GcmReply.response res)]
          stats := st.stats
            ++ [StatCall.AddAndroidSuccess res.Success, StatCall.AddAndroidError res.Failure]
          newTokens := [] } with
      | ok st1 =>
        intro hb
        simp only [Outcome.Holds] at hb
        simp only
        split
        · rename_i hcond
          have h := ih { req with Tokens := st1.newTokens } (rc + 1) st1
            (by have := hcond.2; omega)
          refine Outcome.Holds_mono ?_ _ h
          rintro st2 ⟨more, hmore⟩
          rw [hb] at hmore
          exact ⟨_, by rw [hmore, List.append_assoc]; rfl⟩
        · exact ⟨[], by rw [hb]⟩
      | panic st1 =>
        intro hb
        exact ⟨[], by simp only [Outcome.Holds] at hb; rw [hb]⟩
      | fuel => exact fun hb => hb

theorem wellAnswered_append_cons (l1 l2 : List (HttpMessage × GcmReply))
    (b : HttpMessage × GcmReply) (hb : answered b = false) :
    wellAnswered (l1 ++ b :: l2) = false := by
  simp [wellAnswered, hb]

theorem PushToAndroidLoop_map {σ : Type} (up : GcmUpstream σ)
    (apiKey : String) (maxRetry : Int) (original : List String) (fuel : Nat) :
    ∀ (req : PushNotification) (rc : Int) (st : AndroidState σ),
      (maxRetry - rc).toNat < fuel →
      (∀ t, GoMap.get st.pushResponse t
        = (lastResult t st.batches).map androidResponseBySpec) →
      (GoMap.keys st.pushResponse).Nodup →
      (∀ t, (t ∈ GoMap.keys st.pushResponse ∨ t ∈ req.Tokens) ↔ t ∈ original) →
      retryChain original st.batches →
      req.Tokens = nextTokens original st.batches →
      (PushToAndroidLoop up apiKey maxRetry fuel req rc st).Ends
        (fun st' => wellAnswered st'.batches = true →
          ((∀ t, GoMap.get st'.pushResponse t
            = (lastResult t st'.batches).map androidResponseBySpec)
          ∧ (GoMap.keys st'.pushResponse).Nodup
          ∧ (∀ t, t ∈ GoMap.keys st'.pushResponse ↔ t ∈ original)
          ∧ retryChain original st'.batches))
        (fun st' => wellAnswered st'.batches = false) := by
  induction fuel with
  | zero => intro req rc st h; omega
  | succ fuel ih =>
    intro req rc st hfuel hrec hnd hkeys hchain hnext
    have hgrow := PushToAndroidLoop_batches up apiKey maxRetry (fuel + 1) req rc st hfuel
    by_cases hans : answered (GetAndroidNotification req,
        (up.SendHttp st.upstream apiKey (GetAndroidNotification req)).1) = true
    · cases hr : (up.SendHttp st.upstream apiKey (GetAndroidNotification req)).1 with
      | error e =>
        rw [hr] at hans
        simp [answered] at hans
      | response res =>
        rw [hr] at hans
        have hlen : res.Results.length = req.Tokens.length := by
          simpa [answered, GetAndroidNotification_RegistrationIds] using hans
        simp only [PushToAndroidLoop, hr]
        rw [readResultsAndroid_eq_fold req.Tokens res.Results 0 _ (by omega)]
        simp only [List.drop_zero]
        obtain ⟨f1, f2, f3, f4, f5⟩ := readResults_fold_props (req.Tokens.zip res.Results)
          { st with
            isError := false
            upstream := (up.SendHttp st.upstream apiKey (GetAndroidNotification req)).2
            batches := st.batches ++ [(GetAndroidNotification req, GcmReply.response res)]
            stats := st.stats
              ++ [StatCall.AddAndroidSuccess res.Success, StatCall.AddAndroidError res.Failure]
            newTokens := [] }
        generalize List.foldl (fun st p => readResultAndroid p.1 p.2 st)
          { st with
            isError := false
            upstream := (up.SendHttp st.upstream apiKey (GetAndroidNotification req)).2
            batches := st.batches ++ [(GetAndroidNotification req, GcmReply.response res)]
            stats := st.stats
              ++ [StatCall.AddAndroidSuccess res.Success, StatCall.AddAndroidError res.Failure]
            newTokens := [] } (req.Tokens.zip res.Results) = S at f1 f2 f3 f4 f5 ⊢
        simp only at f1 f2 f3 f4 f5
        have hpairs : batchPairs (GetAndroidNotification req, GcmReply.response res)
            = req.Tokens.zip res.Results := by
          simp only [batchPairs, GetAndroidNotification_RegistrationIds]
        have hfst : (req.Tokens.zip res.Results).map Prod.fst = req.Tokens :=
          List.map_fst_zip _ _ (by omega)
        have g1 : ∀ t, GoMap.get S.pushResponse t
            = (lastResult t S.batches).map androidResponseBySpec := by
          intro t
          rw [f1 t, f5, hrec t]
          simp only [lastResult, resultPairs_append, lastPair_append, hpairs, option_map_or]
        have g2 := f2 hnd
        have g3 : ∀ t, t ∈ GoMap.keys S.pushResponse ↔ t ∈ original := by
          intro t
          rw [f3 t, hfst]
          exact hkeys t
        have g4 : retryChain original S.batches := by
          rw [f5, retryChain_append]
          exact ⟨hchain, by rw [GetAndroidNotification_RegistrationIds]; exact hnext⟩
        have g5 : S.newTokens
            = failedTokens (GetAndroidNotification req, GcmReply.response res) := by
          rw [f4]
          simp only [failedTokens, hpairs, List.nil_append]
        split
        · rename_i hcond
          refine ih _ (rc + 1) S (by have := hcond.2; omega) g1 g2 ?_ g4 ?_
          · intro t
            rw [← g3 t]
            constructor
            · rintro (h | h)
              · exact h
              · rw [f3 t, hfst]
                right
                simp only [f4, List.nil_append] at h
                have hmem : t ∈ (req.Tokens.zip res.Results).map Prod.fst :=
                  List.mem_map.mpr (by
                    obtain ⟨p, hp, hpt⟩ := List.mem_map.mp h
                    exact ⟨p, List.mem_of_mem_filter hp, hpt⟩)
                rw [hfst] at hmem
                exact hmem
            · exact Or.inl
          · show S.newTokens = nextTokens original S.batches
            rw [f5, nextTokens_append, g5]
        · exact fun _ => ⟨g1, g2, g3, g4⟩
    · have hbad : answered (GetAndroidNotification req,
          (up.SendHttp st.upstream apiKey (GetAndroidNotification req)).1) = false := by
        simpa using hans
      revert hgrow
      cases PushToAndroidLoop up apiKey maxRetry (fuel + 1) req rc st with
      | ok st1 =>
        rintro ⟨more, hmore⟩ hwell
        rw [hmore, wellAnswered_append_cons _ _ _ hbad] at hwell
        cases hwell
      | panic st1 =>
        rintro ⟨more, hmore⟩
        show wellAnswered st1.batches = false
        rw [hmore]
        exact wellAnswered_append_cons _ _ _ hbad
      | fuel => exact fun h => h

/-- C6: in every run of `PushToAndroid` on a valid request with pairwise
distinct tokens, fuel never runs out, a run that panics has a submission that
was not answered with one result per token, and a run that returns and in which
every submission was answered without transport error and with exactly one
result per submitted token has these properties: the response map has exactly
one entry per token of the request; the entry of a token records its result in
the last batch in which it was submitted (status "failed" with the error of the
result when that is not empty, status "success" otherwise, the registration id
of the result as canonical id); the first batch submits the tokens of the
request, and each retry batch submits the tokens that failed in the batch
before it, in the same order, results being matched to tokens by index. -/
theorem C6_android_response_map {σ : Type} (conf : ConfYaml) (up : GcmUpstream σ) (s : σ)
    (req : PushNotification) (hvalid : CheckMessage req = none) (hnodup : req.Tokens.Nodup) :
    (PushToAndroid conf up s req).Ends
      (fun st => wellAnswered st.batches = true →
        ((GoMap.keys st.pushResponse).Perm req.Tokens
          ∧ (∀ t ∈ req.Tokens, ∃ r, lastResult t st.batches = some r
              ∧ GoMap.get st.pushResponse t = some (androidResponseBySpec r))
          ∧ retryChain req.Tokens st.batches))
      (fun st => wellAnswered st.batches = false) := by
  have h := PushToAndroidLoop_map up
    (if req.APIKey = "" then (conf.app req.AppID).Android.APIKey else req.APIKey)
    (retryCap (conf.app req.AppID).Android.MaxRetry req.Retry) req.Tokens
    ((retryCap (conf.app req.AppID).Android.MaxRetry req.Retry).toNat + 1) req 0
    { upstream := s } (by simp)
    (by intro t; simp [GoMap.get, lastResult, resultPairs, lastPair])
    (by simp [GoMap.keys]) (by intro t; simp [GoMap.keys]) trivial rfl
  simp only [PushToAndroid, hvalid]
  refine Outcome.Ends_mono ?_ (fun _ h => h) _ h
  intro st hst hwell
  obtain ⟨h1, h2, h3, h4⟩ := hst hwell
  refine ⟨(List.perm_ext_iff_of_nodup h2 hnodup).mpr h3, ?_, h4⟩
  intro t ht
  have hsome : (GoMap.get st.pushResponse t).isSome = true :=
    (GoMap.get_isSome_iff _ _).mpr ((h3 t).mpr ht)
  have hrec := h1 t
  cases hl : lastResult t st.batches with
  | none =>
    rw [hrec, hl] at hsome
    simp at hsome
  | some r =>
    rw [hl] at hrec
    exact ⟨r, rfl, hrec⟩

/-- C6 at an example: with `MaxRetry = 1`, the token "tB" is rejected in the
first batch and accepted in the retry batch; both batches are answered with one
result per token, and both tokens end as "success". -/
theorem C6_witness :
    (PushToAndroid (exampleConf 1) rejectsOnce 0
        { Tokens := ["tA", "tB"], Platform := 2, AppID := "normal" }).Ends
        (fun st => wellAnswered st.batches = true →
          ((GoMap.keys st.pushResponse).Perm ["tA", "tB"]
            ∧ (∀ t ∈ ["tA", "tB"], ∃ r, lastResult t st.batches = some r
                ∧ GoMap.get st.pushResponse t = some (androidResponseBySpec r))
            ∧ retryChain ["tA", "tB"] st.batches))
        (fun st => wellAnswered st.batches = false)
      ∧ (PushToAndroid (exampleConf 1) rejectsOnce 0
          { Tokens := ["tA", "tB"], Platform := 2, AppID := "normal" }).returned?.map
          (fun st => (wellAnswered st.batches, st.pushResponse,
            st.batches.map (fun b => b.1.RegistrationIds)))
        = some (true,
            [("tA", { Status := "success", CanonicalId := "", Error := "" }),
              ("tB", { Status := "success", CanonicalId := "", Error := "" })],
            [["tA", "tB"], ["tB"]]) :=
  ⟨C6_android_response_map (exampleConf 1) rejectsOnce 0
    { Tokens := ["tA", "tB"], Platform := 2, AppID := "normal" } (by decide) (by decide),
   by decide⟩

/-! ## Theorems: transport errors of the Android dispatcher -/

theorem readResultsAndroid_ok {σ : Type} (Tokens : List String) :
    ∀ (results : List GcmResult) (k : Nat) (st st' : AndroidState σ),
      readResultsAndroid Tokens k results st = Outcome.ok st' →
      st' = ((Tokens.drop k).zip results).foldl
        (fun st p => readResultAndroid p.1 p.2 st) st := by
  intro results
  induction results with
  | nil =>
    intro k st st' h
    simp only [readResultsAndroid, Outcome.ok.injEq] at h
    simp [h]
  | cons r rest ih =>
    intro k st st' h
    by_cases hk : k < Tokens.length
    · simp only [readResultsAndroid, List.getElem?_eq_getElem hk] at h
      rw [ih (k + 1) _ _ h, List.drop_eq_getElem_cons hk]
      simp only [List.zip_cons_cons, List.foldl_cons]
    · have hn : Tokens[k]? = none := List.getElem?_eq_none (by omega)
      simp only [readResultsAndroid, hn] at h
      cases h

theorem readResults_fold_pushResponse {σ : Type} (pairs : List (String × GcmResult)) :
    ∀ st : AndroidState σ,
      (pairs.foldl (fun st p => readResultAndroid p.1 p.2 st) st).pushResponse
        = pairs.foldl (fun m p => GoMap.set m p.1 (androidResponseBySpec p.2))
            st.pushResponse := by
  induction pairs with
  | nil => intro st; rfl
  | cons p rest ih =>
    intro st
    simp only [List.foldl_cons]
    rw [ih, readResultAndroid_eq]

theorem mapOfBatches_append (bs : List (HttpMessage × GcmReply)) (b : HttpMessage × GcmReply) :
    mapOfBatches (bs ++ [b])
      = (batchPairs b).foldl (fun m p => GoMap.set m p.1 (androidResponseBySpec p.2))
          (mapOfBatches bs) := by
  simp only [mapOfBatches, resultPairs_append, List.foldl_append]

theorem split_at_last {α : Type} (P : α → Prop) (l pre post : List α) (x y : α)
    (hl : ∀ b ∈ l, ¬ P b) (hy : P y) (h : l ++ [x] = pre ++ y :: post) :
    post = [] ∧ pre = l ∧ y = x := by
  cases post using List.reverseRecOn with
  | nil =>
    have h2 := List.append_inj' h rfl
    exact ⟨rfl, h2.1.symm, by simpa using h2.2.symm⟩
  | append_singleton post1 z =>
    have h3 : l ++ [x] = (pre ++ y :: post1) ++ [z] := by
      rw [h]
      simp
    have h2 := List.append_inj' h3 rfl
    exact absurd hy (hl y (by rw [h2.1]; simp))

theorem PushToAndroidLoop_error_terminal {σ : Type} (up : GcmUpstream σ) (apiKey : String)
    (maxRetry : Int) (fuel : Nat) :
    ∀ (req : PushNotification) (rc : Int) (st : AndroidState σ),
      (maxRetry - rc).toNat < fuel →
      (∀ b ∈ st.batches, ¬ isTransportError b = true) →
      st.pushResponse = mapOfBatches st.batches →
      (PushToAndroidLoop up apiKey maxRetry fuel req rc st).Ends
        (fun st' => ∀ pre b post, isTransportError b = true →
          st'.batches = pre ++ b :: post →
          post = [] ∧ st'.pushResponse = mapOfBatches pre)
        (fun st' => ∀ b ∈ st'.batches, ¬ isTransportError b = true) := by
  induction fuel with
  | zero => intro req rc st h; omega
  | succ fuel ih =>
    intro req rc st hfuel hgood hmap
    simp only [PushToAndroidLoop]
    cases hr : (up.SendHttp st.upstream apiKey (GetAndroidNotification req)).1 with
    | error e =>
      intro pre b post hb hsplit
      obtain ⟨h1, h2, _⟩ := split_at_last (fun b => isTransportError b = true) _ _ _ _ _
        hgood hb hsplit
      exact ⟨h1, by rw [h2]; exact hmap⟩
    | response res =>
      simp only
      have hgood1 : ∀ b ∈ st.batches ++ [(GetAndroidNotification req, GcmReply.response res)],
          ¬ isTransportError b = true := by
        intro b hb
        rcases List.mem_append.mp hb with hb | hb
        · exact hgood b hb
        · rw [List.mem_singleton.mp hb]
          simp [isTransportError]
      have hb := readResultsAndroid_batches req.Tokens res.Results 0
        { st with
          isError := false
          upstream := (up.SendHttp st.upstream apiKey (GetAndroidNotification req)).2
          batches := st.batches ++ [(GetAndroidNotification req, GcmReply.response res)]
          stats := st.stats
            ++ [StatCall.AddAndroidSuccess res.Success, StatCall.AddAndroidError res.Failure]
          newTokens := [] }
      cases hout : readResultsAndroid req.Tokens 0 res.Results
        { st with
          isError := false
          upstream := (up.SendHttp st.upstream apiKey (GetAndroidNotification req)).2
          batches := st.batches ++ [(GetAndroidNotification req, GcmReply.response res)]
          stats := st.stats
            ++ [StatCall.AddAndroidSuccess res.Success, StatCall.AddAndroidError res.Failure]
          newTokens := [] } with
      | ok st1 =>
        rw [hout] at hb
        simp only [Outcome.Holds] at hb
        have hfold := readResultsAndroid_ok _ _ _ _ _ hout
        have hmap1 : st1.pushResponse = mapOfBatches st1.batches := by
          rw [hb, mapOfBatches_append, ← hmap, hfold, readResults_fold_pushResponse]
          simp only [batchPairs, GetAndroidNotification_RegistrationIds, List.drop_zero]
        have hgood2 : ∀ b ∈ st1.batches, ¬ isTransportError b = true := by
          rw [hb]
          exact hgood1
        simp only
        split
        · rename_i hcond
          exact ih _ (rc + 1) st1 (by have := hcond.2; omega) hgood2 hmap1
        · intro pre b post hbe hsplit
          exact absurd hbe (hgood2 b (by rw [hsplit]; simp))
      | panic st1 =>
        rw [hout] at hb
        simp only [Outcome.Holds] at hb
        show ∀ b ∈ st1.batches, ¬ isTransportError b = true
        rw [hb]
        exact hgood1
      | fuel =>
        rw [hout] at hb
        exact hb.elim

/-- C9 (as the code has it): in every run of `PushToAndroid` fuel never runs
out, and a submission answered with a transport error, on the first batch or on
a retry batch, ends the run: the run returns (a run that panics has no such
submission), no submission follows it, and the response map returned is the map
recorded from the submissions made before it, which is empty when the error is
on the first batch.  On a valid request whose first submission is answered with
a transport error, the run makes that one submission and returns the empty
map. -/
theorem C9_transport_error_is_terminal {σ : Type} (conf : ConfYaml) (up : GcmUpstream σ)
    (s : σ) (req : PushNotification) :
    (PushToAndroid conf up s req).Ends
        (fun st => ∀ pre b post, isTransportError b = true →
          st.batches = pre ++ b :: post →
          post = [] ∧ st.pushResponse = mapOfBatches pre ∧ (pre = [] → st.pushResponse = []))
        (fun st => ∀ b ∈ st.batches, ¬ isTransportError b = true)
      ∧ (∀ (e : String) (s1 : σ), CheckMessage req = none →
        up.SendHttp s (if req.APIKey = "" then (conf.app req.AppID).Android.APIKey
            else req.APIKey) (GetAndroidNotification req) = (GcmReply.error e, s1) →
        PushToAndroid conf up s req
          = Outcome.ok
              { pushResponse := []
                upstream := s1
                batches := [(GetAndroidNotification req, GcmReply.error e)] }) := by
  constructor
  · cases hvalid : CheckMessage req with
    | some err =>
      simp only [PushToAndroid, hvalid]
      intro pre b post _ hsplit
      simp at hsplit
    | none =>
      have h := PushToAndroidLoop_error_terminal up
        (if req.APIKey = "" then (conf.app req.AppID).Android.APIKey else req.APIKey)
        (retryCap (conf.app req.AppID).Android.MaxRetry req.Retry)
        ((retryCap (conf.app req.AppID).Android.MaxRetry req.Retry).toNat + 1) req 0
        { upstream := s } (by simp) (by simp) rfl
      simp only [PushToAndroid, hvalid]
      refine Outcome.Ends_mono ?_ (fun _ h => h) _ h
      intro st hst pre b post hb hsplit
      obtain ⟨h1, h2⟩ := hst pre b post hb hsplit
      refine ⟨h1, h2, ?_⟩
      intro hpre
      rw [h2, hpre]
      rfl
  · intro e s1 hvalid h
    simp only [PushToAndroid, hvalid, PushToAndroidLoop, h, List.nil_append]

/-- C9 at an example: with `MaxRetry = 1` the first batch is rejected and the
retry batch fails at transport level; the run returns after these two
submissions with the entry recorded from the first batch. -/
theorem C9_witness :
    (PushToAndroid (exampleConf 1) rejectsThenDown 0
        { Tokens := ["tA"], Platform := 2, AppID := "normal" }).Ends
        (fun st => ∀ pre b post, isTransportError b = true →
          st.batches = pre ++ b :: post →
          post = [] ∧ st.pushResponse = mapOfBatches pre
            ∧ (pre = [] → st.pushResponse = []))
        (fun st => ∀ b ∈ st.batches, ¬ isTransportError b = true)
      ∧ (PushToAndroid (exampleConf 1) rejectsThenDown 0
          { Tokens := ["tA"], Platform := 2, AppID := "normal" }).returned?.map
          (fun st => (st.batches.map isTransportError, st.pushResponse,
            mapOfBatches st.batches.dropLast))
        = some ([false, true],
            [("tA", { Status := "failed", CanonicalId := "", Error := "Unavailable" })],
            [("tA", { Status := "failed", CanonicalId := "", Error := "Unavailable" })])
      ∧ PushToAndroid (exampleConf 1) alwaysDown ()
          { Tokens := ["tA"], Platform := 2, AppID := "normal" }
        = Outcome.ok
            { pushResponse := []
              upstream := ()
              batches := [(GetAndroidNotification
                { Tokens := ["tA"], Platform := 2, AppID := "normal" },
                GcmReply.error "connection reset")] } :=
  ⟨(C9_transport_error_is_terminal (exampleConf 1) rejectsThenDown 0
      { Tokens := ["tA"], Platform := 2, AppID := "normal" }).1,
    by decide,
    (C9_transport_error_is_terminal (exampleConf 1) alwaysDown ()
      { Tokens := ["tA"], Platform := 2, AppID := "normal" }).2 "connection reset" ()
      (by decide) rfl⟩

/-- C9 (as stated) fails: with `MaxRetry = 1`, a first batch whose token is
rejected and a retry batch that fails at transport level, `PushToAndroid`
returns a response map that is not empty. -/
theorem C9_counterexample :
    (PushToAndroid (exampleConf 1) rejectsThenDown 0
      { Tokens := ["tA"], Platform := 2, AppID := "normal" }).returned?.map
      (fun st => (st.pushResponse, st.batches.map Prod.snd))
      = some ([("tA", { Status := "failed", CanonicalId := "", Error := "Unavailable" })],
          [GcmReply.response
              { Success := 0, Failure := 1, Results := [{ Error := "Unavailable" }] },
            GcmReply.error "connection reset"]) := by
  decide

/-! ## Theorems: idempotence of the client pool -/

theorem GetAPNSClient_present (conf : ConfYaml) (loader : CertLoader)
    (clients : GoMap (Option ApnsClient)) (AppID : String) (c : Option ApnsClient)
    (h : GoMap.get clients AppID = some c) :
    GetAPNSClient conf loader clients AppID
      = { client := c, err := none, clients := clients, initCalls := 0 } := by
  have hnorm : (if clients.length = 0 then [] else clients) = clients := by
    cases clients <;> simp
  simp only [GetAPNSClient, hnorm, h]

theorem GetAPNSClient_absent (conf : ConfYaml) (loader : CertLoader)
    (clients : GoMap (Option ApnsClient)) (AppID : String)
    (h : GoMap.get clients AppID = none) :
    GetAPNSClient conf loader clients AppID
      = { client := (initAPNSClient conf loader AppID).1,
          err := (initAPNSClient conf loader AppID).2,
          clients := GoMap.set clients AppID (initAPNSClient conf loader AppID).1,
          initCalls := 1 } := by
  have hnorm : (if clients.length = 0 then [] else clients) = clients := by
    cases clients <;> simp
  simp only [GetAPNSClient, hnorm, h]

theorem GetAPNSClient_stores (conf : ConfYaml) (loader : CertLoader)
    (clients : GoMap (Option ApnsClient)) (AppID : String) :
    GoMap.get (GetAPNSClient conf loader clients AppID).clients AppID
      = some (GetAPNSClient conf loader clients AppID).client := by
  cases h : GoMap.get clients AppID with
  | some c =>
    rw [GetAPNSClient_present conf loader clients AppID c h]
    exact h
  | none =>
    rw [GetAPNSClient_absent conf loader clients AppID h]
    simp [GoMap.get_set]

theorem GetAPNSClient_keeps (conf : ConfYaml) (loader : CertLoader)
    (clients : GoMap (Option ApnsClient)) (AppID : String) (k : String)
    (v : Option ApnsClient) (hk : GoMap.get clients k = some v) :
    GoMap.get (GetAPNSClient conf loader clients AppID).clients k = some v := by
  cases h : GoMap.get clients AppID with
  | some c =>
    rw [GetAPNSClient_present conf loader clients AppID c h]
    exact hk
  | none =>
    rw [GetAPNSClient_absent conf loader clients AppID h]
    have hne : AppID ≠ k := by
      intro e
      rw [e, hk] at h
      cases h
    simp only [GoMap.get_set, hne, if_false]
    exact hk

theorem poolAfterCalls_keeps (conf : ConfYaml) (loader : CertLoader) (later : List String) :
    ∀ (clients : GoMap (Option ApnsClient)) (k : String) (v : Option ApnsClient),
      GoMap.get clients k = some v →
      GoMap.get (poolAfterCalls conf loader clients later) k = some v := by
  induction later with
  | nil => intro clients k v h; exact h
  | cons id rest ih =>
    intro clients k v h
    exact ih _ k v (GetAPNSClient_keeps conf loader clients id k v h)

/-- C11: once a `GetAPNSClient` call for an AppID has given a client, then
after any sequence of later `GetAPNSClient` calls (for this AppID
or for others) a call for the AppID gives that same client with no error, runs
no initialization and leaves the pool as it is, and every entry the pool held
after the first call is still there with the same client. -/
theorem C11_pool_idempotence (conf : ConfYaml) (loader : CertLoader)
    (clients : GoMap (Option ApnsClient)) (AppID : String) (c : ApnsClient)
    (later : List String)
    (hclient : (GetAPNSClient conf loader clients AppID).client = some c) :
    (GetAPNSClient conf loader
        (poolAfterCalls conf loader (GetAPNSClient conf loader clients AppID).clients later)
        AppID)
      = { client := some c, err := none,
          clients :=
            poolAfterCalls conf loader (GetAPNSClient conf loader clients AppID).clients later,
          initCalls := 0 }
      ∧ ∀ (k : String) (v : Option ApnsClient),
          GoMap.get (GetAPNSClient conf loader clients AppID).clients k = some v →
          GoMap.get
            (poolAfterCalls conf loader (GetAPNSClient conf loader clients AppID).clients later)
            k = some v := by
  have hstored := GetAPNSClient_stores conf loader clients AppID
  rw [hclient] at hstored
  refine ⟨?_, poolAfterCalls_keeps conf loader later _⟩
  exact GetAPNSClient_present conf loader _ AppID (some c)
    (poolAfterCalls_keeps conf loader later _ AppID (some c) hstored)

/-- C11 at an example: the client of "normal" is initialized on the empty pool;
after calls for "other", "normal" and "ghost" the call for "normal" gives the
same client and runs no initialization. -/
theorem C11_witness :
    (GetAPNSClient (exampleConf 0) exampleLoader
        (poolAfterCalls (exampleConf 0) exampleLoader
          (GetAPNSClient (exampleConf 0) exampleLoader [] "normal").clients
          ["other", "normal", "ghost"])
        "normal")
      = { client := some { Certificate := ⟨"key.pem", ""⟩, Production := false }, err := none,
          clients :=
            poolAfterCalls (exampleConf 0) exampleLoader
              (GetAPNSClient (exampleConf 0) exampleLoader [] "normal").clients
              ["other", "normal", "ghost"],
          initCalls := 0 }
      ∧ ∀ (k : String) (v : Option ApnsClient),
          GoMap.get (GetAPNSClient (exampleConf 0) exampleLoader [] "normal").clients k = some v →
          GoMap.get
            (poolAfterCalls (exampleConf 0) exampleLoader
              (GetAPNSClient (exampleConf 0) exampleLoader [] "normal").clients
              ["other", "normal", "ghost"])
            k = some v :=
  C11_pool_idempotence (exampleConf 0) exampleLoader [] "normal"
    { Certificate := ⟨"key.pem", ""⟩, Production := false } ["other", "normal", "ghost"]
    (by decide)

/-! ## Theorems: the retry cap -/

theorem Outcome.Returns_mono {α : Type} {P Q : α → Prop} (h : ∀ a, P a → Q a) :
    ∀ o : Outcome α, o.Returns P → o.Returns Q
  | Outcome.ok a, hp => h a hp
  | Outcome.panic _, hp => hp
  | Outcome.fuel, hp => hp

theorem retryCap_eq_spec (maxRetry retry : Int) :
    retryCap maxRetry retry = effectiveMaxRetryBySpec maxRetry retry := by
  unfold retryCap effectiveMaxRetryBySpec
  by_cases h : 0 < retry ∧ retry < maxRetry
  · have h2 : retry > 0 ∧ retry < maxRetry := h
    rw [if_pos h, if_pos h2, min_eq_left (le_of_lt h.2)]
  · have h2 : ¬ (retry > 0 ∧ retry < maxRetry) := h
    rw [if_neg h, if_neg h2]

theorem passes_succ (maxRetry rc : Int) (h : rc < maxRetry) :
    (maxRetry - rc).toNat = (maxRetry - (rc + 1)).toNat + 1 := by
  omega

theorem pushTokensIOS_length {σ : Type} (up : ApnsUpstream σ) (c : Option ApnsClient)
    (tokens : List String) (n : ApnsNotification) (st : IosState σ) :
    (pushTokensIOS up c n tokens st).Holds (fun st' =>
      st'.attempts.length ≤ st.attempts.length + tokens.length
      ∧ st'.newTokens.length ≤ st.newTokens.length + tokens.length) := by
  have h := pushTokensIOS_rule up c
    (fun rem st' =>
      st'.attempts.length + rem.length ≤ st.attempts.length + tokens.length
      ∧ st'.newTokens.length + rem.length ≤ st.newTokens.length + tokens.length)
    (by
      intro tok rest st1 r s hinv
      rw [pushTokenIOS_eq]
      simp only [List.length_cons] at hinv
      cases r.isFailure
      · simp only [Bool.false_eq_true, if_false, List.length_append, List.length_cons,
          List.length_nil]
        omega
      · simp only [if_true, List.length_append, List.length_cons, List.length_nil]
        omega)
    tokens n st ⟨le_refl _, le_refl _⟩
  apply Outcome.Holds_of_Ends
  refine Outcome.Ends_mono ?_ ?_ _ h
  · intro st' h1
    simp only [List.length_nil, add_zero] at h1
    exact h1
  · rintro st' ⟨rem, h1, h2⟩
    exact ⟨by omega, by omega⟩

theorem passes_bound (a a1 n k m p bound : Nat) (hp : p = k + 1)
    (h : a + n * (p + 1) ≤ bound) (ha : a1 ≤ a + n) (hm : m ≤ n) :
    a1 + m * (k + 1) ≤ bound := by
  subst hp
  have hmul : m * (k + 1) ≤ n * (k + 1) := Nat.mul_le_mul_right _ hm
  have hexp : n * (k + 1 + 1) = n * (k + 1) + n := by ring
  omega

theorem PushToIOSLoop_length {σ : Type} (conf : ConfYaml) (loader : CertLoader)
    (up : ApnsUpstream σ) (maxRetry : Int) (bound : Nat) (fuel : Nat)
    (req : PushNotification) (rc : Int) (st : IosState σ)
    (hfuel : (maxRetry - rc).toNat < fuel)
    (hinv : st.attempts.length + req.Tokens.length * ((maxRetry - rc).toNat + 1) ≤ bound) :
    (PushToIOSLoop conf loader up maxRetry fuel req rc st).Holds
      (fun st' => st'.attempts.length ≤ bound) := by
  apply Outcome.Holds_of_Ends
  refine PushToIOSLoop_rule conf loader up maxRetry
    (fun rc req st => st.attempts.length
      + req.Tokens.length * ((maxRetry - rc).toNat + 1) ≤ bound)
    _ _ ?_ ?_ ?_ fuel req rc st hfuel hinv
  · intro rc req st h _
    simp only
    omega
  · intro rc req st e h _
    simp only
    omega
  · intro rc req st n h _ _
    have hin := pushTokensIOS_length up
      (GetAPNSClient conf loader st.clients req.AppID).client req.Tokens n
      { st with
        clients := (GetAPNSClient conf loader st.clients req.AppID).clients,
        isError := false, newTokens := [] }
    have hle : req.Tokens.length ≤ req.Tokens.length * ((maxRetry - rc).toNat + 1) :=
      Nat.le_mul_of_pos_right _ (by omega)
    cases hout : pushTokensIOS up (GetAPNSClient conf loader st.clients req.AppID).client
      n req.Tokens
      { st with
        clients := (GetAPNSClient conf loader st.clients req.AppID).clients,
        isError := false, newTokens := [] } with
    | ok st1 =>
      rw [hout] at hin
      simp only [Outcome.Holds, List.length_nil, zero_add] at hin
      refine ⟨by omega, ?_⟩
      intro hlt
      exact passes_bound _ _ _ _ _ _ _ (passes_succ maxRetry rc hlt) h hin.1 hin.2
    | panic st1 =>
      rw [hout] at hin
      simp only [Outcome.Holds] at hin
      show st1.attempts.length ≤ bound
      omega
    | fuel =>
      rw [hout] at hin
      exact hin.elim

theorem pushTokensIOS_all_fail {σ : Type} (up : ApnsUpstream σ) (client : ApnsClient)
    (hfail : ∀ s c n, (up.Push s c n).1.isFailure = true) :
    ∀ (tokens : List String) (n : ApnsNotification) (st : IosState σ),
      ∃ st', pushTokensIOS up (some client) n tokens st = Outcome.ok st'
        ∧ st'.attempts.length = st.attempts.length + tokens.length
        ∧ st'.newTokens = st.newTokens ++ tokens
        ∧ (st'.isError = true ↔ (st.isError = true ∨ tokens ≠ []))
        ∧ st'.clients = st.clients := by
  intro tokens
  induction tokens with
  | nil => intro n st; exact ⟨st, rfl, rfl, by simp, by simp, rfl⟩
  | cons tok rest ih =>
    intro n st
    simp only [pushTokensIOS]
    obtain ⟨st', hok, h1, h2, h3, h4⟩ := ih { n with DeviceToken := tok }
      (pushTokenIOS tok (up.Push st.upstream client { n with DeviceToken := tok }).1
        { st with upstream := (up.Push st.upstream client { n with DeviceToken := tok }).2 })
    rw [pushTokenIOS_eq] at h1 h2 h3 h4
    simp only [hfail, if_true, List.length_append, List.length_cons, List.length_nil,
      Bool.or_true] at h1 h2 h3 h4
    refine ⟨st', hok, ?_, ?_, ?_, h4⟩
    · rw [h1, List.length_cons]
      omega
    · rw [h2]
      simp
    · simp [h3]

theorem PushToIOSLoop_all_fail {σ : Type} (conf : ConfYaml) (loader : CertLoader)
    (up : ApnsUpstream σ) (maxRetry : Int) (c : ApnsClient)
    (hfail : ∀ s c n, (up.Push s c n).1.isFailure = true) (fuel : Nat) :
    ∀ (req : PushNotification) (rc : Int) (st : IosState σ),
      (maxRetry - rc).toNat < fuel →
      clientObtained conf loader st.clients req.AppID c →
      GetIOSNotification req ≠ none →
      (PushToIOSLoop conf loader up maxRetry fuel req rc st).Returns (fun st' =>
        st'.attempts.length
          = st.attempts.length + req.Tokens.length * ((maxRetry - rc).toNat + 1)) := by
  induction fuel with
  | zero => intro req rc st h; omega
  | succ fuel ih =>
    intro req rc st hfuel hc hbuilt
    simp only [PushToIOSLoop]
    cases hn : GetIOSNotification req with
    | none => exact absurd hn hbuilt
    | some n =>
      simp only [hc.2, hc.1]
      obtain ⟨st1, hok, h1, h2, h3, h4⟩ := pushTokensIOS_all_fail up c hfail req.Tokens n
        { st with
          clients := (GetAPNSClient conf loader st.clients req.AppID).clients,
          isError := false, newTokens := [] }
      rw [hok]
      simp only [List.nil_append] at h1 h2 h3
      simp only
      split
      · rename_i hcond
        have hrec := ih { req with Tokens := st1.newTokens } (rc + 1) st1
          (by have := hcond.2; omega)
          (by rw [h4]; exact clientObtained_again conf loader st.clients req.AppID c hc)
          hbuilt
        refine Outcome.Returns_mono ?_ _ hrec
        intro st2 h5
        rw [h5, h1, h2, passes_succ maxRetry rc hcond.2]
        ring
      · rename_i hcond
        show st1.attempts.length
          = st.attempts.length + req.Tokens.length * ((maxRetry - rc).toNat + 1)
        rw [h1]
        by_cases hnil : req.Tokens = []
        · simp [hnil]
        · have herr : st1.isError = true := h3.mpr (Or.inr hnil)
          have hge : ¬ rc < maxRetry := fun hlt => hcond ⟨herr, hlt⟩
          have hz : (maxRetry - rc).toNat = 0 := by omega
          rw [hz]
          simp

theorem PushToAndroidLoop_length {σ : Type} (up : GcmUpstream σ) (apiKey : String)
    (maxRetry : Int) (fuel : Nat) :
    ∀ (req : PushNotification) (rc : Int) (st : AndroidState σ),
      (maxRetry - rc).toNat < fuel →
      (PushToAndroidLoop up apiKey maxRetry fuel req rc st).Holds (fun st' =>
        st'.batches.length ≤ st.batches.length + (maxRetry - rc).toNat + 1) := by
  induction fuel with
  | zero => intro req rc st h; omega
  | succ fuel ih =>
    intro req rc st hfuel
    simp only [PushToAndroidLoop]
    cases hr : (up.SendHttp st.upstream apiKey (GetAndroidNotification req)).1 with
    | error e =>
      show (st.batches ++ [(GetAndroidNotification req, GcmReply.error e)]).length
        ≤ st.batches.length + (maxRetry - rc).toNat + 1
      simp only [List.length_append, List.length_cons, List.length_nil]
      omega
    | response res =>
      simp only
      have hb := readResultsAndroid_batches req.Tokens res.Results 0
        { st with
          isError := false
          upstream := (up.SendHttp st.upstream apiKey (GetAndroidNotification req)).2
          batches := st.batches ++ [(GetAndroidNotification req, GcmReply.response res)]
          stats := st.stats
            ++ [StatCall.AddAndroidSuccess res.Success, StatCall.AddAndroidError res.Failure]
          newTokens := [] }
      revert hb
      cases readResultsAndroid req.Tokens 0 res.Results
        { st with
          isError := false
          upstream := (up.SendHttp st.upstream apiKey (GetAndroidNotification req)).2
          batches := st.batches ++ [(GetAndroidNotification req, GcmReply.response res)]
          stats := st.stats
            ++ [StatCall.AddAndroidSuccess res.Success, StatCall.AddAndroidError res.Failure]
          newTokens := [] } with
      | ok st1 =>
        intro hb
        simp only [Outcome.Holds] at hb
        simp only
        split
        · rename_i hcond
          have h := ih { req with Tokens := st1.newTokens } (rc + 1) st1
            (by have := hcond.2; omega)
          refine Outcome.Holds_mono ?_ _ h
          intro st2 h2
          rw [hb] at h2
          simp only [List.length_append, List.length_cons, List.length_nil] at h2
          have := passes_succ maxRetry rc hcond.2
          omega
        · show st1.batches.length ≤ st.batches.length + (maxRetry - rc).toNat + 1
          rw [hb]
          simp only [List.length_append, List.length_cons, List.length_nil]
          omega
      | panic st1 =>
        intro hb
        simp only [Outcome.Holds] at hb
        show st1.batches.length ≤ st.batches.length + (maxRetry - rc).toNat + 1
        rw [hb]
        simp only [List.length_append, List.length_cons, List.length_nil]
        omega
      | fuel => exact fun hb => hb

theorem readResultsAndroid_all_rejected {σ : Type} (Tokens : List String) :
    ∀ (results : List GcmResult) (k : Nat) (st : AndroidState σ),
      k + results.length = Tokens.length →
      (∀ r ∈ results, r.Error ≠ "") →
      ∃ st', readResultsAndroid Tokens k results st = Outcome.ok st'
        ∧ st'.newTokens = st.newTokens ++ Tokens.drop k
        ∧ (st'.isError = true ↔ (st.isError = true ∨ results ≠ []))
        ∧ st'.batches = st.batches := by
  intro results
  induction results with
  | nil =>
    intro k st hk _
    refine ⟨st, rfl, ?_, by simp, rfl⟩
    rw [List.drop_of_length_le (by simp at hk; omega)]
    simp
  | cons r rest ih =>
    intro k st hk hrej
    have hlt : k < Tokens.length := by
      simp only [List.length_cons] at hk
      omega
    simp only [readResultsAndroid, List.getElem?_eq_getElem hlt]
    obtain ⟨st', hok, h1, h2, h3⟩ := ih (k + 1) (readResultAndroid Tokens[k] r st)
      (by simp only [List.length_cons] at hk; omega)
      (fun x hx => hrej x (List.mem_cons_of_mem _ hx))
    have hr : r.Error ≠ "" := hrej r (List.mem_cons_self _ _)
    rw [readResultAndroid_eq] at h1 h2 h3
    simp only [hr, ne_eq, not_false_eq_true, if_true, decide_True, Bool.or_true] at h1 h2 h3
    refine ⟨st', hok, ?_, ?_, h3⟩
    · rw [h1, List.drop_eq_getElem_cons hlt]
      simp
    · simp [h2]

theorem PushToAndroidLoop_all_rejected {σ : Type} (up : GcmUpstream σ) (apiKey : String)
    (maxRetry : Int)
    (hrej : ∀ s k m, ∃ res, (up.SendHttp s k m).1 = GcmReply.response res
      ∧ res.Results.length = m.RegistrationIds.length ∧ ∀ r ∈ res.Results, r.Error ≠ "")
    (fuel : Nat) :
    ∀ (req : PushNotification) (rc : Int) (st : AndroidState σ),
      (maxRetry - rc).toNat < fuel → req.Tokens ≠ [] →
      (PushToAndroidLoop up apiKey maxRetry fuel req rc st).Returns (fun st' =>
        st'.batches.length = st.batches.length + (maxRetry - rc).toNat + 1) := by
  induction fuel with
  | zero => intro req rc st h; omega
  | succ fuel ih =>
    intro req rc st hfuel hne
    obtain ⟨res, hres, hlen, hall⟩ := hrej st.upstream apiKey (GetAndroidNotification req)
    rw [GetAndroidNotification_RegistrationIds] at hlen
    simp only [PushToAndroidLoop, hres]
    obtain ⟨st1, hok, h1, h2, h3⟩ := readResultsAndroid_all_rejected req.Tokens res.Results 0
      { st with
        isError := false
        upstream := (up.SendHttp st.upstream apiKey (GetAndroidNotification req)).2
        batches := st.batches ++ [(GetAndroidNotification req, GcmReply.response res)]
        stats := st.stats
          ++ [StatCall.AddAndroidSuccess res.Success, StatCall.AddAndroidError res.Failure]
        newTokens := [] } (by omega) hall
    rw [hok]
    simp only [List.nil_append, List.drop_zero] at h1 h2 h3
    have herr : st1.isError = true := by
      apply h2.mpr
      right
      intro h
      rw [h] at hlen
      exact hne (List.length_eq_zero.mp hlen.symm)
    simp only
    split
    · rename_i hcond
      have hrec := ih { req with Tokens := st1.newTokens } (rc + 1) st1
        (by have := hcond.2; omega) (by rw [h1]; exact hne)
      refine Outcome.Returns_mono ?_ _ hrec
      intro st2 h5
      rw [h5, h3]
      simp only [List.length_append, List.length_cons, List.length_nil]
      have := passes_succ maxRetry rc hcond.2
      omega
    · rename_i hcond
      show st1.batches.length = st.batches.length + (maxRetry - rc).toNat + 1
      have hge : ¬ rc < maxRetry := fun hlt => hcond ⟨herr, hlt⟩
      rw [h3]
      simp only [List.length_append, List.length_cons, List.length_nil]
      omega

theorem CheckMessage_Tokens (req : PushNotification) (h : CheckMessage req = none) :
    req.Tokens ≠ [] := by
  intro hnil
  simp [CheckMessage, hnil] at h

theorem pushTokenFcm_eq {σ : Type} (token : String) (msg : FcmMsg) (reply : FcmReply)
    (st : FcmState σ) :
    (pushTokenFcm token msg reply st).sends = st.sends ++ [(msg, reply)]
      ∧ (pushTokenFcm token msg reply st).newTokens
        = (match reply with
          | FcmReply.error _ => st.newTokens ++ [token]
          | FcmReply.response _ => st.newTokens)
      ∧ (pushTokenFcm token msg reply st).isError
        = (match reply with
          | FcmReply.error _ => true
          | FcmReply.response _ => st.isError) := by
  cases reply <;> exact ⟨rfl, rfl, rfl⟩

theorem pushTokensFcm_length {σ : Type} (up : FcmUpstream σ) (fcmClient : Option FcmClient)
    (notification : NotificationPayload) (data : D) (tokens : List String) :
    ∀ st : FcmState σ,
      (pushTokensFcm up fcmClient notification data tokens st).Holds (fun st' =>
        st'.sends.length ≤ st.sends.length + tokens.length
        ∧ st'.newTokens.length ≤ st.newTokens.length + tokens.length) := by
  induction tokens with
  | nil => intro st; exact ⟨le_refl _, le_refl _⟩
  | cons tok rest ih =>
    intro st
    cases fcmClient with
    | none =>
      show st.sends.length ≤ st.sends.length + (tok :: rest).length
        ∧ st.newTokens.length ≤ st.newTokens.length + (tok :: rest).length
      exact ⟨by omega, by omega⟩
    | some client =>
      simp only [pushTokensFcm]
      refine Outcome.Holds_mono ?_ _ (ih _)
      intro st' h
      obtain ⟨e1, e2, _⟩ := pushTokenFcm_eq tok
        { ApiKey := client.ApiKey, To := tok, Data := data, Notification := notification }
        (up.Send st.upstream
          { ApiKey := client.ApiKey, To := tok, Data := data,
            Notification := notification }).1
        { st with upstream := (up.Send st.upstream
          { ApiKey := client.ApiKey, To := tok, Data := data,
            Notification := notification }).2 }
      rw [e1, e2] at h
      simp only [List.length_append, List.length_cons, List.length_nil] at h ⊢
      have hn : (match (up.Send st.upstream
          { ApiKey := client.ApiKey, To := tok, Data := data,
            Notification := notification }).1 with
          | FcmReply.error _ => st.newTokens ++ [tok]
          | FcmReply.response _ => st.newTokens).length ≤ st.newTokens.length + 1 := by
        cases (up.Send st.upstream
          { ApiKey := client.ApiKey, To := tok, Data := data,
            Notification := notification }).1 <;> simp
      omega

theorem PushToAndroidFcmLoop_length {σ : Type} (conf : ConfYaml) (up : FcmUpstream σ)
    (maxRetry : Int) (bound : Nat) (fuel : Nat) :
    ∀ (req : PushNotification) (rc : Int) (st : FcmState σ),
      (maxRetry - rc).toNat < fuel →
      st.sends.length + req.Tokens.length * ((maxRetry - rc).toNat + 1) ≤ bound →
      (PushToAndroidFcmLoop conf up maxRetry fuel req rc st).Holds (fun st' =>
        st'.sends.length ≤ bound) := by
  induction fuel with
  | zero => intro req rc st h; omega
  | succ fuel ih =>
    intro req rc st hfuel hinv
    have hle : req.Tokens.length ≤ req.Tokens.length * ((maxRetry - rc).toNat + 1) :=
      Nat.le_mul_of_pos_right _ (by omega)
    simp only [PushToAndroidFcmLoop]
    cases (GetFcmClient conf req.AppID).2 with
    | some e =>
      show st.sends.length ≤ bound
      omega
    | none =>
      simp only
      have hin := pushTokensFcm_length up (GetFcmClient conf req.AppID).1
        (GetFcmNotification req).1 (GetFcmNotification req).2 req.Tokens
        { st with isError := false, newTokens := [] }
      revert hin
      cases pushTokensFcm up (GetFcmClient conf req.AppID).1
        (GetFcmNotification req).1 (GetFcmNotification req).2 req.Tokens
        { st with isError := false, newTokens := [] } with
      | ok st1 =>
        intro hin
        simp only [Outcome.Holds, List.length_nil, zero_add] at hin
        simp only
        split
        · rename_i hcond
          exact ih _ (rc + 1) st1 (by have := hcond.2; omega)
            (passes_bound _ _ _ _ _ _ _ (passes_succ maxRetry rc hcond.2) hinv hin.1 hin.2)
        · show st1.sends.length ≤ bound
          omega
      | panic st1 =>
        intro hin
        simp only [Outcome.Holds] at hin
        show st1.sends.length ≤ bound
        omega
      | fuel => exact fun h => h

theorem pushTokensFcm_all_fail {σ : Type} (up : FcmUpstream σ) (client : FcmClient)
    (notification : NotificationPayload) (data : D)
    (hfail : ∀ s m, ∃ e, (up.Send s m).1 = FcmReply.error e) :
    ∀ (tokens : List String) (st : FcmState σ),
      ∃ st', pushTokensFcm up (some client) notification data tokens st = Outcome.ok st'
        ∧ st'.sends.length = st.sends.length + tokens.length
        ∧ st'.newTokens = st.newTokens ++ tokens
        ∧ (st'.isError = true ↔ (st.isError = true ∨ tokens ≠ [])) := by
  intro tokens
  induction tokens with
  | nil => intro st; exact ⟨st, rfl, rfl, by simp, by simp⟩
  | cons tok rest ih =>
    intro st
    simp only [pushTokensFcm]
    obtain ⟨e, he⟩ := hfail st.upstream
      { ApiKey := client.ApiKey, To := tok, Data := data, Notification := notification }
    obtain ⟨st', hok, h1, h2, h3⟩ := ih
      (pushTokenFcm tok
        { ApiKey := client.ApiKey, To := tok, Data := data, Notification := notification }
        (up.Send st.upstream
          { ApiKey := client.ApiKey, To := tok, Data := data,
            Notification := notification }).1
        { st with upstream := (up.Send st.upstream
          { ApiKey := client.ApiKey, To := tok, Data := data,
            Notification := notification }).2 })
    obtain ⟨e1, e2, e3⟩ := pushTokenFcm_eq tok
      { ApiKey := client.ApiKey, To := tok, Data := data, Notification := notification }
      (up.Send st.upstream
        { ApiKey := client.ApiKey, To := tok, Data := data,
          Notification := notification }).1
      { st with upstream := (up.Send st.upstream
        { ApiKey := client.ApiKey, To := tok, Data := data,
          Notification := notification }).2 }
    rw [e1] at h1
    rw [e2] at h2
    rw [e3] at h3
    rw [he] at h1 h2 h3
    simp only [List.length_append, List.length_cons, List.length_nil] at h1 h2 h3
    refine ⟨st', hok, ?_, ?_, ?_⟩
    · rw [h1, List.length_cons]
      omega
    · rw [h2]
      simp
    · simp [h3]

theorem PushToAndroidFcmLoop_all_fail {σ : Type} (conf : ConfYaml) (up : FcmUpstream σ)
    (maxRetry : Int) (hfail : ∀ s m, ∃ e, (up.Send s m).1 = FcmReply.error e) (fuel : Nat) :
    ∀ (req : PushNotification) (rc : Int) (st : FcmState σ),
      (maxRetry - rc).toNat < fuel →
      (conf.app req.AppID).AndroidFcm.Enabled = true →
      (PushToAndroidFcmLoop conf up maxRetry fuel req rc st).Returns (fun st' =>
        st'.sends.length
          = st.sends.length + req.Tokens.length * ((maxRetry - rc).toNat + 1)) := by
  induction fuel with
  | zero => intro req rc st h; omega
  | succ fuel ih =>
    intro req rc st hfuel hen
    have hg : GetFcmClient conf req.AppID
        = (some { ApiKey := (conf.app req.AppID).AndroidFcm.APIKey }, none) := by
      simp [GetFcmClient, initFCMClient, hen]
    simp only [PushToAndroidFcmLoop, hg]
    obtain ⟨st1, hok, h1, h2, h3⟩ := pushTokensFcm_all_fail up
      { ApiKey := (conf.app req.AppID).AndroidFcm.APIKey }
      (GetFcmNotification req).1 (GetFcmNotification req).2 hfail req.Tokens
      { st with isError := false, newTokens := [] }
    rw [hok]
    simp only [List.nil_append] at h1 h2 h3
    simp only
    split
    · rename_i hcond
      have hrec := ih { req with Tokens := st1.newTokens } (rc + 1) st1
        (by have := hcond.2; omega) hen
      refine Outcome.Returns_mono ?_ _ hrec
      intro st2 h5
      rw [h5, h1, h2, passes_succ maxRetry rc hcond.2]
      ring
    · rename_i hcond
      show st1.sends.length
        = st.sends.length + req.Tokens.length * ((maxRetry - rc).toNat + 1)
      rw [h1]
      by_cases hnil : req.Tokens = []
      · simp [hnil]
      · have herr : st1.isError = true := h3.mpr (Or.inr hnil)
        have hge : ¬ rc < maxRetry := fun hlt => hcond ⟨herr, hlt⟩
        have hz : (maxRetry - rc).toNat = 0 := by omega
        rw [hz]
        simp

/-- C12: the retry cap of each dispatcher is the effective `MaxRetry` of the
specification, computed from the app's `Ios.MaxRetry`, `Android.MaxRetry` and
`AndroidFcm.MaxRetry` respectively and from the request's `Retry`: it is
`Retry` (which is then `min(Retry, MaxRetry)`) when `0 < Retry < MaxRetry`, it
is `MaxRetry` otherwise, and it never exceeds `MaxRetry`.  The cap is the one
the loops run with: with `cap` the effective `MaxRetry` of the platform, every
run of `PushToIOS` makes at most `len(Tokens) * (max(cap, 0) + 1)` pushes and
makes exactly that many, and returns, when the client is obtained, the payload
is built and every push fails; every run of `PushToAndroid` makes at most
`max(cap, 0) + 1` submissions and makes exactly that many, and returns, when
the message is valid and every submission is answered with one failed result
per token; every run of `PushToAndroidFcm` makes at most
`len(Tokens) * (max(cap, 0) + 1)` sends and makes exactly that many, and
returns, when FCM is enabled for the app and every send fails. -/
theorem C12_retry_cap {σ τ υ : Type} (conf : ConfYaml) (loader : CertLoader)
    (apns : ApnsUpstream σ) (gcm : GcmUpstream τ) (fcm : FcmUpstream υ)
    (clients : GoMap (Option ApnsClient)) (sa : σ) (sg : τ) (sf : υ)
    (req : PushNotification) :
    (∀ maxRetry : Int,
        (0 < req.Retry ∧ req.Retry < maxRetry →
          effectiveMaxRetryBySpec maxRetry req.Retry = req.Retry)
        ∧ (¬ (0 < req.Retry ∧ req.Retry < maxRetry) →
          effectiveMaxRetryBySpec maxRetry req.Retry = maxRetry)
        ∧ effectiveMaxRetryBySpec maxRetry req.Retry ≤ maxRetry
        ∧ retryCap maxRetry req.Retry = effectiveMaxRetryBySpec maxRetry req.Retry)
      ∧ ((PushToIOS conf loader apns clients sa req).Holds (fun st =>
            st.attempts.length ≤ req.Tokens.length
              * ((effectiveMaxRetryBySpec (conf.app req.AppID).Ios.MaxRetry
                  req.Retry).toNat + 1))
        ∧ (∀ c, clientObtained conf loader clients req.AppID c →
            GetIOSNotification req ≠ none →
            (∀ s c n, (apns.Push s c n).1.isFailure = true) →
            (PushToIOS conf loader apns clients sa req).Returns (fun st =>
              st.attempts.length = req.Tokens.length
                * ((effectiveMaxRetryBySpec (conf.app req.AppID).Ios.MaxRetry
                    req.Retry).toNat + 1))))
      ∧ ((PushToAndroid conf gcm sg req).Holds (fun st =>
            st.batches.length
              ≤ (effectiveMaxRetryBySpec (conf.app req.AppID).Android.MaxRetry
                  req.Retry).toNat + 1)
        ∧ (CheckMessage req = none →
            (∀ s k m, ∃ res, (gcm.SendHttp s k m).1 = GcmReply.response res
              ∧ res.Results.length = m.RegistrationIds.length
              ∧ ∀ r ∈ res.Results, r.Error ≠ "") →
            (PushToAndroid conf gcm sg req).Returns (fun st =>
              st.batches.length
                = (effectiveMaxRetryBySpec (conf.app req.AppID).Android.MaxRetry
                    req.Retry).toNat + 1)))
      ∧ ((PushToAndroidFcm conf fcm sf req).Holds (fun st =>
            st.sends.length ≤ req.Tokens.length
              * ((effectiveMaxRetryBySpec (conf.app req.AppID).AndroidFcm.MaxRetry
                  req.Retry).toNat + 1))
        ∧ ((conf.app req.AppID).AndroidFcm.Enabled = true →
            (∀ s m, ∃ e, (fcm.Send s m).1 = FcmReply.error e) →
            (PushToAndroidFcm conf fcm sf req).Returns (fun st =>
              st.sends.length = req.Tokens.length
                * ((effectiveMaxRetryBySpec (conf.app req.AppID).AndroidFcm.MaxRetry
                    req.Retry).toNat + 1)))) := by
  refine ⟨?_, ⟨?_, ?_⟩, ⟨?_, ?_⟩, ⟨?_, ?_⟩⟩
  · intro maxRetry
    refine ⟨?_, ?_, ?_, retryCap_eq_spec _ _⟩
    · intro h
      unfold effectiveMaxRetryBySpec
      rw [if_pos h, min_eq_left (le_of_lt h.2)]
    · intro h
      unfold effectiveMaxRetryBySpec
      rw [if_neg h]
    · unfold effectiveMaxRetryBySpec
      split
      · exact min_le_right _ _
      · exact le_refl _
  · rw [← retryCap_eq_spec]
    exact PushToIOSLoop_length conf loader apns _ _ _ req 0
      { clients := clients, upstream := sa } (by simp) (by simp)
  · intro c hc hbuilt hfail
    rw [← retryCap_eq_spec]
    have h := PushToIOSLoop_all_fail conf loader apns
      (retryCap (conf.app req.AppID).Ios.MaxRetry req.Retry) c hfail
      ((retryCap (conf.app req.AppID).Ios.MaxRetry req.Retry).toNat + 1) req 0
      { clients := clients, upstream := sa } (by simp) hc hbuilt
    refine Outcome.Returns_mono ?_ _ h
    intro st h1
    simpa using h1
  · rw [← retryCap_eq_spec]
    cases hvalid : CheckMessage req with
    | some e =>
      simp only [PushToAndroid, hvalid]
      show (0 : Nat) ≤ _
      omega
    | none =>
      have h := PushToAndroidLoop_length gcm
        (if req.APIKey = "" then (conf.app req.AppID).Android.APIKey else req.APIKey)
        (retryCap (conf.app req.AppID).Android.MaxRetry req.Retry)
        ((retryCap (conf.app req.AppID).Android.MaxRetry req.Retry).toNat + 1) req 0
        { upstream := sg } (by simp)
      simp only [PushToAndroid, hvalid]
      refine Outcome.Holds_mono ?_ _ h
      intro st h1
      simpa using h1
  · intro hvalid hrej
    rw [← retryCap_eq_spec]
    have h := PushToAndroidLoop_all_rejected gcm
      (if req.APIKey = "" then (conf.app req.AppID).Android.APIKey else req.APIKey)
      (retryCap (conf.app req.AppID).Android.MaxRetry req.Retry) hrej
      ((retryCap (conf.app req.AppID).Android.MaxRetry req.Retry).toNat + 1) req 0
      { upstream := sg } (by simp) (CheckMessage_Tokens req hvalid)
    simp only [PushToAndroid, hvalid]
    refine Outcome.Returns_mono ?_ _ h
    intro st h1
    simpa using h1
  · rw [← retryCap_eq_spec]
    exact PushToAndroidFcmLoop_length conf fcm _ _ _ req 0 { upstream := sf } (by simp)
      (by simp)
  · intro hen hfail
    rw [← retryCap_eq_spec]
    have h := PushToAndroidFcmLoop_all_fail conf fcm
      (retryCap (conf.app req.AppID).AndroidFcm.MaxRetry req.Retry) hfail
      ((retryCap (conf.app req.AppID).AndroidFcm.MaxRetry req.Retry).toNat + 1) req 0
      { upstream := sf } (by simp) hen
    refine Outcome.Returns_mono ?_ _ h
    intro st h1
    simpa using h1

/-- C12 at an example: with `MaxRetry = 5` for the three platforms and
`Retry = 2`, the effective `MaxRetry` is 2, and on upstreams that reject
everything each dispatcher sends the one token three times and returns. -/
theorem C12_witness :
    ((PushToIOS exampleConfAll exampleLoader alwaysGone [] () exampleRetryRequest).Returns
        (fun st => st.attempts.length = exampleRetryRequest.Tokens.length
          * ((effectiveMaxRetryBySpec (exampleConfAll.app exampleRetryRequest.AppID).Ios.MaxRetry
              exampleRetryRequest.Retry).toNat + 1))
      ∧ (PushToAndroid exampleConfAll alwaysUnavailable () exampleRetryRequest).Returns
        (fun st => st.batches.length
          = (effectiveMaxRetryBySpec (exampleConfAll.app exampleRetryRequest.AppID).Android.MaxRetry
              exampleRetryRequest.Retry).toNat + 1)
      ∧ (PushToAndroidFcm exampleConfAll fcmAlwaysDown () exampleRetryRequest).Returns
        (fun st => st.sends.length = exampleRetryRequest.Tokens.length
          * ((effectiveMaxRetryBySpec
              (exampleConfAll.app exampleRetryRequest.AppID).AndroidFcm.MaxRetry
              exampleRetryRequest.Retry).toNat + 1)))
      ∧ (effectiveMaxRetryBySpec 5 exampleRetryRequest.Retry = 2
        ∧ (PushToIOS exampleConfAll exampleLoader alwaysGone [] ()
            exampleRetryRequest).returned?.map (fun st => st.attempts.length) = some 3
        ∧ (PushToAndroid exampleConfAll alwaysUnavailable ()
            exampleRetryRequest).returned?.map (fun st => st.batches.length) = some 3
        ∧ (PushToAndroidFcm exampleConfAll fcmAlwaysDown ()
            exampleRetryRequest).returned?.map (fun st => st.sends.length) = some 3) :=
  ⟨⟨(C12_retry_cap exampleConfAll exampleLoader alwaysGone alwaysUnavailable fcmAlwaysDown
        [] () () () exampleRetryRequest).2.1.2
        { Certificate := ⟨"key.pem", ""⟩, Production := false }
        ⟨by decide, by decide⟩ (by decide) (fun _ _ _ => rfl),
      (C12_retry_cap exampleConfAll exampleLoader alwaysGone alwaysUnavailable fcmAlwaysDown
        [] () () () exampleRetryRequest).2.2.1.2 (by decide)
        (fun _ _ m => ⟨_, rfl, by simp, by simp⟩),
      (C12_retry_cap exampleConfAll exampleLoader alwaysGone alwaysUnavailable fcmAlwaysDown
        [] () () () exampleRetryRequest).2.2.2.2 (by decide) (fun _ _ => ⟨_, rfl⟩)⟩,
    by decide⟩

/-- The retry cap at work: with `MaxRetry = 5` and upstreams that reject
everything, a request with `Retry = 2` is sent three times by each dispatcher,
and a request with `Retry = 7` six times. -/
theorem retryCap_example_runs :
    ((PushToIOS exampleConfAll exampleLoader alwaysGone [] ()
        { Tokens := ["t"], Platform := 1, AppID := "normal", Retry := 2 }).returned?.map
        (fun st => st.attempts.length) = some 3
      ∧ (PushToAndroid exampleConfAll alwaysUnavailable ()
        { Tokens := ["t"], Platform := 2, AppID := "normal", Retry := 2 }).returned?.map
        (fun st => st.batches.length) = some 3
      ∧ (PushToAndroidFcm exampleConfAll fcmAlwaysDown ()
        { Tokens := ["t"], Platform := 2, AppID := "normal", Retry := 2 }).returned?.map
        (fun st => st.sends.length) = some 3)
    ∧ ((PushToIOS exampleConfAll exampleLoader alwaysGone [] ()
        { Tokens := ["t"], Platform := 1, AppID := "normal", Retry := 7 }).returned?.map
        (fun st => st.attempts.length) = some 6
      ∧ (PushToAndroid exampleConfAll alwaysUnavailable ()
        { Tokens := ["t"], Platform := 2, AppID := "normal", Retry := 7 }).returned?.map
        (fun st => st.batches.length) = some 6
      ∧ (PushToAndroidFcm exampleConfAll fcmAlwaysDown ()
        { Tokens := ["t"], Platform := 2, AppID := "normal", Retry := 7 }).returned?.map
        (fun st => st.sends.length) = some 6) := by
  decide

/-! ## Theorems: rejected messages -/

/-- C13: for every request on which `CheckMessage` fails, `PushToAndroid`
returns, with an empty response map, no submission made upstream, the upstream
left as it was, and no call made to the counter sink. -/
theorem C13_rejected_message (σ : Type) (conf : ConfYaml) (up : GcmUpstream σ) (s : σ)
    (req : PushNotification) (h : CheckMessage req ≠ none) :
    (PushToAndroid conf up s req).Returns (fun st =>
      st.pushResponse = [] ∧ st.batches = [] ∧ st.stats = [] ∧ st.upstream = s) := by
  cases hc : CheckMessage req with
  | none => exact absurd hc h
  | some e =>
    simp only [PushToAndroid, hc]
    exact ⟨rfl, rfl, rfl, rfl⟩

theorem exampleOversizedRequest_Tokens :
    exampleOversizedRequest.Tokens = List.replicate 1001 "t" := by
  unfold exampleOversizedRequest
  rfl

theorem exampleOversizedRequest_Platform : exampleOversizedRequest.Platform = 2 := by
  unfold exampleOversizedRequest
  rfl

theorem exampleOversizedRequest_rejected :
    CheckMessage exampleOversizedRequest
      = some "the message may specify at most 1000 registration IDs" := by
  have hl : (List.replicate 1001 "t").length = 1001 := List.length_replicate _ _
  simp only [CheckMessage, exampleOversizedRequest_Tokens, exampleOversizedRequest_Platform, hl,
    PlatFormIos, PlatFormAndroid]
  decide

/-- C13 at an example: an Android request of 1001 tokens is rejected by
`CheckMessage` with the size error, and `PushToAndroid` returns at once. -/
theorem C13_witness :
    CheckMessage exampleOversizedRequest ≠ none
      ∧ (PushToAndroid (exampleConf 0) twoResults () exampleOversizedRequest).Returns
          (fun st => st.pushResponse = [] ∧ st.batches = [] ∧ st.stats = [] ∧ st.upstream = ()) :=
  ⟨by rw [exampleOversizedRequest_rejected]; exact Option.some_ne_none _,
   C13_rejected_message Unit (exampleConf 0) twoResults () exampleOversizedRequest
    (by rw [exampleOversizedRequest_rejected]; exact Option.some_ne_none _)⟩

/-! ## Theorems: the data map of the FCM dispatcher -/

theorem string_length_pos_iff (s : String) : s.length > 0 ↔ s ≠ "" := by
  rw [← not_iff_not]
  simp only [gt_iff_lt, not_lt, Nat.le_zero, ne_eq, not_not]
  exact string_length_eq_zero_iff s

theorem fcm_base_get (req : PushNotification) (hData : GoMap.WF req.Data)
    (hAndroid : GoMap.WF req.AndroidData) (k : String) :
    GoMap.get (if req.Data.length > 0 ∨ req.AndroidData.length > 0 then
        rangeSet (rangeSet [] req.Data) req.AndroidData else ([] : D)) k
      = (GoMap.get req.AndroidData k).or (GoMap.get req.Data k) := by
  by_cases hlen : req.Data.length > 0 ∨ req.AndroidData.length > 0
  · rw [if_pos hlen, rangeSet_get _ hAndroid, rangeSet_get _ hData]
    simp [GoMap.get]
  · have h1 : req.Data = [] := by
      cases hD : req.Data with
      | nil => rfl
      | cons x xs => exact absurd (Or.inl (by simp [hD])) hlen
    have h2 : req.AndroidData = [] := by
      cases hA : req.AndroidData with
      | nil => rfl
      | cons x xs => exact absurd (Or.inr (by simp [hA])) hlen
    rw [if_neg hlen, h1, h2]
    simp [GoMap.get]

theorem GetFcmNotification_data_get (req : PushNotification) (hData : GoMap.WF req.Data)
    (hAndroid : GoMap.WF req.AndroidData) (k : String) :
    GoMap.get (GetFcmNotification req).2 k
      = if k = "Sound" ∧ req.Sound ≠ "" then some (Value.str req.Sound)
        else if k = "Title" ∧ req.Title ≠ "" then some (Value.str req.Title)
        else if k = "Body" ∧ req.Message ≠ "" then some (Value.str req.Message)
        else (GoMap.get req.AndroidData k).or (GoMap.get req.Data k) := by
  have hb := fcm_base_get req hData hAndroid k
  simp only [GetFcmNotification, string_length_pos_iff]
  by_cases hs : req.Sound = "" <;> by_cases ht : req.Title = "" <;>
    by_cases hm : req.Message = "" <;>
    simp only [hs, ht, hm, ne_eq, not_true_eq_false, not_false_eq_true, if_true, if_false,
      and_false, and_true, GoMap.get_set, hb, eq_comm (a := k)]

theorem GetFcmNotification_payload (req : PushNotification) :
    (GetFcmNotification req).1
      = { Title := req.Title, Body := req.Message, Sound := req.Sound } := by
  simp only [GetFcmNotification, string_length_pos_iff]
  by_cases hs : req.Sound = "" <;> by_cases ht : req.Title = "" <;>
    by_cases hm : req.Message = "" <;>
    simp [hs, ht, hm]

theorem GetFcmNotification_Tokens (req : PushNotification) (tokens : List String) :
    GetFcmNotification { req with Tokens := tokens } = GetFcmNotification req := rfl

theorem pushTokenFcm_sends {σ : Type} (token : String) (msg : FcmMsg) (reply : FcmReply)
    (st : FcmState σ) :
    (pushTokenFcm token msg reply st).sends = st.sends ++ [(msg, reply)] := by
  cases reply <;> rfl

theorem pushTokensFcm_sends {σ : Type} (up : FcmUpstream σ) (fcmClient : Option FcmClient)
    (notification : NotificationPayload) (data : D) (tokens : List String) :
    ∀ st : FcmState σ,
      (∀ m ∈ st.sends, m.1.Data = data ∧ m.1.Notification = notification) →
      (pushTokensFcm up fcmClient notification data tokens st).Holds (fun st' =>
        ∀ m ∈ st'.sends, m.1.Data = data ∧ m.1.Notification = notification) := by
  induction tokens with
  | nil => intro st h; exact h
  | cons tok rest ih =>
    intro st h
    cases fcmClient with
    | none => exact h
    | some client =>
      simp only [pushTokensFcm]
      apply ih
      intro m hm
      rw [pushTokenFcm_sends] at hm
      rcases List.mem_append.mp hm with hm | hm
      · exact h m hm
      · rw [List.mem_singleton] at hm
        subst hm
        exact ⟨rfl, rfl⟩

theorem PushToAndroidFcmLoop_sends {σ : Type} (conf : ConfYaml) (up : FcmUpstream σ)
    (maxRetry : Int) (original : PushNotification) (fuel : Nat) :
    ∀ (req : PushNotification) (rc : Int) (st : FcmState σ),
      (maxRetry - rc).toNat < fuel →
      GetFcmNotification req = GetFcmNotification original →
      (∀ m ∈ st.sends, m.1.Data = (GetFcmNotification original).2
        ∧ m.1.Notification = (GetFcmNotification original).1) →
      (PushToAndroidFcmLoop conf up maxRetry fuel req rc st).Holds (fun st' =>
        ∀ m ∈ st'.sends, m.1.Data = (GetFcmNotification original).2
          ∧ m.1.Notification = (GetFcmNotification original).1) := by
  induction fuel with
  | zero => intro req rc st h; omega
  | succ fuel ih =>
    intro req rc st hfuel hreq hst
    simp only [PushToAndroidFcmLoop]
    cases (GetFcmClient conf req.AppID).2 with
    | some e => exact hst
    | none =>
      simp only
      have hin := pushTokensFcm_sends up (GetFcmClient conf req.AppID).1
        (GetFcmNotification req).1 (GetFcmNotification req).2 req.Tokens
        { st with isError := false, newTokens := [] } (by rw [hreq]; exact hst)
      revert hin
      cases pushTokensFcm up (GetFcmClient conf req.AppID).1
        (GetFcmNotification req).1 (GetFcmNotification req).2 req.Tokens
        { st with isError := false, newTokens := [] } with
      | ok st1 =>
        intro hin
        rw [hreq] at hin
        simp only
        split
        · rename_i hcond
          exact ih _ (rc + 1) st1 (by have := hcond.2; omega)
            ((GetFcmNotification_Tokens req st1.newTokens).trans hreq) hin
        · exact hin
      | panic st1 =>
        intro hin
        rw [hreq] at hin
        exact hin
      | fuel => exact fun h => h

/-- C15 (as the code has it): for every request whose maps are well-formed Go
maps, the data map returned by `GetFcmNotification` is the merge of `Data` then
`AndroidData`, then of the entries "Body", "Title" and "Sound" for the
`Message`, `Title` and `Sound` that are not empty: a key gets that string when
it is one of these three, else the value of `AndroidData` when it is a key of
`AndroidData`, else what `Data` gives.  The notification payload carries
`Message`, `Title` and `Sound` as body, title and sound, and every message that
`PushToAndroidFcm` sends carries this data map and this payload. -/
theorem C15_fcm_data_map {σ : Type} (conf : ConfYaml) (up : FcmUpstream σ) (s : σ)
    (req : PushNotification) (hData : GoMap.WF req.Data)
    (hAndroid : GoMap.WF req.AndroidData) (k : String) :
    GoMap.get (GetFcmNotification req).2 k
        = (if k = "Sound" ∧ req.Sound ≠ "" then some (Value.str req.Sound)
          else if k = "Title" ∧ req.Title ≠ "" then some (Value.str req.Title)
          else if k = "Body" ∧ req.Message ≠ "" then some (Value.str req.Message)
          else (GoMap.get req.AndroidData k).or (GoMap.get req.Data k))
      ∧ (k ∈ GoMap.keys (GetFcmNotification req).2 ↔
          (k ∈ GoMap.keys req.Data ∨ k ∈ GoMap.keys req.AndroidData
            ∨ (k = "Body" ∧ req.Message ≠ "") ∨ (k = "Title" ∧ req.Title ≠ "")
            ∨ (k = "Sound" ∧ req.Sound ≠ "")))
      ∧ (GetFcmNotification req).1
        = { Title := req.Title, Body := req.Message, Sound := req.Sound }
      ∧ (PushToAndroidFcm conf up s req).Holds (fun st =>
          ∀ m ∈ st.sends, m.1.Data = (GetFcmNotification req).2
            ∧ m.1.Notification = (GetFcmNotification req).1) := by
  have hget := GetFcmNotification_data_get req hData hAndroid k
  refine ⟨hget, ?_, GetFcmNotification_payload req, ?_⟩
  · rw [← GoMap.get_isSome_iff, ← GoMap.get_isSome_iff, ← GoMap.get_isSome_iff, hget]
    by_cases h1 : k = "Sound" ∧ req.Sound ≠ ""
    · simp [h1]
    · by_cases h2 : k = "Title" ∧ req.Title ≠ ""
      · simp [h2]
      · by_cases h3 : k = "Body" ∧ req.Message ≠ ""
        · simp [h3]
        · rw [if_neg h1, if_neg h2, if_neg h3]
          cases GoMap.get req.AndroidData k <;> cases GoMap.get req.Data k <;>
            simp [h1, h2, h3]
  · exact PushToAndroidFcmLoop_sends conf up _ req _ req 0 { upstream := s } (by simp) rfl
      (by intro m hm; cases hm)

/-- C15 at an example: the key "Title" of the data map holds the title of the
request, the key "k" the value of `AndroidData`. -/
theorem C15_witness :
    (GoMap.get (GetFcmNotification exampleMergeRequest).2 "Title"
        = (if "Title" = "Sound" ∧ exampleMergeRequest.Sound ≠ "" then
            some (Value.str exampleMergeRequest.Sound)
          else if "Title" = "Title" ∧ exampleMergeRequest.Title ≠ "" then
            some (Value.str exampleMergeRequest.Title)
          else if "Title" = "Body" ∧ exampleMergeRequest.Message ≠ "" then
            some (Value.str exampleMergeRequest.Message)
          else (GoMap.get exampleMergeRequest.AndroidData "Title").or
            (GoMap.get exampleMergeRequest.Data "Title"))
      ∧ ("Title" ∈ GoMap.keys (GetFcmNotification exampleMergeRequest).2 ↔
          ("Title" ∈ GoMap.keys exampleMergeRequest.Data
            ∨ "Title" ∈ GoMap.keys exampleMergeRequest.AndroidData
            ∨ ("Title" = "Body" ∧ exampleMergeRequest.Message ≠ "")
            ∨ ("Title" = "Title" ∧ exampleMergeRequest.Title ≠ "")
            ∨ ("Title" = "Sound" ∧ exampleMergeRequest.Sound ≠ "")))
      ∧ (GetFcmNotification exampleMergeRequest).1
        = { Title := exampleMergeRequest.Title, Body := exampleMergeRequest.Message,
            Sound := exampleMergeRequest.Sound }
      ∧ (PushToAndroidFcm (exampleConfFcm 1) fcmFailsOnce 0 exampleMergeRequest).Holds (fun st =>
          ∀ m ∈ st.sends, m.1.Data = (GetFcmNotification exampleMergeRequest).2
            ∧ m.1.Notification = (GetFcmNotification exampleMergeRequest).1))
      ∧ (GetFcmNotification exampleMergeRequest).2
        = [("k", Value.num 4), ("d", Value.num 2), ("Title", Value.str "title")] :=
  ⟨C15_fcm_data_map (exampleConfFcm 1) fcmFailsOnce 0 exampleMergeRequest
    (by decide) (by decide) "Title", by decide⟩

/-- C15 (as stated) fails: for a request with the message "hi" and no data,
the data map has the key "Body", which is a key of neither `Data` nor
`AndroidData`; and when `Data` maps "Body" to 1, the data map maps "Body" to the
message, not to the value of `Data`. -/
theorem C15_counterexample :
    (GetFcmNotification { Tokens := ["t"], Platform := 2, Message := "hi" }).2
        = [("Body", Value.str "hi")]
      ∧ (GetFcmNotification
          { Tokens := ["t"], Platform := 2, Message := "hi", Data := [("Body", Value.num 1)] }).2
        = [("Body", Value.str "hi")] := by
  decide

/-! ## Theorems: workers and the completion group -/

theorem PushToIOS_deferredDone {σ : Type} (conf : ConfYaml) (loader : CertLoader)
    (up : ApnsUpstream σ) (clients : GoMap (Option ApnsClient)) (s : σ)
    (req : PushNotification) :
    deferredDone req (PushToIOS conf loader up clients s req) = req.Done := by
  have h := PushToIOSLoop_attempts conf loader up
    (retryCap (conf.app req.AppID).Ios.MaxRetry req.Retry) ""
    (req.Tokens.count "" * ((retryCap (conf.app req.AppID).Ios.MaxRetry req.Retry).toNat + 1))
    ((retryCap (conf.app req.AppID).Ios.MaxRetry req.Retry).toNat + 1) req 0
    { clients := clients, upstream := s } (by simp) (by simp [attemptsFor])
  unfold PushToIOS
  revert h
  cases PushToIOSLoop conf loader up (retryCap (conf.app req.AppID).Ios.MaxRetry req.Retry)
    ((retryCap (conf.app req.AppID).Ios.MaxRetry req.Retry).toNat + 1) req 0
    { clients := clients, upstream := s } with
  | ok st => exact fun _ => rfl
  | panic st => exact fun _ => rfl
  | fuel => exact fun h => h.elim

theorem PushToAndroid_deferredDone {σ : Type} (conf : ConfYaml) (up : GcmUpstream σ) (s : σ)
    (req : PushNotification) :
    deferredDone req (PushToAndroid conf up s req) = req.Done := by
  unfold PushToAndroid
  cases CheckMessage req with
  | some e => rfl
  | none =>
    simp only
    have h := PushToAndroidLoop_batches up
      (if req.APIKey = "" then (conf.app req.AppID).Android.APIKey else req.APIKey)
      (retryCap (conf.app req.AppID).Android.MaxRetry req.Retry)
      ((retryCap (conf.app req.AppID).Android.MaxRetry req.Retry).toNat + 1) req 0
      { upstream := s } (by simp)
    revert h
    cases PushToAndroidLoop up
      (if req.APIKey = "" then (conf.app req.AppID).Android.APIKey else req.APIKey)
      (retryCap (conf.app req.AppID).Android.MaxRetry req.Retry)
      ((retryCap (conf.app req.AppID).Android.MaxRetry req.Retry).toNat + 1) req 0
      { upstream := s } with
    | ok st => exact fun _ => rfl
    | panic st => exact fun _ => rfl
    | fuel => exact fun h => h.elim

theorem startWorkerStep_done {σ τ : Type} (conf : ConfYaml) (loader : CertLoader)
    (apns : ApnsUpstream σ) (gcm : GcmUpstream τ) (clients : GoMap (Option ApnsClient))
    (sa : σ) (sg : τ) (notification : PushNotification) :
    (startWorkerStep conf loader apns gcm clients sa sg notification).2
      = if notification.Platform = PlatFormIos ∨ notification.Platform = PlatFormAndroid then
          notification.Done
        else [] := by
  unfold startWorkerStep
  by_cases h1 : notification.Platform = PlatFormIos
  · simp only [h1, if_true, true_or]
    exact PushToIOS_deferredDone conf loader apns clients sa notification
  · by_cases h2 : notification.Platform = PlatFormAndroid
    · simp only [h1, h2, if_true, if_false, or_true]
      exact PushToAndroid_deferredDone conf gcm sg notification
    · simp only [h1, h2, if_false, or_self]

/-- C14 fails on the code.  `queueNotification` adds the notification of
platform 3 to the queue and increments the completion group once; the worker
that takes it from the queue calls no dispatcher and sends no `Done` signal, so
the count of the group stays at one. -/
theorem C14_other_platform_never_done :
    (queueNotification (exampleConf 0) 7 exampleOtherPlatformRequest).wgAdded = 1
      ∧ (queueNotification (exampleConf 0) 7 exampleOtherPlatformRequest).queued
        = [{ Tokens := ["t"], Platform := 3, AppID := "normal", wg := some 7 }]
      ∧ (startWorkerStep (exampleConf 0) exampleLoader alwaysSent twoResults [] () ()
          { Tokens := ["t"], Platform := 3, AppID := "normal", wg := some 7 }).2 = [] := by
  decide

end Gorush
